import Mathlib

/-!
# vtkArrayListTemplate: array pairs and their element-wise transfer operations

A shallow embedding of `Common/DataModel/vtkArrayListTemplate.h`, followed by the pick
computations of `Interaction/Widgets/vtkCenteredSliderRepresentation.cxx`.

* Buffers reached through the raw pointers `Input` and `Output` are lists; a read or a
  write outside the buffer (undefined behaviour in C++) makes the operation return `none`.
  `ArrayPair` and `RealArrayPair` are pairs whose two pointers address two buffers;
  `SelfArrayPair` is the `ArrayPair<T>` whose two pointers address one.
* Indices (`vtkIdType`) and counts (`int`) are natural numbers: the operations are only
  ever specified for ids inside the buffers, and a loop with a non-positive bound runs
  zero times.
* The arithmetic of `double` and of the element type `T` is a parameter
  (`DoubleArith`, `ElemArith`), so that what is proved holds for every element type;
  `Dbl`, `ieeeDouble` and `intElem` give the concrete arithmetic of finite binary64
  numbers and of the two's complement integer types.
* The pick computations of the slider are evaluated on `Double`: binary64 with signed
  zeros, infinities, NaN and overflow, rounding to nearest, ties to even. Every division
  they execute goes through `divide`, which enters it in a log.
-/

namespace VTK

/-! ## The arithmetic the templates are instantiated with -/

/-- The operations on the C++ type `double` that the pair operations use. -/
structure DoubleArith (D : Type) where
  /-- the literal `0.0` -/
  zero : D
  /-- the sum `a + b` of two doubles -/
  add : D → D → D
  /-- the product `a * b` of two doubles -/
  mul : D → D → D
  /-- the quotient `a / b` of two doubles -/
  div : D → D → D
  /-- the conversion `static_cast<double>(numPts)` of an `int` count -/
  ofCount : Nat → D

/-- The conversions between an element type `T` and `double` that the pair operations use. -/
structure ElemArith (D T : Type) where
  /-- the conversion `static_cast<double>(x)`, also applied implicitly in `x + d` -/
  toDouble : T → D
  /-- the conversion `static_cast<T>(v)` -/
  ofDouble : D → T
  /-- the value as a `double` of the expression `a - b` on two operands of type `T`:
  the difference is formed by the C++ rules for `T` (after the usual arithmetic
  conversions) and only then converted for the multiplication by `t` -/
  subToDouble : T → T → D

/-! ## Finite binary64 numbers -/

/-- The number of binary digits of `n`, computed with `fuel` halvings at most. -/
def bitLengthAux : Nat → Nat → Nat
  | 0, _ => 0
  | fuel + 1, n => if n = 0 then 0 else bitLengthAux fuel (n / 2) + 1

/-- The number of binary digits of `n` (`0` for `0`). -/
def bitLength (n : Nat) : Nat := bitLengthAux n n

/-- The integer nearest to `a / d`, ties going to the even one. -/
def roundHalfEven (a d : Nat) : Nat :=
  let q := a / d
  let r := a % d
  if 2 * r < d then q else if d < 2 * r then q + 1 else if q % 2 = 0 then q else q + 1

/-- A finite binary64 number, held as the integer `units` with value `units * 2^-1074`:
every finite `double`, subnormal ones included, is such a multiple. Infinities, NaN and
the sign of zero are not represented. -/
structure Dbl where
  units : Int
  deriving DecidableEq

namespace Dbl

/-- The value `1.0` counted in units of `2^-1074`. -/
def one_units : Nat := 2 ^ 1074

/-- Round the non-negative rational `a / d` (counted in units) to the nearest number
with a 53 bit significand, ties to even. -/
def roundNat (a d : Nat) : Nat :=
  let e := bitLength (a / d) - 53
  roundHalfEven a (d * 2 ^ e) * 2 ^ e

/-- Round the rational `n / d` (counted in units) to the nearest binary64 number. -/
def round (n : Int) (d : Nat) : Dbl :=
  ⟨if n < 0 then -((roundNat n.natAbs d : Nat) : Int) else ((roundNat n.natAbs d : Nat) : Int)⟩

/-- The conversion of an integer to `double`. -/
def ofInt (z : Int) : Dbl := round (z * (one_units : Int)) 1

/-- The number `z / 2^k`, rounded to `double`. -/
def ofScaled (z : Int) (k : Nat) : Dbl := round (z * (one_units : Int)) (2 ^ k)

/-- The conversion of a double to an integer: the fractional part is discarded. -/
def trunc (x : Dbl) : Int := Int.tdiv x.units (one_units : Int)

/-- The sum of two doubles. -/
def add (x y : Dbl) : Dbl := round (x.units + y.units) 1

/-- The difference of two doubles. -/
def sub (x y : Dbl) : Dbl := round (x.units - y.units) 1

/-- The product of two doubles. -/
def mul (x y : Dbl) : Dbl := round (x.units * y.units) one_units

/-- The quotient of two doubles; a zero divisor (infinity or NaN in C++) is not
represented and gives zero here. -/
def div (x y : Dbl) : Dbl :=
  if y.units = 0 then ⟨0⟩
  else round ((if y.units < 0 then -x.units else x.units) * (one_units : Int)) y.units.natAbs

end Dbl

/-- The arithmetic of `double` on finite binary64 numbers. -/
def ieeeDouble : DoubleArith Dbl where
  zero := ⟨0⟩
  add := Dbl.add
  mul := Dbl.mul
  div := Dbl.div
  ofCount := fun n => Dbl.ofInt (n : Int)

/-- The value of `z` in a `w` bit integer type, two's complement when `signed`. -/
def wrapInt (w : Nat) (signed : Bool) (z : Int) : Int :=
  let m := z % (2 : Int) ^ w
  if signed && decide ((2 : Int) ^ (w - 1) ≤ m) then m - (2 : Int) ^ w else m

/-- The value of the C++ expression `a - b` on two operands of the `w` bit integer type
(`signed` or not). Types narrower than `int` are promoted to the 32 bit `int` before
the subtraction; the others subtract in their own type, modulo `2^w`. -/
def promotedDiff (w : Nat) (signed : Bool) (a b : Int) : Int :=
  if w < 32 then wrapInt 32 true (a - b) else wrapInt w signed (a - b)

/-- The element arithmetic of the `w` bit integer type (`signed` or not), values held as
integers. A conversion from `double` whose value does not fit (undefined in C++)
wraps. -/
def intElem (w : Nat) (signed : Bool) : ElemArith Dbl Int where
  toDouble := fun x => Dbl.ofInt x
  ofDouble := fun v => wrapInt w signed (Dbl.trunc v)
  subToDouble := fun a b => Dbl.ofInt (promotedDiff w signed a b)

/-- The element arithmetic of `double` itself. -/
def doubleElem : ElemArith Dbl Dbl where
  toDouble := fun x => x
  ofDouble := fun v => v
  subToDouble := fun a b => Dbl.sub a b

/-! ## Buffers and loops -/

/-- The counted loop `for (int j = 0; j < n; ++j) body`, started in state `s`;
an iteration that fails makes the loop fail. -/
def forLoop {σ : Type} (n : Nat) (body : Nat → σ → Option σ) (s : σ) : Option σ :=
  match n with
  | 0 => some s
  | k + 1 => (forLoop k body s).bind (body k)

/-- Modelled from the spec: the output buffer object `vtkAbstractArray` (declared in
`vtkAbstractArray.h`, which is not part of the sources at hand). It has a component
count, a record count, and the storage that `GetVoidPointer(0)` hands out, whose length
is the capacity in scalars. -/
structure vtkAbstractArray (T : Type) where
  NumberOfComponents : Nat
  NumberOfTuples : Nat
  Storage : List T
  deriving DecidableEq

namespace vtkAbstractArray

variable {T : Type}

/-- Modelled from the spec: `Resize(sze)` gives the buffer a capacity of `sze` records
and keeps the logical content of the records that remain; what a new cell holds is
whatever the allocator left there, `fresh k` for the cell of index `k`. -/
def Resize (a : vtkAbstractArray T) (fresh : Nat → T) (sze : Nat) : vtkAbstractArray T :=
  { a with
    Storage := (List.range (sze * a.NumberOfComponents)).map
      (fun k => (a.Storage[k]?).getD (fresh k))
    NumberOfTuples := min a.NumberOfTuples sze }

/-- Modelled from the spec: `SetNumberOfTuples(n)` makes `n` the record count of the
buffer, enlarging the storage when it is too small for `n` records. -/
def SetNumberOfTuples (a : vtkAbstractArray T) (fresh : Nat → T) (n : Nat) :
    vtkAbstractArray T :=
  if n * a.NumberOfComponents ≤ a.Storage.length then { a with NumberOfTuples := n }
  else { Resize a fresh n with NumberOfTuples := n }

end vtkAbstractArray

/-- The struct `ArrayPair<T>` when its pointers `Input` and `Output` address two
different buffers of the same element type. The memory that the pointer `Output`
addresses is the storage of `OutputArray`. The same struct with both pointers on one
buffer is `SelfArrayPair`. -/
structure ArrayPair (T : Type) where
  Num : Nat
  NumComp : Nat
  OutputArray : vtkAbstractArray T
  Input : List T
  NullValue : T
  deriving DecidableEq

/-- The struct `RealArrayPair<TInput, TOutput>`: an input buffer and an output buffer of
a different (real) element type. -/
structure RealArrayPair (TInput TOutput : Type) where
  Num : Nat
  NumComp : Nat
  OutputArray : vtkAbstractArray TOutput
  Input : List TInput
  NullValue : TOutput
  deriving DecidableEq

namespace ArrayPair

variable {D T : Type}

/-- The memory behind the pointer `Output`. -/
def Output (p : ArrayPair T) : List T := p.OutputArray.Storage

/-- The pair with the memory behind `Output` replaced by `out`. -/
def withOutput (p : ArrayPair T) (out : List T) : ArrayPair T :=
  { p with OutputArray := { p.OutputArray with Storage := out } }

/-- The assignment `this->Output[k] = x`. -/
def store (p : ArrayPair T) (k : Nat) (x : T) : Option (ArrayPair T) :=
  if k < p.Output.length then some (p.withOutput (p.Output.set k x)) else none

/-- The method `ArrayPair<T>::Copy`. -/
def Copy (p : ArrayPair T) (inId outId : Nat) : Option (ArrayPair T) :=
  forLoop p.NumComp (fun j q => do
    let x ← q.Input[inId * q.NumComp + j]?
    q.store (outId * q.NumComp + j) x) p

/-- The method `ArrayPair<T>::Interpolate`. -/
def Interpolate (F : DoubleArith D) (A : ElemArith D T) (p : ArrayPair T)
    (numWeights : Nat) (ids : List Nat) (weights : List D) (outId : Nat) :
    Option (ArrayPair T) :=
  forLoop p.NumComp (fun j q => do
    let v ← forLoop numWeights (fun i v => do
      let w ← weights[i]?
      let id ← ids[i]?
      let x ← q.Input[id * q.NumComp + j]?
      pure (F.add v (F.mul w (A.toDouble x)))) F.zero
    q.store (outId * q.NumComp + j) (A.ofDouble v)) p

/-- The method `ArrayPair<T>::InterpolateOutput`. -/
def InterpolateOutput (F : DoubleArith D) (A : ElemArith D T) (p : ArrayPair T)
    (numWeights : Nat) (ids : List Nat) (weights : List D) (outId : Nat) :
    Option (ArrayPair T) :=
  forLoop p.NumComp (fun j q => do
    let v ← forLoop numWeights (fun i v => do
      let w ← weights[i]?
      let id ← ids[i]?
      let x ← q.Output[id * q.NumComp + j]?
      pure (F.add v (F.mul w (A.toDouble x)))) F.zero
    q.store (outId * q.NumComp + j) (A.ofDouble v)) p

/-- The method `ArrayPair<T>::Average`. -/
def Average (F : DoubleArith D) (A : ElemArith D T) (p : ArrayPair T)
    (numPts : Nat) (ids : List Nat) (outId : Nat) : Option (ArrayPair T) :=
  forLoop p.NumComp (fun j q => do
    let v ← forLoop numPts (fun i v => do
      let id ← ids[i]?
      let x ← q.Input[id * q.NumComp + j]?
      pure (F.add v (A.toDouble x))) F.zero
    let v := F.div v (F.ofCount numPts)
    q.store (outId * q.NumComp + j) (A.ofDouble v)) p

/-- The method `ArrayPair<T>::WeightedAverage`. -/
def WeightedAverage (F : DoubleArith D) (A : ElemArith D T) (p : ArrayPair T)
    (numPts : Nat) (ids : List Nat) (weights : List D) (outId : Nat) :
    Option (ArrayPair T) :=
  forLoop p.NumComp (fun j q => do
    let v ← forLoop numPts (fun i v => do
      let w ← weights[i]?
      let id ← ids[i]?
      let x ← q.Input[id * q.NumComp + j]?
      pure (F.add v (F.mul w (A.toDouble x)))) F.zero
    q.store (outId * q.NumComp + j) (A.ofDouble v)) p

/-- The method `ArrayPair<T>::InterpolateEdge`. -/
def InterpolateEdge (F : DoubleArith D) (A : ElemArith D T) (p : ArrayPair T)
    (v0 v1 : Nat) (t : D) (outId : Nat) : Option (ArrayPair T) :=
  let numComp := p.NumComp
  forLoop numComp (fun j q => do
    let x0 ← q.Input[v0 * numComp + j]?
    let x1 ← q.Input[v1 * numComp + j]?
    let x0' ← q.Input[v0 * numComp + j]?
    let v := F.add (A.toDouble x0) (F.mul t (A.subToDouble x1 x0'))
    q.store (outId * numComp + j) (A.ofDouble v)) p

/-- The method `ArrayPair<T>::AssignNullValue`. -/
def AssignNullValue (p : ArrayPair T) (outId : Nat) : Option (ArrayPair T) :=
  forLoop p.NumComp (fun j q => q.store (outId * q.NumComp + j) q.NullValue) p

/-- The method `ArrayPair<T>::Realloc`: resize the output array, set its record count,
and point `Output` at its storage again. `fresh` is the content of newly allocated
cells. -/
def Realloc (p : ArrayPair T) (fresh : Nat → T) (sze : Nat) : ArrayPair T :=
  { p with OutputArray := (p.OutputArray.Resize fresh sze).SetNumberOfTuples fresh sze }

end ArrayPair

namespace RealArrayPair

variable {D TInput TOutput : Type}

/-- The memory behind the pointer `Output`. -/
def Output (p : RealArrayPair TInput TOutput) : List TOutput := p.OutputArray.Storage

/-- The pair with the memory behind `Output` replaced by `out`. -/
def withOutput (p : RealArrayPair TInput TOutput) (out : List TOutput) :
    RealArrayPair TInput TOutput :=
  { p with OutputArray := { p.OutputArray with Storage := out } }

/-- The assignment `this->Output[k] = x`. -/
def store (p : RealArrayPair TInput TOutput) (k : Nat) (x : TOutput) :
    Option (RealArrayPair TInput TOutput) :=
  if k < p.Output.length then some (p.withOutput (p.Output.set k x)) else none

/-- The method `RealArrayPair<TInput, TOutput>::Copy`; `cast` is the conversion
`static_cast<TOutput>` of an input element. -/
def Copy (cast : TInput → TOutput) (p : RealArrayPair TInput TOutput) (inId outId : Nat) :
    Option (RealArrayPair TInput TOutput) :=
  forLoop p.NumComp (fun j q => do
    let x ← q.Input[inId * q.NumComp + j]?
    q.store (outId * q.NumComp + j) (cast x)) p

/-- The method `RealArrayPair<TInput, TOutput>::Interpolate`. -/
def Interpolate (F : DoubleArith D) (AI : ElemArith D TInput) (AO : ElemArith D TOutput)
    (p : RealArrayPair TInput TOutput)
    (numWeights : Nat) (ids : List Nat) (weights : List D) (outId : Nat) :
    Option (RealArrayPair TInput TOutput) :=
  forLoop p.NumComp (fun j q => do
    let v ← forLoop numWeights (fun i v => do
      let w ← weights[i]?
      let id ← ids[i]?
      let x ← q.Input[id * q.NumComp + j]?
      pure (F.add v (F.mul w (AI.toDouble x)))) F.zero
    q.store (outId * q.NumComp + j) (AO.ofDouble v)) p

/-- The method `RealArrayPair<TInput, TOutput>::InterpolateOutput`. -/
def InterpolateOutput (F : DoubleArith D) (AO : ElemArith D TOutput)
    (p : RealArrayPair TInput TOutput)
    (numWeights : Nat) (ids : List Nat) (weights : List D) (outId : Nat) :
    Option (RealArrayPair TInput TOutput) :=
  forLoop p.NumComp (fun j q => do
    let v ← forLoop numWeights (fun i v => do
      let w ← weights[i]?
      let id ← ids[i]?
      let x ← q.Output[id * q.NumComp + j]?
      pure (F.add v (F.mul w (AO.toDouble x)))) F.zero
    q.store (outId * q.NumComp + j) (AO.ofDouble v)) p

/-- The method `RealArrayPair<TInput, TOutput>::Average`. -/
def Average (F : DoubleArith D) (AI : ElemArith D TInput) (AO : ElemArith D TOutput)
    (p : RealArrayPair TInput TOutput)
    (numPts : Nat) (ids : List Nat) (outId : Nat) : Option (RealArrayPair TInput TOutput) :=
  forLoop p.NumComp (fun j q => do
    let v ← forLoop numPts (fun i v => do
      let id ← ids[i]?
      let x ← q.Input[id * q.NumComp + j]?
      pure (F.add v (AI.toDouble x))) F.zero
    let v := F.div v (F.ofCount numPts)
    q.store (outId * q.NumComp + j) (AO.ofDouble v)) p

/-- The method `RealArrayPair<TInput, TOutput>::WeightedAverage`. -/
def WeightedAverage (F : DoubleArith D) (AI : ElemArith D TInput) (AO : ElemArith D TOutput)
    (p : RealArrayPair TInput TOutput)
    (numPts : Nat) (ids : List Nat) (weights : List D) (outId : Nat) :
    Option (RealArrayPair TInput TOutput) :=
  forLoop p.NumComp (fun j q => do
    let v ← forLoop numPts (fun i v => do
      let w ← weights[i]?
      let id ← ids[i]?
      let x ← q.Input[id * q.NumComp + j]?
      pure (F.add v (F.mul w (AI.toDouble x)))) F.zero
    q.store (outId * q.NumComp + j) (AO.ofDouble v)) p

/-- The method `RealArrayPair<TInput, TOutput>::InterpolateEdge`. -/
def InterpolateEdge (F : DoubleArith D) (AI : ElemArith D TInput) (AO : ElemArith D TOutput)
    (p : RealArrayPair TInput TOutput)
    (v0 v1 : Nat) (t : D) (outId : Nat) : Option (RealArrayPair TInput TOutput) :=
  let numComp := p.NumComp
  forLoop numComp (fun j q => do
    let x0 ← q.Input[v0 * numComp + j]?
    let x1 ← q.Input[v1 * numComp + j]?
    let x0' ← q.Input[v0 * numComp + j]?
    let v := F.add (AI.toDouble x0) (F.mul t (AI.subToDouble x1 x0'))
    q.store (outId * numComp + j) (AO.ofDouble v)) p

/-- The method `RealArrayPair<TInput, TOutput>::AssignNullValue`. -/
def AssignNullValue (p : RealArrayPair TInput TOutput) (outId : Nat) :
    Option (RealArrayPair TInput TOutput) :=
  forLoop p.NumComp (fun j q => q.store (outId * q.NumComp + j) q.NullValue) p

/-- The method `RealArrayPair<TInput, TOutput>::Realloc`. -/
def Realloc (p : RealArrayPair TInput TOutput) (fresh : Nat → TOutput) (sze : Nat) :
    RealArrayPair TInput TOutput :=
  { p with OutputArray := (p.OutputArray.Resize fresh sze).SetNumberOfTuples fresh sze }

end RealArrayPair

/-! ## A pair that reads and writes one buffer -/

/-- The struct `ArrayPair<T>` when its pointers `Input` and `Output` hold the same
address: one buffer, the storage of `OutputArray`, is read through `Input` and written
through `Output`, so that a cell written is the new value of that cell for every later
read of the input. Both fields are plain `T*` (l.89-93) and nothing keeps them apart; a
pair that interpolates an array from its own values, which is what
`AddSelfInterpolatingArrays` (l.325-327) adds, is of this form. -/
structure SelfArrayPair (T : Type) where
  Num : Nat
  NumComp : Nat
  OutputArray : vtkAbstractArray T
  NullValue : T
  deriving DecidableEq

namespace SelfArrayPair

variable {D T : Type}

/-- The memory behind the pointer `Output`. -/
def Output (p : SelfArrayPair T) : List T := p.OutputArray.Storage

/-- The memory behind the pointer `Input`: the same memory. -/
def Input (p : SelfArrayPair T) : List T := p.OutputArray.Storage

/-- The pair with the memory behind `Output`, and so behind `Input`, replaced by `out`. -/
def withOutput (p : SelfArrayPair T) (out : List T) : SelfArrayPair T :=
  { p with OutputArray := { p.OutputArray with Storage := out } }

/-- The assignment `this->Output[k] = x`; the cell is the cell `this->Input[k]` too. -/
def store (p : SelfArrayPair T) (k : Nat) (x : T) : Option (SelfArrayPair T) :=
  if k < p.Output.length then some (p.withOutput (p.Output.set k x)) else none

/-- The method `ArrayPair<T>::Copy` on a pair of one buffer. -/
def Copy (p : SelfArrayPair T) (inId outId : Nat) : Option (SelfArrayPair T) :=
  forLoop p.NumComp (fun j q => do
    let x ← q.Input[inId * q.NumComp + j]?
    q.store (outId * q.NumComp + j) x) p

/-- The method `ArrayPair<T>::Interpolate` on a pair of one buffer. -/
def Interpolate (F : DoubleArith D) (A : ElemArith D T) (p : SelfArrayPair T)
    (numWeights : Nat) (ids : List Nat) (weights : List D) (outId : Nat) :
    Option (SelfArrayPair T) :=
  forLoop p.NumComp (fun j q => do
    let v ← forLoop numWeights (fun i v => do
      let w ← weights[i]?
      let id ← ids[i]?
      let x ← q.Input[id * q.NumComp + j]?
      pure (F.add v (F.mul w (A.toDouble x)))) F.zero
    q.store (outId * q.NumComp + j) (A.ofDouble v)) p

/-- The method `ArrayPair<T>::InterpolateOutput` on a pair of one buffer. -/
def InterpolateOutput (F : DoubleArith D) (A : ElemArith D T) (p : SelfArrayPair T)
    (numWeights : Nat) (ids : List Nat) (weights : List D) (outId : Nat) :
    Option (SelfArrayPair T) :=
  forLoop p.NumComp (fun j q => do
    let v ← forLoop numWeights (fun i v => do
      let w ← weights[i]?
      let id ← ids[i]?
      let x ← q.Output[id * q.NumComp + j]?
      pure (F.add v (F.mul w (A.toDouble x)))) F.zero
    q.store (outId * q.NumComp + j) (A.ofDouble v)) p

/-- The method `ArrayPair<T>::Average` on a pair of one buffer. -/
def Average (F : DoubleArith D) (A : ElemArith D T) (p : SelfArrayPair T)
    (numPts : Nat) (ids : List Nat) (outId : Nat) : Option (SelfArrayPair T) :=
  forLoop p.NumComp (fun j q => do
    let v ← forLoop numPts (fun i v => do
      let id ← ids[i]?
      let x ← q.Input[id * q.NumComp + j]?
      pure (F.add v (A.toDouble x))) F.zero
    let v := F.div v (F.ofCount numPts)
    q.store (outId * q.NumComp + j) (A.ofDouble v)) p

/-- The method `ArrayPair<T>::WeightedAverage` on a pair of one buffer. -/
def WeightedAverage (F : DoubleArith D) (A : ElemArith D T) (p : SelfArrayPair T)
    (numPts : Nat) (ids : List Nat) (weights : List D) (outId : Nat) :
    Option (SelfArrayPair T) :=
  forLoop p.NumComp (fun j q => do
    let v ← forLoop numPts (fun i v => do
      let w ← weights[i]?
      let id ← ids[i]?
      let x ← q.Input[id * q.NumComp + j]?
      pure (F.add v (F.mul w (A.toDouble x)))) F.zero
    q.store (outId * q.NumComp + j) (A.ofDouble v)) p

/-- The method `ArrayPair<T>::InterpolateEdge` on a pair of one buffer. -/
def InterpolateEdge (F : DoubleArith D) (A : ElemArith D T) (p : SelfArrayPair T)
    (v0 v1 : Nat) (t : D) (outId : Nat) : Option (SelfArrayPair T) :=
  let numComp := p.NumComp
  forLoop numComp (fun j q => do
    let x0 ← q.Input[v0 * numComp + j]?
    let x1 ← q.Input[v1 * numComp + j]?
    let x0' ← q.Input[v0 * numComp + j]?
    let v := F.add (A.toDouble x0) (F.mul t (A.subToDouble x1 x0'))
    q.store (outId * numComp + j) (A.ofDouble v)) p

/-- The method `ArrayPair<T>::AssignNullValue` on a pair of one buffer. -/
def AssignNullValue (p : SelfArrayPair T) (outId : Nat) : Option (SelfArrayPair T) :=
  forLoop p.NumComp (fun j q => q.store (outId * q.NumComp + j) q.NullValue) p

/-- The method `ArrayPair<T>::Realloc` on a pair of one buffer. The method reads `Output`
again from the resized array and leaves `Input` alone (l.186-191); `Resize` (see
`vtkAbstractArray.Resize`) may move the storage, and a view obtained before the move is
not valid after it. The pair that results has two buffers: the resized output, and an
input that no read is defined on, the empty list. -/
def Realloc (p : SelfArrayPair T) (fresh : Nat → T) (sze : Nat) : ArrayPair T :=
  { Num := p.Num, NumComp := p.NumComp,
    OutputArray := (p.OutputArray.Resize fresh sze).SetNumberOfTuples fresh sze,
    Input := [], NullValue := p.NullValue }

end SelfArrayPair

/-! ## What the loops compute -/

/-- The buffer `out` after the assignments `out[base + j] = w j` for `j = 0 .. n-1`. -/
def writeRec {T : Type} (out : List T) (base : Nat) (w : Nat → T) : Nat → List T
  | 0 => out
  | k + 1 => (writeRec out base w k).set (base + k) (w k)

/-- The value of `v` after `for (i = 0; i < n; ++i) v = step v i`, started at `init`. -/
def accumulate {D : Type} (step : D → Nat → D) (init : D) (n : Nat) : D :=
  (List.range n).foldl step init

/-! ## Concrete pairs used in the examples -/

/-- The double `0.5`. -/
def half : Dbl := Dbl.ofScaled 1 1

/-- A two-component pair of three records over a 32 bit integer type. -/
def examplePair : ArrayPair Int :=
  { Num := 3, NumComp := 2,
    OutputArray := { NumberOfComponents := 2, NumberOfTuples := 3, Storage := [0, 0, 0, 0, 0, 0] },
    Input := [1, 2, 3, 4, 5, 6], NullValue := -1 }

/-- A two-component pair of three records from a 32 bit integer type to `double`. -/
def exampleRealPair : RealArrayPair Int Dbl :=
  { Num := 3, NumComp := 2,
    OutputArray := { NumberOfComponents := 2, NumberOfTuples := 3,
                     Storage := List.replicate 6 (Dbl.ofInt 0) },
    Input := [1, 2, 3, 4, 5, 6], NullValue := Dbl.ofInt (-1) }

/-- Scenario A: a one-component `int32` pair with input `[10, 20, 30]`. -/
def scenarioA : ArrayPair Int :=
  { Num := 3, NumComp := 1,
    OutputArray := { NumberOfComponents := 1, NumberOfTuples := 3, Storage := [0, 0, 0] },
    Input := [10, 20, 30], NullValue := 0 }

/-- Scenario B: a one-component pair with `int` input `[1, 2, 3]` and `double` output. -/
def scenarioB : RealArrayPair Int Dbl :=
  { Num := 3, NumComp := 1,
    OutputArray := { NumberOfComponents := 1, NumberOfTuples := 3,
                     Storage := List.replicate 3 (Dbl.ofInt 0) },
    Input := [1, 2, 3], NullValue := Dbl.ofInt 0 }

/-- Scenario C: a two-component pair of real values with null value `-1.0`, three
records, whose output buffer holds `out` (real values are held as `Dbl`). -/
def scenarioC (out : List Dbl) : ArrayPair Dbl :=
  { Num := 3, NumComp := 2,
    OutputArray := { NumberOfComponents := 2, NumberOfTuples := 3, Storage := out },
    Input := List.replicate 6 (Dbl.ofInt 7), NullValue := Dbl.ofInt (-1) }

/-- A one-component `int64` pair of two records whose input holds `2^53 + 1`, an integer
that is not a `double`. -/
def bigPair : ArrayPair Int :=
  { Num := 2, NumComp := 1,
    OutputArray := { NumberOfComponents := 1, NumberOfTuples := 2, Storage := [0, 0] },
    Input := [0, 9007199254740993], NullValue := 0 }

/-- A two-component `int32` pair whose output buffer already holds the records
`(10, 20)` and `(30, 40)`. -/
def filledPair : ArrayPair Int :=
  { Num := 3, NumComp := 2,
    OutputArray := { NumberOfComponents := 2, NumberOfTuples := 3,
                     Storage := [10, 20, 30, 40, 0, 0] },
    Input := [1, 2, 3, 4, 5, 6], NullValue := -1 }

/-- A two-component pair from `int32` to `double` whose output buffer already holds the
records `(10.0, 20.0)` and `(30.0, 40.0)`. -/
def filledRealPair : RealArrayPair Int Dbl :=
  { Num := 3, NumComp := 2,
    OutputArray := { NumberOfComponents := 2, NumberOfTuples := 3,
                     Storage := [Dbl.ofInt 10, Dbl.ofInt 20, Dbl.ofInt 30, Dbl.ofInt 40,
                                 Dbl.ofInt 0, Dbl.ofInt 0] },
    Input := [1, 2, 3, 4, 5, 6], NullValue := Dbl.ofInt (-1) }

/-! ## One invocation of a processing operation -/

/-- The arguments of one invocation of a processing-phase operation of a pair, the output
record `outId` apart. -/
inductive PairOp (D : Type) where
  | Copy (inId : Nat)
  | Interpolate (numWeights : Nat) (ids : List Nat) (weights : List D)
  | InterpolateOutput (numWeights : Nat) (ids : List Nat) (weights : List D)
  | Average (numPts : Nat) (ids : List Nat)
  | WeightedAverage (numPts : Nat) (ids : List Nat) (weights : List D)
  | InterpolateEdge (v0 v1 : Nat) (t : D)
  | AssignNullValue

/-- The output records an invocation reads: the ids of `InterpolateOutput`; the other
operations read the input buffer only. -/
def PairOp.reads {D : Type} : PairOp D → List Nat
  | .InterpolateOutput numWeights ids _ => ids.take numWeights
  | _ => []

/-- The input records an invocation reads: every record the operations other than
`InterpolateOutput` and `AssignNullValue` are given an id of. -/
def PairOp.inputReads {D : Type} : PairOp D → List Nat
  | .Copy inId => [inId]
  | .Interpolate numWeights ids _ => ids.take numWeights
  | .InterpolateOutput _ _ _ => []
  | .Average numPts ids => ids.take numPts
  | .WeightedAverage numPts ids _ => ids.take numPts
  | .InterpolateEdge v0 v1 _ => [v0, v1]
  | .AssignNullValue => []

/-- The record `id` of `nc` components lies inside the buffer `buf`. -/
def recordInside {α : Type} (buf : List α) (nc id : Nat) : Prop :=
  ∀ j, j < nc → id * nc + j < buf.length

namespace ArrayPair

variable {D T : Type}

/-- The invocation `op` of a method of `ArrayPair<T>` on output record `outId`. -/
def apply (F : DoubleArith D) (A : ElemArith D T) (p : ArrayPair T) (op : PairOp D)
    (outId : Nat) : Option (ArrayPair T) :=
  match op with
  | .Copy inId => p.Copy inId outId
  | .Interpolate numWeights ids weights => p.Interpolate F A numWeights ids weights outId
  | .InterpolateOutput numWeights ids weights =>
      p.InterpolateOutput F A numWeights ids weights outId
  | .Average numPts ids => p.Average F A numPts ids outId
  | .WeightedAverage numPts ids weights => p.WeightedAverage F A numPts ids weights outId
  | .InterpolateEdge v0 v1 t => p.InterpolateEdge F A v0 v1 t outId
  | .AssignNullValue => p.AssignNullValue outId

/-- The arguments of the invocation are in range: the output record lies inside the
output buffer, the ids and weights the loops index exist, and the records read lie inside
the buffer they are read from. -/
def InRange (p : ArrayPair T) (op : PairOp D) (outId : Nat) : Prop :=
  recordInside p.Output p.NumComp outId ∧
  match op with
  | .Copy inId => recordInside p.Input p.NumComp inId
  | .Interpolate numWeights ids weights =>
      numWeights ≤ ids.length ∧ numWeights ≤ weights.length ∧
      ∀ id, id ∈ ids.take numWeights → recordInside p.Input p.NumComp id
  | .InterpolateOutput numWeights ids weights =>
      numWeights ≤ ids.length ∧ numWeights ≤ weights.length ∧
      ∀ id, id ∈ ids.take numWeights → recordInside p.Output p.NumComp id
  | .Average numPts ids =>
      numPts ≤ ids.length ∧ ∀ id, id ∈ ids.take numPts → recordInside p.Input p.NumComp id
  | .WeightedAverage numPts ids weights =>
      numPts ≤ ids.length ∧ numPts ≤ weights.length ∧
      ∀ id, id ∈ ids.take numPts → recordInside p.Input p.NumComp id
  | .InterpolateEdge v0 v1 _ =>
      recordInside p.Input p.NumComp v0 ∧ recordInside p.Input p.NumComp v1
  | .AssignNullValue => True

/-- The value that the loop body of the invocation `op` computes for component `j` in
the state `q`, before it is stored (`nc` is the component count). -/
def opValue (F : DoubleArith D) (A : ElemArith D T) (op : PairOp D) (nc j : Nat)
    (q : ArrayPair T) : Option T :=
  match op with
  | .Copy inId => q.Input[inId * nc + j]?
  | .Interpolate numWeights ids weights =>
      (forLoop numWeights (fun i v => do
        let w ← weights[i]?
        let id ← ids[i]?
        let x ← q.Input[id * nc + j]?
        pure (F.add v (F.mul w (A.toDouble x)))) F.zero).map A.ofDouble
  | .InterpolateOutput numWeights ids weights =>
      (forLoop numWeights (fun i v => do
        let w ← weights[i]?
        let id ← ids[i]?
        let x ← q.Output[id * nc + j]?
        pure (F.add v (F.mul w (A.toDouble x)))) F.zero).map A.ofDouble
  | .Average numPts ids =>
      (forLoop numPts (fun i v => do
        let id ← ids[i]?
        let x ← q.Input[id * nc + j]?
        pure (F.add v (A.toDouble x))) F.zero).map
          (fun v => A.ofDouble (F.div v (F.ofCount numPts)))
  | .WeightedAverage numPts ids weights =>
      (forLoop numPts (fun i v => do
        let w ← weights[i]?
        let id ← ids[i]?
        let x ← q.Input[id * nc + j]?
        pure (F.add v (F.mul w (A.toDouble x)))) F.zero).map A.ofDouble
  | .InterpolateEdge v0 v1 t => do
      let x0 ← q.Input[v0 * nc + j]?
      let x1 ← q.Input[v1 * nc + j]?
      let x0' ← q.Input[v0 * nc + j]?
      pure (A.ofDouble (F.add (A.toDouble x0) (F.mul t (A.subToDouble x1 x0'))))
  | .AssignNullValue => some q.NullValue

/-- The components that the invocation `op` stores in its output record, computed from
the state `p` before the call. -/
def opValues (F : DoubleArith D) (A : ElemArith D T) (p : ArrayPair T) (op : PairOp D)
    (j : Nat) : T :=
  (opValue F A op p.NumComp j p).getD p.NullValue

end ArrayPair

namespace RealArrayPair

variable {D TInput TOutput : Type}

/-- The invocation `op` of a method of `RealArrayPair<TInput, TOutput>` on output record `outId`. -/
def apply (F : DoubleArith D) (AI : ElemArith D TInput) (AO : ElemArith D TOutput)
    (cast : TInput → TOutput) (p : RealArrayPair TInput TOutput) (op : PairOp D)
    (outId : Nat) : Option (RealArrayPair TInput TOutput) :=
  match op with
  | .Copy inId => p.Copy cast inId outId
  | .Interpolate numWeights ids weights => p.Interpolate F AI AO numWeights ids weights outId
  | .InterpolateOutput numWeights ids weights =>
      p.InterpolateOutput F AO numWeights ids weights outId
  | .Average numPts ids => p.Average F AI AO numPts ids outId
  | .WeightedAverage numPts ids weights => p.WeightedAverage F AI AO numPts ids weights outId
  | .InterpolateEdge v0 v1 t => p.InterpolateEdge F AI AO v0 v1 t outId
  | .AssignNullValue => p.AssignNullValue outId

/-- The arguments of the invocation are in range: the output record lies inside the
output buffer, the ids and weights the loops index exist, and the records read lie inside
the buffer they are read from. -/
def InRange (p : RealArrayPair TInput TOutput) (op : PairOp D) (outId : Nat) : Prop :=
  recordInside p.Output p.NumComp outId ∧
  match op with
  | .Copy inId => recordInside p.Input p.NumComp inId
  | .Interpolate numWeights ids weights =>
      numWeights ≤ ids.length ∧ numWeights ≤ weights.length ∧
      ∀ id, id ∈ ids.take numWeights → recordInside p.Input p.NumComp id
  | .InterpolateOutput numWeights ids weights =>
      numWeights ≤ ids.length ∧ numWeights ≤ weights.length ∧
      ∀ id, id ∈ ids.take numWeights → recordInside p.Output p.NumComp id
  | .Average numPts ids =>
      numPts ≤ ids.length ∧ ∀ id, id ∈ ids.take numPts → recordInside p.Input p.NumComp id
  | .WeightedAverage numPts ids weights =>
      numPts ≤ ids.length ∧ numPts ≤ weights.length ∧
      ∀ id, id ∈ ids.take numPts → recordInside p.Input p.NumComp id
  | .InterpolateEdge v0 v1 _ =>
      recordInside p.Input p.NumComp v0 ∧ recordInside p.Input p.NumComp v1
  | .AssignNullValue => True

/-- The value that the loop body of the invocation `op` computes for component `j` in
the state `q`, before it is stored (`nc` is the component count). -/
def opValue (F : DoubleArith D) (AI : ElemArith D TInput) (AO : ElemArith D TOutput)
    (cast : TInput → TOutput) (op : PairOp D) (nc j : Nat)
    (q : RealArrayPair TInput TOutput) : Option TOutput :=
  match op with
  | .Copy inId => (q.Input[inId * nc + j]?).map cast
  | .Interpolate numWeights ids weights =>
      (forLoop numWeights (fun i v => do
        let w ← weights[i]?
        let id ← ids[i]?
        let x ← q.Input[id * nc + j]?
        pure (F.add v (F.mul w (AI.toDouble x)))) F.zero).map AO.ofDouble
  | .InterpolateOutput numWeights ids weights =>
      (forLoop numWeights (fun i v => do
        let w ← weights[i]?
        let id ← ids[i]?
        let x ← q.Output[id * nc + j]?
        pure (F.add v (F.mul w (AO.toDouble x)))) F.zero).map AO.ofDouble
  | .Average numPts ids =>
      (forLoop numPts (fun i v => do
        let id ← ids[i]?
        let x ← q.Input[id * nc + j]?
        pure (F.add v (AI.toDouble x))) F.zero).map
          (fun v => AO.ofDouble (F.div v (F.ofCount numPts)))
  | .WeightedAverage numPts ids weights =>
      (forLoop numPts (fun i v => do
        let w ← weights[i]?
        let id ← ids[i]?
        let x ← q.Input[id * nc + j]?
        pure (F.add v (F.mul w (AI.toDouble x)))) F.zero).map AO.ofDouble
  | .InterpolateEdge v0 v1 t => do
      let x0 ← q.Input[v0 * nc + j]?
      let x1 ← q.Input[v1 * nc + j]?
      let x0' ← q.Input[v0 * nc + j]?
      pure (AO.ofDouble (F.add (AI.toDouble x0) (F.mul t (AI.subToDouble x1 x0'))))
  | .AssignNullValue => some q.NullValue

/-- The components that the invocation `op` stores in its output record, computed from
the state `p` before the call. -/
def opValues (F : DoubleArith D) (AI : ElemArith D TInput) (AO : ElemArith D TOutput)
    (cast : TInput → TOutput) (p : RealArrayPair TInput TOutput) (op : PairOp D)
    (j : Nat) : TOutput :=
  (opValue F AI AO cast op p.NumComp j p).getD p.NullValue

end RealArrayPair

namespace SelfArrayPair

variable {D T : Type}

/-- What the two pointers of a pair of one buffer show at one instant: a pair whose input
and whose output both hold the present content of the buffer. -/
def snapshot (p : SelfArrayPair T) : ArrayPair T :=
  { Num := p.Num, NumComp := p.NumComp, OutputArray := p.OutputArray, Input := p.Input,
    NullValue := p.NullValue }

/-- The invocation `op` of a method of `ArrayPair<T>` on output record `outId` of a pair
of one buffer. -/
def apply (F : DoubleArith D) (A : ElemArith D T) (p : SelfArrayPair T) (op : PairOp D)
    (outId : Nat) : Option (SelfArrayPair T) :=
  match op with
  | .Copy inId => p.Copy inId outId
  | .Interpolate numWeights ids weights => p.Interpolate F A numWeights ids weights outId
  | .InterpolateOutput numWeights ids weights =>
      p.InterpolateOutput F A numWeights ids weights outId
  | .Average numPts ids => p.Average F A numPts ids outId
  | .WeightedAverage numPts ids weights => p.WeightedAverage F A numPts ids weights outId
  | .InterpolateEdge v0 v1 t => p.InterpolateEdge F A v0 v1 t outId
  | .AssignNullValue => p.AssignNullValue outId

/-- The arguments of the invocation are in range: they are in range for the buffer seen
as input and as output. -/
def InRange (p : SelfArrayPair T) (op : PairOp D) (outId : Nat) : Prop :=
  p.snapshot.InRange op outId

end SelfArrayPair

/-! ## The list of pairs -/

/-- The struct `BaseArrayPair` behind which the list holds its pairs: a pair of either
kind together with the arithmetic of its element types (what the virtual methods of the
concrete struct were instantiated with), the element types themselves being hidden. An
`ArrayPair<T>` is held as `typed` when its input and output are two buffers and as `self`
when they are one. -/
inductive BaseArrayPair (D : Type) : Type 1 where
  | typed (T : Type) (A : ElemArith D T) (p : ArrayPair T)
  | real (TInput TOutput : Type) (AI : ElemArith D TInput) (AO : ElemArith D TOutput)
      (cast : TInput → TOutput) (p : RealArrayPair TInput TOutput)
  | self (T : Type) (A : ElemArith D T) (p : SelfArrayPair T)

namespace BaseArrayPair

variable {D : Type}

/-- The element type of the output buffer of the pair. -/
def outType : BaseArrayPair D → Type
  | .typed T _ _ => T
  | .real _ TOutput _ _ _ _ => TOutput
  | .self T _ _ => T

/-- The field `NumComp` of the pair. -/
def NumComp : BaseArrayPair D → Nat
  | .typed _ _ p => p.NumComp
  | .real _ _ _ _ _ p => p.NumComp
  | .self _ _ p => p.NumComp

/-- The record count of `OutputArray`. -/
def NumberOfTuples : BaseArrayPair D → Nat
  | .typed _ _ p => p.OutputArray.NumberOfTuples
  | .real _ _ _ _ _ p => p.OutputArray.NumberOfTuples
  | .self _ _ p => p.OutputArray.NumberOfTuples

/-- The virtual method `Copy`. -/
def Copy (a : BaseArrayPair D) (inId outId : Nat) : Option (BaseArrayPair D) :=
  match a with
  | .typed T A p => (p.Copy inId outId).map (.typed T A)
  | .real TInput TOutput AI AO cast p =>
      (p.Copy cast inId outId).map (.real TInput TOutput AI AO cast)
  | .self T A p => (p.Copy inId outId).map (.self T A)

/-- The virtual method `Interpolate`. -/
def Interpolate (F : DoubleArith D) (a : BaseArrayPair D) (numWeights : Nat)
    (ids : List Nat) (weights : List D) (outId : Nat) : Option (BaseArrayPair D) :=
  match a with
  | .typed T A p => (p.Interpolate F A numWeights ids weights outId).map (.typed T A)
  | .real TInput TOutput AI AO cast p =>
      (p.Interpolate F AI AO numWeights ids weights outId).map
        (.real TInput TOutput AI AO cast)
  | .self T A p => (p.Interpolate F A numWeights ids weights outId).map (.self T A)

/-- The virtual method `InterpolateOutput`. -/
def InterpolateOutput (F : DoubleArith D) (a : BaseArrayPair D) (numWeights : Nat)
    (ids : List Nat) (weights : List D) (outId : Nat) : Option (BaseArrayPair D) :=
  match a with
  | .typed T A p => (p.InterpolateOutput F A numWeights ids weights outId).map (.typed T A)
  | .real TInput TOutput AI AO cast p =>
      (p.InterpolateOutput F AO numWeights ids weights outId).map
        (.real TInput TOutput AI AO cast)
  | .self T A p => (p.InterpolateOutput F A numWeights ids weights outId).map (.self T A)

/-- The virtual method `Average`. -/
def Average (F : DoubleArith D) (a : BaseArrayPair D) (numPts : Nat) (ids : List Nat)
    (outId : Nat) : Option (BaseArrayPair D) :=
  match a with
  | .typed T A p => (p.Average F A numPts ids outId).map (.typed T A)
  | .real TInput TOutput AI AO cast p =>
      (p.Average F AI AO numPts ids outId).map (.real TInput TOutput AI AO cast)
  | .self T A p => (p.Average F A numPts ids outId).map (.self T A)

/-- The virtual method `WeightedAverage`. -/
def WeightedAverage (F : DoubleArith D) (a : BaseArrayPair D) (numPts : Nat)
    (ids : List Nat) (weights : List D) (outId : Nat) : Option (BaseArrayPair D) :=
  match a with
  | .typed T A p => (p.WeightedAverage F A numPts ids weights outId).map (.typed T A)
  | .real TInput TOutput AI AO cast p =>
      (p.WeightedAverage F AI AO numPts ids weights outId).map
        (.real TInput TOutput AI AO cast)
  | .self T A p => (p.WeightedAverage F A numPts ids weights outId).map (.self T A)

/-- The virtual method `InterpolateEdge`. -/
def InterpolateEdge (F : DoubleArith D) (a : BaseArrayPair D) (v0 v1 : Nat) (t : D)
    (outId : Nat) : Option (BaseArrayPair D) :=
  match a with
  | .typed T A p => (p.InterpolateEdge F A v0 v1 t outId).map (.typed T A)
  | .real TInput TOutput AI AO cast p =>
      (p.InterpolateEdge F AI AO v0 v1 t outId).map (.real TInput TOutput AI AO cast)
  | .self T A p => (p.InterpolateEdge F A v0 v1 t outId).map (.self T A)

/-- The virtual method `AssignNullValue`. -/
def AssignNullValue (a : BaseArrayPair D) (outId : Nat) : Option (BaseArrayPair D) :=
  match a with
  | .typed T A p => (p.AssignNullValue outId).map (.typed T A)
  | .real TInput TOutput AI AO cast p =>
      (p.AssignNullValue outId).map (.real TInput TOutput AI AO cast)
  | .self T A p => (p.AssignNullValue outId).map (.self T A)

/-- The virtual method `Realloc`; `fresh` is the content of newly allocated cells. A
pair of one buffer comes out as a pair of two (`SelfArrayPair.Realloc`). -/
def Realloc (a : BaseArrayPair D) (fresh : Nat → a.outType) (sze : Nat) : BaseArrayPair D :=
  match a, fresh with
  | .typed T A p, fresh => .typed T A (p.Realloc fresh sze)
  | .real TInput TOutput AI AO cast p, fresh =>
      .real TInput TOutput AI AO cast (p.Realloc fresh sze)
  | .self T A p, fresh => .typed T A (p.Realloc fresh sze)

/-- The invocation `op` of a virtual method on output record `outId`. -/
def apply (F : DoubleArith D) (a : BaseArrayPair D) (op : PairOp D) (outId : Nat) :
    Option (BaseArrayPair D) :=
  match op with
  | .Copy inId => a.Copy inId outId
  | .Interpolate numWeights ids weights => a.Interpolate F numWeights ids weights outId
  | .InterpolateOutput numWeights ids weights =>
      a.InterpolateOutput F numWeights ids weights outId
  | .Average numPts ids => a.Average F numPts ids outId
  | .WeightedAverage numPts ids weights => a.WeightedAverage F numPts ids weights outId
  | .InterpolateEdge v0 v1 t => a.InterpolateEdge F v0 v1 t outId
  | .AssignNullValue => a.AssignNullValue outId

/-- The arguments of the invocation are in range for the pair. -/
def InRange (a : BaseArrayPair D) (op : PairOp D) (outId : Nat) : Prop :=
  match a with
  | .typed _ _ p => p.InRange op outId
  | .real _ _ _ _ _ p => p.InRange op outId
  | .self _ _ p => p.InRange op outId

/-- The pair `a'` is the pair `a` with another output array: the same kind, element types
and arithmetic, the same `Num`, `NumComp` and `NullValue`, and, when input and output are
two buffers, the same input buffer. The input of a pair of one buffer is the storage of
its output array: it is whatever that array holds in `a'`. -/
inductive SameBinding : BaseArrayPair D → BaseArrayPair D → Prop
  | typed (T : Type) (A : ElemArith D T) (p : ArrayPair T) (arr : vtkAbstractArray T) :
      SameBinding (.typed T A p) (.typed T A { p with OutputArray := arr })
  | real (TInput TOutput : Type) (AI : ElemArith D TInput) (AO : ElemArith D TOutput)
      (cast : TInput → TOutput) (p : RealArrayPair TInput TOutput)
      (arr : vtkAbstractArray TOutput) :
      SameBinding (.real TInput TOutput AI AO cast p)
        (.real TInput TOutput AI AO cast { p with OutputArray := arr })
  | self (T : Type) (A : ElemArith D T) (p : SelfArrayPair T) (arr : vtkAbstractArray T) :
      SameBinding (.self T A p) (.self T A { p with OutputArray := arr })

/-- The input and the output of the pair are two buffers. -/
def Separate : BaseArrayPair D → Prop
  | .typed _ _ _ => True
  | .real _ _ _ _ _ _ => True
  | .self _ _ _ => False

end BaseArrayPair

/-- The range-based loop `for (auto& array : this->Arrays) array->method(...)`: every
element in turn is replaced by what the method makes of it; a call that fails makes the
loop fail. -/
def forEach {α : Type 1} (method : α → Option α) : List α → Option (List α)
  | [] => some []
  | array :: rest =>
      (method array).bind (fun array' => (forEach method rest).map (fun rest' => array' :: rest'))

/-- The struct `ArrayList`: the pairs to process and the arrays not to process, an array
being known by its address (a natural number). -/
structure ArrayList (D : Type) where
  Arrays : List (BaseArrayPair D)
  ExcludedArrays : List Nat

namespace ArrayList

variable {D : Type}

/-- The method `ArrayList::Copy`. -/
def Copy (l : ArrayList D) (inId outId : Nat) : Option (ArrayList D) :=
  (forEach (fun array => array.Copy inId outId) l.Arrays).map
    (fun arrays => { l with Arrays := arrays })

/-- The method `ArrayList::Interpolate`. -/
def Interpolate (F : DoubleArith D) (l : ArrayList D) (numWeights : Nat) (ids : List Nat)
    (weights : List D) (outId : Nat) : Option (ArrayList D) :=
  (forEach (fun array => array.Interpolate F numWeights ids weights outId) l.Arrays).map
    (fun arrays => { l with Arrays := arrays })

/-- The method `ArrayList::InterpolateOutput`. -/
def InterpolateOutput (F : DoubleArith D) (l : ArrayList D) (numWeights : Nat)
    (ids : List Nat) (weights : List D) (outId : Nat) : Option (ArrayList D) :=
  (forEach (fun array => array.InterpolateOutput F numWeights ids weights outId) l.Arrays).map
    (fun arrays => { l with Arrays := arrays })

/-- The method `ArrayList::Average`. -/
def Average (F : DoubleArith D) (l : ArrayList D) (numPts : Nat) (ids : List Nat)
    (outId : Nat) : Option (ArrayList D) :=
  (forEach (fun array => array.Average F numPts ids outId) l.Arrays).map
    (fun arrays => { l with Arrays := arrays })

/-- The method `ArrayList::WeightedAverage`. -/
def WeightedAverage (F : DoubleArith D) (l : ArrayList D) (numPts : Nat) (ids : List Nat)
    (weights : List D) (outId : Nat) : Option (ArrayList D) :=
  (forEach (fun array => array.WeightedAverage F numPts ids weights outId) l.Arrays).map
    (fun arrays => { l with Arrays := arrays })

/-- The method `ArrayList::InterpolateEdge`. -/
def InterpolateEdge (F : DoubleArith D) (l : ArrayList D) (v0 v1 : Nat) (t : D)
    (outId : Nat) : Option (ArrayList D) :=
  (forEach (fun array => array.InterpolateEdge F v0 v1 t outId) l.Arrays).map
    (fun arrays => { l with Arrays := arrays })

/-- The method `ArrayList::AssignNullValue`. -/
def AssignNullValue (l : ArrayList D) (outId : Nat) : Option (ArrayList D) :=
  (forEach (fun array => array.AssignNullValue outId) l.Arrays).map
    (fun arrays => { l with Arrays := arrays })

/-- The method `ArrayList::Realloc`; `fresh array` is the content of the cells newly
allocated for `array`. -/
def Realloc (l : ArrayList D) (fresh : (array : BaseArrayPair D) → Nat → array.outType)
    (sze : Nat) : ArrayList D :=
  { l with Arrays := l.Arrays.map (fun array => array.Realloc (fresh array) sze) }

/-- The method `ArrayList::GetNumberOfArrays`. -/
def GetNumberOfArrays (l : ArrayList D) : Nat := l.Arrays.length

/-- The invocation `op` of a fan-out method of the list on output record `outId`. -/
def apply (F : DoubleArith D) (l : ArrayList D) (op : PairOp D) (outId : Nat) :
    Option (ArrayList D) :=
  match op with
  | .Copy inId => l.Copy inId outId
  | .Interpolate numWeights ids weights => l.Interpolate F numWeights ids weights outId
  | .InterpolateOutput numWeights ids weights =>
      l.InterpolateOutput F numWeights ids weights outId
  | .Average numPts ids => l.Average F numPts ids outId
  | .WeightedAverage numPts ids weights => l.WeightedAverage F numPts ids weights outId
  | .InterpolateEdge v0 v1 t => l.InterpolateEdge F v0 v1 t outId
  | .AssignNullValue => l.AssignNullValue outId

/-- Modelled from the spec: `ExcludeArray(da)` (defined in `vtkArrayListTemplate.txx`,
which is not part of the sources at hand) marks the array `da` as not taking part in any
later `AddArrayPair`. -/
def ExcludeArray (l : ArrayList D) (da : Nat) : ArrayList D :=
  { l with ExcludedArrays := l.ExcludedArrays ++ [da] }

/-- Modelled from the spec: `IsExcluded(da)` (defined in `vtkArrayListTemplate.txx`) tells
whether the array `da` has been marked by `ExcludeArray`; arrays are compared by
identity. -/
def IsExcluded (l : ArrayList D) (da : Nat) : Bool := decide (da ∈ l.ExcludedArrays)

/-- Modelled from the spec: `AddArrayPair(numTuples, inArray, outArrayName, nullValue,
promote)` (defined in `vtkArrayListTemplate.txx`). Unless `inArray` is excluded, the pair
built for it (`pair`, whose construction from the array metadata is left to the caller
here) is appended to the list and the output array created (`outArray`) is returned; when
`inArray` is excluded no pair is created and no output array is returned. -/
def AddArrayPair (l : ArrayList D) (inArray : Nat) (pair : BaseArrayPair D) (outArray : Nat) :
    ArrayList D × Option Nat :=
  if l.IsExcluded inArray then (l, none)
  else ({ l with Arrays := l.Arrays ++ [pair] }, some outArray)

end ArrayList

/-- The field `NullValue` of the pair behind `BaseArrayPair`. -/
def BaseArrayPair.NullValue {D : Type} : (a : BaseArrayPair D) → a.outType
  | .typed _ _ p => p.NullValue
  | .real _ _ _ _ _ p => p.NullValue
  | .self _ _ p => p.NullValue

/-- A list of two pairs over different element types. -/
def exampleList : ArrayList Dbl :=
  { Arrays := [.typed Int (intElem 32 true) filledPair,
               .real Int Dbl (intElem 32 true) doubleElem Dbl.ofInt filledRealPair],
    ExcludedArrays := [] }

/-- A one-component `unsigned int` pair of two records whose input holds `10` and `4`. -/
def unsignedPair : ArrayPair Int :=
  { Num := 2, NumComp := 1,
    OutputArray := { NumberOfComponents := 1, NumberOfTuples := 2, Storage := [0, 0] },
    Input := [10, 4], NullValue := 0 }

/-- A one-component pair from `unsigned int` to `double` whose input holds `10` and `4`. -/
def unsignedRealPair : RealArrayPair Int Dbl :=
  { Num := 2, NumComp := 1,
    OutputArray := { NumberOfComponents := 1, NumberOfTuples := 2,
                     Storage := [Dbl.ofInt 0, Dbl.ofInt 0] },
    Input := [10, 4], NullValue := Dbl.ofInt 0 }

/-- A one-component `int32` pair of three records whose `Input` and `Output` address one
buffer, which holds `[1, 2, 3]`. -/
def selfPair : SelfArrayPair Int :=
  { Num := 3, NumComp := 1,
    OutputArray := { NumberOfComponents := 1, NumberOfTuples := 3, Storage := [1, 2, 3] },
    NullValue := 0 }

/-- A list whose one pair reads and writes one buffer. -/
def selfList : ArrayList Dbl :=
  { Arrays := [.self Int (intElem 32 true) selfPair], ExcludedArrays := [] }

/-- A list of three pairs, one of each form. -/
def mixedList : ArrayList Dbl :=
  { Arrays := [.typed Int (intElem 32 true) filledPair,
               .real Int Dbl (intElem 32 true) doubleElem Dbl.ofInt filledRealPair,
               .self Int (intElem 32 true) selfPair],
    ExcludedArrays := [] }

/-! ## vtkCenteredSliderRepresentation: the pick computations -/

/-! ### Binary64 numbers with signed zeros, infinities and NaN -/

/-- A value of the C++ type `double`: a finite number, given by its sign bit and its
magnitude in units of `2^-1074` (`-0.0` is the finite number of magnitude `0` with the
sign bit set), an infinity, or a NaN. Every `double` is one of these values, and the
operations below take doubles to doubles. The pick computations of the slider are
evaluated on these values. -/
inductive Double where
  | finite (negative : Bool) (units : Nat)
  | infinite (negative : Bool)
  | nan
  deriving DecidableEq

namespace Double

/-- The magnitude of `DBL_MAX`, which is `(2^53 - 1) * 2^971`, in units of `2^-1074`. -/
def maxUnits : Nat := (2 ^ 53 - 1) * 2 ^ 2045

/-- The double of sign `negative` nearest to the quotient `a / d` of a number of units
(ties to even): a finite number, or the infinity of that sign when the rounded magnitude
is above `DBL_MAX`. -/
def round (negative : Bool) (a d : Nat) : Double :=
  let m := Dbl.roundNat a d
  if maxUnits < m then infinite negative else finite negative m

/-- The conversion of an integer to `double`. -/
def ofInt (z : Int) : Double := round (decide (z < 0)) (z.natAbs * Dbl.one_units) 1

/-- The double nearest to the fraction `n / d`: the value of a decimal literal. -/
def ofFraction (n d : Nat) : Double := round false (n * Dbl.one_units) d

/-- The double `0.0`. -/
def zero : Double := finite false 0

/-- The double `1.0`. -/
def one : Double := finite false Dbl.one_units

/-- The negation `-x`. -/
def neg : Double → Double
  | finite s a => finite (!s) a
  | infinite s => infinite (!s)
  | nan => nan

/-- The sum `x + y`: NaN when an operand is NaN or the operands are infinities of
opposite signs; an exact sum of zero is `+0.0` unless both operands are `-0.0`. -/
def add : Double → Double → Double
  | nan, _ => nan
  | _, nan => nan
  | infinite s, infinite s' => if s = s' then infinite s else nan
  | infinite s, finite _ _ => infinite s
  | finite _ _, infinite s' => infinite s'
  | finite s a, finite s' b =>
      if s = s' then round s (a + b) 1
      else if a = b then finite false 0
      else if b < a then round s (a - b) 1
      else round s' (b - a) 1

/-- The difference `x - y`. -/
def sub (x y : Double) : Double := add x (neg y)

/-- The quotient `x / y`: NaN when an operand is NaN and for `0 / 0` and
`inf / inf`; an infinity for a non-zero number divided by a zero. -/
def div : Double → Double → Double
  | nan, _ => nan
  | _, nan => nan
  | infinite _, infinite _ => nan
  | infinite s, finite s' _ => infinite (Bool.xor s s')
  | finite s _, infinite s' => finite (Bool.xor s s') 0
  | finite s a, finite s' b =>
      if b = 0 then (if a = 0 then nan else infinite (Bool.xor s s'))
      else round (Bool.xor s s') (a * Dbl.one_units) b

/-- The number a finite double stands for, in units of `2^-1074`. -/
def toInt (negative : Bool) (units : Nat) : Int :=
  if negative then -(units : Int) else (units : Int)

/-- The comparison `x < y`, false when an operand is NaN. -/
def lt : Double → Double → Bool
  | nan, _ => false
  | _, nan => false
  | finite s a, finite s' b => decide (toInt s a < toInt s' b)
  | finite _ _, infinite s' => !s'
  | infinite s, finite _ _ => s
  | infinite s, infinite s' => s && !s'

/-- The comparison `x <= y`, false when an operand is NaN. -/
def le : Double → Double → Bool
  | nan, _ => false
  | _, nan => false
  | finite s a, finite s' b => decide (toInt s a ≤ toInt s' b)
  | finite _ _, infinite s' => !s'
  | infinite s, finite _ _ => s
  | infinite s, infinite s' => s || !s'

/-- The comparison `x == y`, false when an operand is NaN; `-0.0 == 0.0`. -/
def eq : Double → Double → Bool
  | finite s a, finite s' b => decide (toInt s a = toInt s' b)
  | infinite s, infinite s' => decide (s = s')
  | _, _ => false

/-- The function `fabs`. -/
def abs : Double → Double
  | finite _ a => finite false a
  | infinite _ => infinite false
  | nan => nan

/-- The value is a NaN. -/
def isNaN : Double → Bool
  | nan => true
  | _ => false

/-- The value is a zero, `0.0` or `-0.0`. -/
def isZero : Double → Bool
  | finite _ a => decide (a = 0)
  | _ => false

/-- The value is a finite number. -/
def isFinite : Double → Bool
  | finite _ _ => true
  | _ => false

/-- The smaller of two values as `std::min` takes it: the second when it is below the
first, else the first. -/
def min (x y : Double) : Double := if lt y x then y else x

/-- The larger of two values as `std::max` takes it: the second when the first is below
it, else the first. -/
def max (x y : Double) : Double := if lt x y then y else x

/-- The value `v` limited to the interval from `lo` to `hi`: `max(min(v, hi), lo)`. -/
def clamp (v lo hi : Double) : Double := max (min v hi) lo

end Double

/-! ### The two methods -/

/-- Modelled from the spec: the enumeration `vtkSliderRepresentation::InteractionState`
(declared in `vtkSliderRepresentation.h`, which is not part of the sources at hand); its
members are the five states `ComputeInteractionState` assigns. -/
inductive InteractionState where
  | Outside
  | Tube
  | LeftCap
  | RightCap
  | Slider
  deriving DecidableEq

/-- The expression a division divides by: the width `point2[0] - point1[0]` or the
height `point2[1] - point1[1]` of the widget rectangle, or the extent
`ArcEnd - ArcStart` of the arc. -/
inductive DivisorKind where
  | width
  | height
  | arc
  deriving DecidableEq

/-- One executed division: what it divides by, and the value of that divisor. -/
structure Division where
  kind : DivisorKind
  divisor : Double
  deriving DecidableEq

/-- The operator `/` on two doubles as the two methods below execute it: the quotient,
and the log of the divisions executed so far with this division added. The methods divide
by no other means, so the log holds every division executed and nothing else. -/
def divide (kind : DivisorKind) (a b : Double) (log : List Division) :
    Double × List Division :=
  (Double.div a b, log ++ [⟨kind, b⟩])

/-- The fields of `vtkCenteredSliderRepresentation` that the pick computations use.
`point1` and `point2` are what `Point1Coordinate->GetComputedViewportValue(Renderer)` and
`Point2Coordinate->GetComputedViewportValue(Renderer)` return, two `int` each. -/
structure vtkCenteredSliderRepresentation where
  point1 : Int × Int
  point2 : Int × Int
  ArcStart : Double
  ArcEnd : Double
  TubeSize : Double
  CurrentT : Double
  PickedT : Double
  InteractionState : InteractionState
  deriving DecidableEq

namespace vtkCenteredSliderRepresentation

/-- The method `ComputePickPosition(x, y)`, called when the divisions of `log` have been
executed: the new state, the value returned, and the divisions executed, in order. -/
def ComputePickPosition (s : vtkCenteredSliderRepresentation) (_x y : Double)
    (log : List Division) : vtkCenteredSliderRepresentation × Double × List Division :=
  let q := divide .height (Double.sub y (Double.ofInt s.point1.2))
    (Double.ofInt (wrapInt 32 true (s.point2.2 - s.point1.2))) log
  let s := { s with PickedT := q.1 }
  let q := divide .arc (Double.sub s.PickedT s.ArcStart) (Double.sub s.ArcEnd s.ArcStart) q.2
  let s := { s with PickedT := q.1 }
  let limited :=
    if Double.lt s.PickedT (Double.ofInt 0) then Double.zero
    else if Double.lt Double.one s.PickedT then Double.one else s.PickedT
  let s := { s with PickedT := limited }
  (s, s.PickedT, q.2)

/-- The method `ComputeInteractionState(x, y)`: the new state, the value returned, and
the divisions executed, in order. -/
def ComputeInteractionState (s : vtkCenteredSliderRepresentation) (x y : Int) :
    vtkCenteredSliderRepresentation × VTK.InteractionState × List Division :=
  let width := wrapInt 32 true (s.point2.1 - s.point1.1)
  let height := wrapInt 32 true (s.point2.2 - s.point1.2)
  if width = 0 ∨ height = 0 then
    ({ s with InteractionState := .Outside }, .Outside, [])
  else
    let pCoord0 := divide .width (Double.sub (Double.ofInt x) (Double.ofInt s.point1.1))
      (Double.ofInt width) []
    let pCoord1 := divide .height (Double.sub (Double.ofInt y) (Double.ofInt s.point1.2))
      (Double.ofInt height) pCoord0.2
    if Double.lt pCoord0.1 (Double.ofInt 0) || Double.lt Double.one pCoord0.1 then
      ({ s with InteractionState := .Outside }, .Outside, pCoord1.2)
    else
      let tCoord := divide .arc (Double.sub pCoord1.1 s.ArcStart)
        (Double.sub s.ArcEnd s.ArcStart) pCoord1.2
      if Double.lt (Double.abs (Double.sub s.CurrentT tCoord.1)) (Double.ofFraction 5 100) then
        ({ s with InteractionState := .Slider }, .Slider, tCoord.2)
      else if Double.le s.ArcStart pCoord1.1 && Double.le pCoord1.1 s.ArcEnd then
        let s1 := { s with InteractionState := .Tube }
        let picked := s1.ComputePickPosition (Double.ofInt x) (Double.ofInt y) tCoord.2
        (picked.1, picked.1.InteractionState, picked.2.2)
      else if Double.le (Double.sub Double.one s.TubeSize) pCoord1.1 &&
          Double.le pCoord1.1 (Double.add (Double.sub Double.one s.TubeSize) s.ArcStart) then
        ({ s with InteractionState := .LeftCap }, .LeftCap, tCoord.2)
      else if Double.le s.ArcEnd pCoord1.1 && Double.le pCoord1.1 Double.one then
        ({ s with InteractionState := .RightCap }, .RightCap, tCoord.2)
      else
        ({ s with InteractionState := .Outside }, .Outside, tCoord.2)

end vtkCenteredSliderRepresentation

/-- The expression
`((y - point1[1]) / (point2[1] - point1[1]) - ArcStart) / (ArcEnd - ArcStart)` that the
claim about `ComputePickPosition` names, evaluated in `double`. -/
def vtkCenteredSliderRepresentation.arcParameter (s : vtkCenteredSliderRepresentation)
    (y : Double) : Double :=
  Double.div
    (Double.sub
      (Double.div (Double.sub y (Double.ofInt s.point1.2))
        (Double.ofInt (wrapInt 32 true (s.point2.2 - s.point1.2))))
      s.ArcStart)
    (Double.sub s.ArcEnd s.ArcStart)

/-- A slider as the constructor leaves it (`ButtonSize = 0.08`, `TubeSize = 0.85`,
`ArcStart = 1.0 - TubeSize + ButtonSize`, `ArcEnd = 1.0 - ButtonSize`), placed on the
viewport rectangle from `(0, 0)` to `(100, 100)`. -/
def exampleSlider : vtkCenteredSliderRepresentation :=
  { point1 := (0, 0), point2 := (100, 100),
    ArcStart := Double.add (Double.sub Double.one (Double.ofFraction 85 100))
      (Double.ofFraction 8 100),
    ArcEnd := Double.sub Double.one (Double.ofFraction 8 100),
    TubeSize := Double.ofFraction 85 100,
    CurrentT := Double.zero, PickedT := Double.zero, InteractionState := .Outside }

/-- The slider `exampleSlider` on a rectangle of no width, from `(0, 0)` to `(0, 100)`. -/
def degenerateSlider : vtkCenteredSliderRepresentation :=
  { exampleSlider with point2 := (0, 100) }

/-! # Theorems -/

theorem length_writeRec {T : Type} (out : List T) (base : Nat) (w : Nat → T) (n : Nat) :
    (writeRec out base w n).length = out.length := by
  induction n with
  | zero => rfl
  | succ k ih => simp [writeRec, ih]

theorem getElem?_writeRec {T : Type} (out : List T) (base : Nat) (w : Nat → T) (n i : Nat) :
    (writeRec out base w n)[i]? =
      if base ≤ i ∧ i < base + n ∧ i < out.length then some (w (i - base)) else out[i]? := by
  induction n with
  | zero =>
    have : ¬ (base ≤ i ∧ i < base + 0 ∧ i < out.length) := by omega
    rw [if_neg this]
    rfl
  | succ k ih =>
    simp only [writeRec, List.getElem?_set, length_writeRec, ih]
    by_cases h : base + k = i
    · subst h
      by_cases hl : base + k < out.length
      · simp [hl]
      · have : out[base + k]? = none := List.getElem?_eq_none (by omega)
        simp [hl, this]
    · simp only [h, if_false]
      by_cases hc : base ≤ i ∧ i < base + k ∧ i < out.length
      · have hc2 : base ≤ i ∧ i < base + (k + 1) ∧ i < out.length := by omega
        simp [hc, hc2]
      · have hc2 : ¬ (base ≤ i ∧ i < base + (k + 1) ∧ i < out.length) := by omega
        simp [hc, hc2]

theorem getElem?_writeRec_of_lt {T : Type} (out : List T) (base : Nat) (w : Nat → T)
    (n j : Nat) (hj : j < n) (hlen : base + j < out.length) :
    (writeRec out base w n)[base + j]? = some (w j) := by
  rw [getElem?_writeRec]
  have : base ≤ base + j ∧ base + j < base + n ∧ base + j < out.length := by omega
  simp [this]

theorem getElem?_writeRec_of_not_mem {T : Type} (out : List T) (base : Nat) (w : Nat → T)
    (n i : Nat) (hi : i < base ∨ base + n ≤ i) :
    (writeRec out base w n)[i]? = out[i]? := by
  rw [getElem?_writeRec]
  have : ¬ (base ≤ i ∧ i < base + n ∧ i < out.length) := by omega
  simp [this]

/-- An accumulation loop whose reads all succeed returns the accumulated value. -/
theorem forLoop_accumulate {D : Type} (n : Nat) (body : Nat → D → Option D)
    (step : D → Nat → D) (init : D)
    (h : ∀ i, i < n → ∀ v, body i v = some (step v i)) :
    forLoop n body init = some (accumulate step init n) := by
  induction n with
  | zero => rfl
  | succ k ih =>
    have ih2 := ih (fun i hi v => h i (by omega) v)
    simp [forLoop, ih2, h k (by omega), accumulate, List.range_succ, List.foldl_append]

/-- A loop over the components of one record, each iteration computing a value from the
current state and storing it at `base + j`, performs the assignments of `writeRec`,
provided every value can be computed and every cell exists. The state is seen through
the view `out` of its output buffer and the update `upd` of that buffer. -/
theorem forLoop_store {σ T : Type} (out : σ → List T) (upd : σ → List T → σ)
    (hid : ∀ s, upd s (out s) = s)
    (body : Nat → σ → Option σ) (val : Nat → σ → Option T) (base : Nat) (s : σ)
    (hbody : ∀ j l, body j (upd s l) = (val j (upd s l)).bind (fun v =>
      if base + j < l.length then some (upd s (l.set (base + j) v)) else none))
    (w : Nat → T) (n : Nat)
    (hval : ∀ j, j < n → val j (upd s (writeRec (out s) base w j)) = some (w j))
    (hlen : ∀ j, j < n → base + j < (out s).length) :
    forLoop n body s = some (upd s (writeRec (out s) base w n)) := by
  induction n with
  | zero => simp [forLoop, writeRec, hid]
  | succ k ih =>
    have ih2 := ih (fun j hj => hval j (by omega)) (fun j hj => hlen j (by omega))
    have hk := hlen k (by omega)
    simp [forLoop, ih2, hbody, hval k (by omega), length_writeRec, hk, writeRec]

/-- A read of the output buffer at component `j` of a record is not affected by the
writes already made to the components before `j` of the record `outId`. -/
theorem getElem?_writeRec_component {T : Type} (out : List T) (nc outId id j : Nat)
    (w : Nat → T) (hj : j < nc) :
    (writeRec out (outId * nc) w j)[id * nc + j]? = out[id * nc + j]? := by
  apply getElem?_writeRec_of_not_mem
  by_cases h : id < outId
  · left
    have h1 : (id + 1) * nc ≤ outId * nc := Nat.mul_le_mul_right nc h
    rw [Nat.add_mul] at h1
    omega
  · right
    have h1 : outId * nc ≤ id * nc := Nat.mul_le_mul_right nc (by omega)
    omega

namespace ArrayPair

variable {D T : Type}

@[simp] theorem Output_withOutput (p : ArrayPair T) (l : List T) :
    (p.withOutput l).Output = l := rfl

@[simp] theorem withOutput_withOutput (p : ArrayPair T) (l l' : List T) :
    (p.withOutput l).withOutput l' = p.withOutput l' := rfl

@[simp] theorem withOutput_Output (p : ArrayPair T) : p.withOutput p.Output = p := rfl

@[simp] theorem Input_withOutput (p : ArrayPair T) (l : List T) :
    (p.withOutput l).Input = p.Input := rfl

@[simp] theorem NumComp_withOutput (p : ArrayPair T) (l : List T) :
    (p.withOutput l).NumComp = p.NumComp := rfl

@[simp] theorem NullValue_withOutput (p : ArrayPair T) (l : List T) :
    (p.withOutput l).NullValue = p.NullValue := rfl

@[simp] theorem Num_withOutput (p : ArrayPair T) (l : List T) :
    (p.withOutput l).Num = p.Num := rfl

@[simp] theorem NumberOfTuples_withOutput (p : ArrayPair T) (l : List T) :
    (p.withOutput l).OutputArray.NumberOfTuples = p.OutputArray.NumberOfTuples := rfl

/-- What `Copy` does when the record `inId` can be read (its components are `x j`) and
the record `outId` exists. -/
theorem Copy_eq (p : ArrayPair T) (inId outId : Nat) (x : Nat → T)
    (hin : ∀ j, j < p.NumComp → p.Input[inId * p.NumComp + j]? = some (x j))
    (hout : ∀ j, j < p.NumComp → outId * p.NumComp + j < p.Output.length) :
    Copy p inId outId = some (p.withOutput (writeRec p.Output (outId * p.NumComp) x p.NumComp)) := by
  unfold Copy
  refine forLoop_store Output withOutput (fun _ => rfl)
    _ (fun j q => q.Input[inId * q.NumComp + j]?) (outId * p.NumComp) p ?_ x p.NumComp ?_ hout
  · intro j l
    rfl
  · intro j hj
    simpa using hin j hj

/-- What `Interpolate` does when the first `numWeights` weights are `wt i`, the first
`numWeights` ids are `id i`, component `j` of input record `id i` is `inp i j`, and the
record `outId` exists. -/
theorem Interpolate_eq (F : DoubleArith D) (A : ElemArith D T) (p : ArrayPair T)
    (numWeights : Nat) (ids : List Nat) (weights : List D) (outId : Nat)
    (wt : Nat → D) (id : Nat → Nat) (inp : Nat → Nat → T)
    (hw : ∀ i, i < numWeights → weights[i]? = some (wt i))
    (hids : ∀ i, i < numWeights → ids[i]? = some (id i))
    (hin : ∀ i, i < numWeights → ∀ j, j < p.NumComp →
      p.Input[id i * p.NumComp + j]? = some (inp i j))
    (hout : ∀ j, j < p.NumComp → outId * p.NumComp + j < p.Output.length) :
    Interpolate F A p numWeights ids weights outId =
      some (p.withOutput (writeRec p.Output (outId * p.NumComp)
        (fun j => A.ofDouble (accumulate
          (fun v i => F.add v (F.mul (wt i) (A.toDouble (inp i j)))) F.zero numWeights))
        p.NumComp)) := by
  unfold Interpolate
  refine forLoop_store Output withOutput (fun _ => rfl)
    _ (fun j q => (forLoop numWeights (fun i v => do
      let w ← weights[i]?
      let id ← ids[i]?
      let x ← q.Input[id * q.NumComp + j]?
      pure (F.add v (F.mul w (A.toDouble x)))) F.zero).map A.ofDouble)
    (outId * p.NumComp) p ?_ _ p.NumComp ?_ hout
  · intro j l
    simp only [Option.bind_eq_bind, Option.bind_map]
    rfl
  · intro j hj
    beta_reduce
    rw [forLoop_accumulate numWeights _
      (fun v i => F.add v (F.mul (wt i) (A.toDouble (inp i j)))) F.zero]
    · rfl
    · intro i hi v
      simp [hw i hi, hids i hi, hin i hi j hj]

/-- What `InterpolateOutput` does when the first `numWeights` weights are `wt i`, the
first `numWeights` ids are `id i`, component `j` of output record `id i` is `outv i j`
before the call, and the record `outId` exists. -/
theorem InterpolateOutput_eq (F : DoubleArith D) (A : ElemArith D T) (p : ArrayPair T)
    (numWeights : Nat) (ids : List Nat) (weights : List D) (outId : Nat)
    (wt : Nat → D) (id : Nat → Nat) (outv : Nat → Nat → T)
    (hw : ∀ i, i < numWeights → weights[i]? = some (wt i))
    (hids : ∀ i, i < numWeights → ids[i]? = some (id i))
    (hin : ∀ i, i < numWeights → ∀ j, j < p.NumComp →
      p.Output[id i * p.NumComp + j]? = some (outv i j))
    (hout : ∀ j, j < p.NumComp → outId * p.NumComp + j < p.Output.length) :
    InterpolateOutput F A p numWeights ids weights outId =
      some (p.withOutput (writeRec p.Output (outId * p.NumComp)
        (fun j => A.ofDouble (accumulate
          (fun v i => F.add v (F.mul (wt i) (A.toDouble (outv i j)))) F.zero numWeights))
        p.NumComp)) := by
  unfold InterpolateOutput
  refine forLoop_store Output withOutput (fun _ => rfl)
    _ (fun j q => (forLoop numWeights (fun i v => do
      let w ← weights[i]?
      let id ← ids[i]?
      let x ← q.Output[id * q.NumComp + j]?
      pure (F.add v (F.mul w (A.toDouble x)))) F.zero).map A.ofDouble)
    (outId * p.NumComp) p ?_ _ p.NumComp ?_ hout
  · intro j l
    simp only [Option.bind_eq_bind, Option.bind_map]
    rfl
  · intro j hj
    beta_reduce
    rw [forLoop_accumulate numWeights _
      (fun v i => F.add v (F.mul (wt i) (A.toDouble (outv i j)))) F.zero]
    · rfl
    · intro i hi v
      simp [hw i hi, hids i hi, getElem?_writeRec_component _ _ _ _ _ _ hj, hin i hi j hj]

/-- What `Average` does when the first `numPts` ids are `id i`, component `j` of input
record `id i` is `inp i j`, and the record `outId` exists. -/
theorem Average_eq (F : DoubleArith D) (A : ElemArith D T) (p : ArrayPair T)
    (numPts : Nat) (ids : List Nat) (outId : Nat)
    (id : Nat → Nat) (inp : Nat → Nat → T)
    (hids : ∀ i, i < numPts → ids[i]? = some (id i))
    (hin : ∀ i, i < numPts → ∀ j, j < p.NumComp →
      p.Input[id i * p.NumComp + j]? = some (inp i j))
    (hout : ∀ j, j < p.NumComp → outId * p.NumComp + j < p.Output.length) :
    Average F A p numPts ids outId =
      some (p.withOutput (writeRec p.Output (outId * p.NumComp)
        (fun j => A.ofDouble (F.div (accumulate
          (fun v i => F.add v (A.toDouble (inp i j))) F.zero numPts) (F.ofCount numPts)))
        p.NumComp)) := by
  unfold Average
  refine forLoop_store Output withOutput (fun _ => rfl)
    _ (fun j q => (forLoop numPts (fun i v => do
      let id ← ids[i]?
      let x ← q.Input[id * q.NumComp + j]?
      pure (F.add v (A.toDouble x))) F.zero).map
        (fun v => A.ofDouble (F.div v (F.ofCount numPts))))
    (outId * p.NumComp) p ?_ _ p.NumComp ?_ hout
  · intro j l
    simp only [Option.bind_eq_bind, Option.bind_map]
    rfl
  · intro j hj
    beta_reduce
    rw [forLoop_accumulate numPts _ (fun v i => F.add v (A.toDouble (inp i j))) F.zero]
    · rfl
    · intro i hi v
      simp [hids i hi, hin i hi j hj]

/-- The two methods `WeightedAverage` and `Interpolate` have the same body. -/
theorem WeightedAverage_eq_Interpolate (F : DoubleArith D) (A : ElemArith D T)
    (p : ArrayPair T) (numPts : Nat) (ids : List Nat) (weights : List D) (outId : Nat) :
    WeightedAverage F A p numPts ids weights outId =
      Interpolate F A p numPts ids weights outId := rfl

/-- What `InterpolateEdge` does when the records `v0` and `v1` can be read (their
components are `a j` and `b j`) and the record `outId` exists. -/
theorem InterpolateEdge_eq (F : DoubleArith D) (A : ElemArith D T) (p : ArrayPair T)
    (v0 v1 : Nat) (t : D) (outId : Nat) (a b : Nat → T)
    (h0 : ∀ j, j < p.NumComp → p.Input[v0 * p.NumComp + j]? = some (a j))
    (h1 : ∀ j, j < p.NumComp → p.Input[v1 * p.NumComp + j]? = some (b j))
    (hout : ∀ j, j < p.NumComp → outId * p.NumComp + j < p.Output.length) :
    InterpolateEdge F A p v0 v1 t outId =
      some (p.withOutput (writeRec p.Output (outId * p.NumComp)
        (fun j => A.ofDouble (F.add (A.toDouble (a j)) (F.mul t (A.subToDouble (b j) (a j)))))
        p.NumComp)) := by
  unfold InterpolateEdge
  refine forLoop_store Output withOutput (fun _ => rfl)
    _ (fun j q => do
      let x0 ← q.Input[v0 * p.NumComp + j]?
      let x1 ← q.Input[v1 * p.NumComp + j]?
      let x0' ← q.Input[v0 * p.NumComp + j]?
      pure (A.ofDouble (F.add (A.toDouble x0) (F.mul t (A.subToDouble x1 x0')))))
    (outId * p.NumComp) p ?_ _ p.NumComp ?_ hout
  · intro j l
    simp only [Option.bind_eq_bind, Option.pure_def, Option.bind_assoc, Option.some_bind]
    rfl
  · intro j hj
    simp [h0 j hj, h1 j hj]

/-- What `AssignNullValue` does when the record `outId` exists. -/
theorem AssignNullValue_eq (p : ArrayPair T) (outId : Nat)
    (hout : ∀ j, j < p.NumComp → outId * p.NumComp + j < p.Output.length) :
    AssignNullValue p outId =
      some (p.withOutput (writeRec p.Output (outId * p.NumComp) (fun _ => p.NullValue)
        p.NumComp)) := by
  unfold AssignNullValue
  refine forLoop_store Output withOutput (fun _ => rfl)
    _ (fun _ q => some q.NullValue) (outId * p.NumComp) p ?_ _ p.NumComp ?_ hout
  · intro j l
    rfl
  · intro j _
    rfl

end ArrayPair

namespace RealArrayPair

variable {D TInput TOutput : Type}

@[simp] theorem real_Output_withOutput (p : RealArrayPair TInput TOutput) (l : List TOutput) :
    (p.withOutput l).Output = l := rfl

@[simp] theorem real_withOutput_withOutput (p : RealArrayPair TInput TOutput) (l l' : List TOutput) :
    (p.withOutput l).withOutput l' = p.withOutput l' := rfl

@[simp] theorem real_withOutput_Output (p : RealArrayPair TInput TOutput) : p.withOutput p.Output = p := rfl

@[simp] theorem real_Input_withOutput (p : RealArrayPair TInput TOutput) (l : List TOutput) :
    (p.withOutput l).Input = p.Input := rfl

@[simp] theorem real_NumComp_withOutput (p : RealArrayPair TInput TOutput) (l : List TOutput) :
    (p.withOutput l).NumComp = p.NumComp := rfl

@[simp] theorem real_NullValue_withOutput (p : RealArrayPair TInput TOutput) (l : List TOutput) :
    (p.withOutput l).NullValue = p.NullValue := rfl

@[simp] theorem real_Num_withOutput (p : RealArrayPair TInput TOutput) (l : List TOutput) :
    (p.withOutput l).Num = p.Num := rfl

@[simp] theorem real_NumberOfTuples_withOutput (p : RealArrayPair TInput TOutput) (l : List TOutput) :
    (p.withOutput l).OutputArray.NumberOfTuples = p.OutputArray.NumberOfTuples := rfl

/-- What `Copy` does when the record `inId` can be read (its components are `x j`) and
the record `outId` exists. -/
theorem real_Copy_eq (cast : TInput → TOutput) (p : RealArrayPair TInput TOutput)
    (inId outId : Nat) (x : Nat → TInput)
    (hin : ∀ j, j < p.NumComp → p.Input[inId * p.NumComp + j]? = some (x j))
    (hout : ∀ j, j < p.NumComp → outId * p.NumComp + j < p.Output.length) :
    Copy cast p inId outId =
      some (p.withOutput (writeRec p.Output (outId * p.NumComp) (fun j => cast (x j))
        p.NumComp)) := by
  unfold Copy
  refine forLoop_store Output withOutput (fun _ => rfl)
    _ (fun j q => (q.Input[inId * q.NumComp + j]?).map cast) (outId * p.NumComp) p ?_ _
    p.NumComp ?_ hout
  · intro j l
    simp only [Option.bind_eq_bind, Option.bind_map]
    rfl
  · intro j hj
    simp [hin j hj]

/-- What `Interpolate` does when the first `numWeights` weights are `wt i`, the first
`numWeights` ids are `id i`, component `j` of input record `id i` is `inp i j`, and the
record `outId` exists. -/
theorem real_Interpolate_eq (F : DoubleArith D) (AI : ElemArith D TInput)
    (AO : ElemArith D TOutput) (p : RealArrayPair TInput TOutput)
    (numWeights : Nat) (ids : List Nat) (weights : List D) (outId : Nat)
    (wt : Nat → D) (id : Nat → Nat) (inp : Nat → Nat → TInput)
    (hw : ∀ i, i < numWeights → weights[i]? = some (wt i))
    (hids : ∀ i, i < numWeights → ids[i]? = some (id i))
    (hin : ∀ i, i < numWeights → ∀ j, j < p.NumComp →
      p.Input[id i * p.NumComp + j]? = some (inp i j))
    (hout : ∀ j, j < p.NumComp → outId * p.NumComp + j < p.Output.length) :
    Interpolate F AI AO p numWeights ids weights outId =
      some (p.withOutput (writeRec p.Output (outId * p.NumComp)
        (fun j => AO.ofDouble (accumulate
          (fun v i => F.add v (F.mul (wt i) (AI.toDouble (inp i j)))) F.zero numWeights))
        p.NumComp)) := by
  unfold Interpolate
  refine forLoop_store Output withOutput (fun _ => rfl)
    _ (fun j q => (forLoop numWeights (fun i v => do
      let w ← weights[i]?
      let id ← ids[i]?
      let x ← q.Input[id * q.NumComp + j]?
      pure (F.add v (F.mul w (AI.toDouble x)))) F.zero).map AO.ofDouble)
    (outId * p.NumComp) p ?_ _ p.NumComp ?_ hout
  · intro j l
    simp only [Option.bind_eq_bind, Option.bind_map]
    rfl
  · intro j hj
    beta_reduce
    rw [forLoop_accumulate numWeights _
      (fun v i => F.add v (F.mul (wt i) (AI.toDouble (inp i j)))) F.zero]
    · rfl
    · intro i hi v
      simp [hw i hi, hids i hi, hin i hi j hj]

/-- What `InterpolateOutput` does when the first `numWeights` weights are `wt i`, the
first `numWeights` ids are `id i`, component `j` of output record `id i` is `outv i j`
before the call, and the record `outId` exists. -/
theorem real_InterpolateOutput_eq (F : DoubleArith D) (AO : ElemArith D TOutput) (p : RealArrayPair TInput TOutput)
    (numWeights : Nat) (ids : List Nat) (weights : List D) (outId : Nat)
    (wt : Nat → D) (id : Nat → Nat) (outv : Nat → Nat → TOutput)
    (hw : ∀ i, i < numWeights → weights[i]? = some (wt i))
    (hids : ∀ i, i < numWeights → ids[i]? = some (id i))
    (hin : ∀ i, i < numWeights → ∀ j, j < p.NumComp →
      p.Output[id i * p.NumComp + j]? = some (outv i j))
    (hout : ∀ j, j < p.NumComp → outId * p.NumComp + j < p.Output.length) :
    InterpolateOutput F AO p numWeights ids weights outId =
      some (p.withOutput (writeRec p.Output (outId * p.NumComp)
        (fun j => AO.ofDouble (accumulate
          (fun v i => F.add v (F.mul (wt i) (AO.toDouble (outv i j)))) F.zero numWeights))
        p.NumComp)) := by
  unfold InterpolateOutput
  refine forLoop_store Output withOutput (fun _ => rfl)
    _ (fun j q => (forLoop numWeights (fun i v => do
      let w ← weights[i]?
      let id ← ids[i]?
      let x ← q.Output[id * q.NumComp + j]?
      pure (F.add v (F.mul w (AO.toDouble x)))) F.zero).map AO.ofDouble)
    (outId * p.NumComp) p ?_ _ p.NumComp ?_ hout
  · intro j l
    simp only [Option.bind_eq_bind, Option.bind_map]
    rfl
  · intro j hj
    beta_reduce
    rw [forLoop_accumulate numWeights _
      (fun v i => F.add v (F.mul (wt i) (AO.toDouble (outv i j)))) F.zero]
    · rfl
    · intro i hi v
      simp [hw i hi, hids i hi, getElem?_writeRec_component _ _ _ _ _ _ hj, hin i hi j hj]

/-- What `Average` does when the first `numPts` ids are `id i`, component `j` of input
record `id i` is `inp i j`, and the record `outId` exists. -/
theorem real_Average_eq (F : DoubleArith D) (AI : ElemArith D TInput)
    (AO : ElemArith D TOutput) (p : RealArrayPair TInput TOutput)
    (numPts : Nat) (ids : List Nat) (outId : Nat)
    (id : Nat → Nat) (inp : Nat → Nat → TInput)
    (hids : ∀ i, i < numPts → ids[i]? = some (id i))
    (hin : ∀ i, i < numPts → ∀ j, j < p.NumComp →
      p.Input[id i * p.NumComp + j]? = some (inp i j))
    (hout : ∀ j, j < p.NumComp → outId * p.NumComp + j < p.Output.length) :
    Average F AI AO p numPts ids outId =
      some (p.withOutput (writeRec p.Output (outId * p.NumComp)
        (fun j => AO.ofDouble (F.div (accumulate
          (fun v i => F.add v (AI.toDouble (inp i j))) F.zero numPts) (F.ofCount numPts)))
        p.NumComp)) := by
  unfold Average
  refine forLoop_store Output withOutput (fun _ => rfl)
    _ (fun j q => (forLoop numPts (fun i v => do
      let id ← ids[i]?
      let x ← q.Input[id * q.NumComp + j]?
      pure (F.add v (AI.toDouble x))) F.zero).map
        (fun v => AO.ofDouble (F.div v (F.ofCount numPts))))
    (outId * p.NumComp) p ?_ _ p.NumComp ?_ hout
  · intro j l
    simp only [Option.bind_eq_bind, Option.bind_map]
    rfl
  · intro j hj
    beta_reduce
    rw [forLoop_accumulate numPts _ (fun v i => F.add v (AI.toDouble (inp i j))) F.zero]
    · rfl
    · intro i hi v
      simp [hids i hi, hin i hi j hj]

/-- The two methods `WeightedAverage` and `Interpolate` have the same body. -/
theorem real_WeightedAverage_eq_Interpolate (F : DoubleArith D) (AI : ElemArith D TInput)
    (AO : ElemArith D TOutput)
    (p : RealArrayPair TInput TOutput) (numPts : Nat) (ids : List Nat) (weights : List D) (outId : Nat) :
    WeightedAverage F AI AO p numPts ids weights outId =
      Interpolate F AI AO p numPts ids weights outId := rfl

/-- What `InterpolateEdge` does when the records `v0` and `v1` can be read (their
components are `a j` and `b j`) and the record `outId` exists. -/
theorem real_InterpolateEdge_eq (F : DoubleArith D) (AI : ElemArith D TInput)
    (AO : ElemArith D TOutput) (p : RealArrayPair TInput TOutput)
    (v0 v1 : Nat) (t : D) (outId : Nat) (a b : Nat → TInput)
    (h0 : ∀ j, j < p.NumComp → p.Input[v0 * p.NumComp + j]? = some (a j))
    (h1 : ∀ j, j < p.NumComp → p.Input[v1 * p.NumComp + j]? = some (b j))
    (hout : ∀ j, j < p.NumComp → outId * p.NumComp + j < p.Output.length) :
    InterpolateEdge F AI AO p v0 v1 t outId =
      some (p.withOutput (writeRec p.Output (outId * p.NumComp)
        (fun j => AO.ofDouble (F.add (AI.toDouble (a j)) (F.mul t (AI.subToDouble (b j) (a j)))))
        p.NumComp)) := by
  unfold InterpolateEdge
  refine forLoop_store Output withOutput (fun _ => rfl)
    _ (fun j q => do
      let x0 ← q.Input[v0 * p.NumComp + j]?
      let x1 ← q.Input[v1 * p.NumComp + j]?
      let x0' ← q.Input[v0 * p.NumComp + j]?
      pure (AO.ofDouble (F.add (AI.toDouble x0) (F.mul t (AI.subToDouble x1 x0')))))
    (outId * p.NumComp) p ?_ _ p.NumComp ?_ hout
  · intro j l
    simp only [Option.bind_eq_bind, Option.pure_def, Option.bind_assoc, Option.some_bind]
    rfl
  · intro j hj
    simp [h0 j hj, h1 j hj]

/-- What `AssignNullValue` does when the record `outId` exists. -/
theorem real_AssignNullValue_eq (p : RealArrayPair TInput TOutput) (outId : Nat)
    (hout : ∀ j, j < p.NumComp → outId * p.NumComp + j < p.Output.length) :
    AssignNullValue p outId =
      some (p.withOutput (writeRec p.Output (outId * p.NumComp) (fun _ => p.NullValue)
        p.NumComp)) := by
  unfold AssignNullValue
  refine forLoop_store Output withOutput (fun _ => rfl)
    _ (fun _ q => some q.NullValue) (outId * p.NumComp) p ?_ _ p.NumComp ?_ hout
  · intro j l
    rfl
  · intro j _
    rfl

end RealArrayPair

/-! ## Exact cases of the binary64 arithmetic -/

theorem bitLengthAux_le (fuel : Nat) : ∀ n k : Nat, n ≤ fuel → n < 2 ^ k →
    bitLengthAux fuel n ≤ k := by
  induction fuel with
  | zero => intro n k _ _; simp [bitLengthAux]
  | succ f ih =>
    intro n k hn hk
    unfold bitLengthAux
    by_cases h0 : n = 0
    · simp [h0]
    · rw [if_neg h0]
      cases k with
      | zero => simp at hk; omega
      | succ k' =>
        have h2 : n / 2 < 2 ^ k' := by
          rw [pow_succ] at hk
          omega
        have := ih (n / 2) k' (by omega) h2
        omega

theorem bitLength_le (n k : Nat) (h : n < 2 ^ k) : bitLength n ≤ k :=
  bitLengthAux_le n n k (le_refl n) h

theorem roundHalfEven_mul (x y : Nat) (hy : 0 < y) : roundHalfEven (x * y) y = x := by
  unfold roundHalfEven
  simp [Nat.mul_div_cancel _ hy, Nat.mul_mod_left, hy]

/-- A rational that is a number of at most 53 bits times a power of two is not changed
by rounding. -/
theorem Dbl.roundNat_exact (m s d : Nat) (hm : m < 2 ^ 53) (hd : 0 < d) :
    Dbl.roundNat (m * 2 ^ s * d) d = m * 2 ^ s := by
  unfold Dbl.roundNat
  have hq : m * 2 ^ s * d / d = m * 2 ^ s := Nat.mul_div_cancel _ hd
  rw [hq]
  have hlt : m * 2 ^ s < 2 ^ (53 + s) := by
    rw [pow_add]
    exact Nat.mul_lt_mul_of_lt_of_le hm (le_refl _) (by positivity)
  have hb := bitLength_le _ _ hlt
  have he : bitLength (m * 2 ^ s) - 53 ≤ s := by omega
  generalize bitLength (m * 2 ^ s) - 53 = e at he
  obtain ⟨k, rfl⟩ := Nat.exists_eq_add_of_le he
  have h1 : m * 2 ^ (e + k) * d = (m * 2 ^ k) * (d * 2 ^ e) := by
    rw [pow_add]; ring
  simp only []
  rw [h1, roundHalfEven_mul _ _ (by positivity), pow_add]
  ring

theorem Dbl.roundNat_units (m d : Nat) (hm : m < 2 ^ 53) (hd : 0 < d) :
    Dbl.roundNat (m * Dbl.one_units * d) d = m * Dbl.one_units :=
  Dbl.roundNat_exact m 1074 d hm hd

theorem Dbl.one_units_pos : 0 < Dbl.one_units := by
  rw [Dbl.one_units]
  positivity

/-- Rounding `z * d / d`, for an integer `z` of magnitude below `2^53`, gives `z`. -/
theorem Dbl.round_exact (z : Int) (hz : z.natAbs < 2 ^ 53) (d : Nat) (hd : 0 < d) :
    Dbl.round (z * (Dbl.one_units : Int) * (d : Int)) d = ⟨z * (Dbl.one_units : Int)⟩ := by
  unfold Dbl.round
  have habs : (z * (Dbl.one_units : Int) * (d : Int)).natAbs = z.natAbs * Dbl.one_units * d := by
    rw [Int.natAbs_mul, Int.natAbs_mul, Int.natAbs_ofNat, Int.natAbs_ofNat]
  rw [habs, Dbl.roundNat_units _ _ hz hd]
  have hU : (0 : Int) < (Dbl.one_units : Int) := by exact_mod_cast Dbl.one_units_pos
  have hdpos : (0 : Int) < (d : Int) := by exact_mod_cast hd
  congr 1
  rw [Nat.cast_mul]
  by_cases hneg : z < 0
  · have : z * (Dbl.one_units : Int) * (d : Int) < 0 :=
      mul_neg_of_neg_of_pos (mul_neg_of_neg_of_pos hneg hU) hdpos
    rw [if_pos this]
    have hzz : ((z.natAbs : Nat) : Int) = -z := by omega
    rw [hzz]
    ring
  · have : ¬ z * (Dbl.one_units : Int) * (d : Int) < 0 := by
      have : 0 ≤ z * (Dbl.one_units : Int) * (d : Int) :=
        mul_nonneg (mul_nonneg (by omega) hU.le) hdpos.le
      omega
    rw [if_neg this]
    have hzz : ((z.natAbs : Nat) : Int) = z := by omega
    rw [hzz]

/-- The conversion of an integer of magnitude below `2^53` to `double` is exact. -/
theorem Dbl.ofInt_exact (z : Int) (hz : z.natAbs < 2 ^ 53) :
    Dbl.ofInt z = ⟨z * (Dbl.one_units : Int)⟩ := by
  have := Dbl.round_exact z hz 1 (by decide)
  simpa [Dbl.ofInt] using this

/-- Converting back a double that is an integer gives that integer. -/
theorem Dbl.trunc_exact (z : Int) : Dbl.trunc ⟨z * (Dbl.one_units : Int)⟩ = z := by
  unfold Dbl.trunc
  have hU : (Dbl.one_units : Int) ≠ 0 := by
    have := Dbl.one_units_pos
    omega
  exact Int.mul_tdiv_cancel _ hU

/-- The sum of two integer doubles is exact when it has magnitude below `2^53`. -/
theorem Dbl.add_exact (x y : Int) (h : (x + y).natAbs < 2 ^ 53) :
    Dbl.add ⟨x * (Dbl.one_units : Int)⟩ ⟨y * (Dbl.one_units : Int)⟩ =
      ⟨(x + y) * (Dbl.one_units : Int)⟩ := by
  have := Dbl.round_exact (x + y) h 1 (by decide)
  simp only [Nat.cast_one, mul_one] at this
  show Dbl.round (x * (Dbl.one_units : Int) + y * (Dbl.one_units : Int)) 1 = _
  rw [← add_mul]
  exact this

/-- The product `0.0 * d` is zero. -/
theorem Dbl.mul_zero_left (d : Dbl) : Dbl.mul ⟨0⟩ d = ⟨0⟩ := by
  have := Dbl.round_exact 0 (by decide) Dbl.one_units Dbl.one_units_pos
  simp only [zero_mul] at this
  show Dbl.round (0 * d.units) Dbl.one_units = _
  rw [zero_mul]
  exact this

/-- The product `1.0 * y` is `y` for an integer `y` of magnitude below `2^53`. -/
theorem Dbl.mul_one_left (y : Int) (h : y.natAbs < 2 ^ 53) :
    Dbl.mul (Dbl.ofInt 1) ⟨y * (Dbl.one_units : Int)⟩ = ⟨y * (Dbl.one_units : Int)⟩ := by
  rw [Dbl.ofInt_exact 1 (by decide)]
  have := Dbl.round_exact y h Dbl.one_units Dbl.one_units_pos
  show Dbl.round (1 * (Dbl.one_units : Int) * (y * (Dbl.one_units : Int))) Dbl.one_units = _
  have e : 1 * (Dbl.one_units : Int) * (y * (Dbl.one_units : Int)) =
      y * (Dbl.one_units : Int) * (Dbl.one_units : Int) := by ring
  rw [e]
  exact this

theorem writeRec_congr {T : Type} (out : List T) (base : Nat) (w w' : Nat → T) (n : Nat)
    (h : ∀ j, j < n → w j = w' j) : writeRec out base w n = writeRec out base w' n := by
  induction n with
  | zero => rfl
  | succ k ih =>
    simp only [writeRec]
    rw [ih (fun j hj => h j (by omega)), h k (by omega)]

/-- With an integer element type, `x0 + 0.0 * d` converts back to `x0` when `x0` is a
value of the type of magnitude below `2^53`. -/
theorem intElem_edge_zero (w : Nat) (signed : Bool) (x0 : Int) (d : Dbl)
    (hx : wrapInt w signed x0 = x0) (h0 : x0.natAbs < 2 ^ 53) :
    (intElem w signed).ofDouble (ieeeDouble.add ((intElem w signed).toDouble x0)
      (ieeeDouble.mul ieeeDouble.zero d)) = x0 := by
  show wrapInt w signed (Dbl.trunc (Dbl.add (Dbl.ofInt x0) (Dbl.mul ⟨0⟩ d))) = x0
  rw [Dbl.mul_zero_left, Dbl.ofInt_exact x0 h0]
  have hz : (⟨0⟩ : Dbl) = ⟨0 * (Dbl.one_units : Int)⟩ := by rw [zero_mul]
  rw [hz, Dbl.add_exact x0 0 (by simpa using h0), add_zero, Dbl.trunc_exact, hx]

/-- With an integer element type, `x0 + 1.0 * (x1 - x0)` converts back to `x1` when `x1`
is a value of the type, the difference does not overflow the type it is formed in, and
`x0`, `x1` and the difference have magnitude below `2^53`. -/
theorem intElem_edge_one (w : Nat) (signed : Bool) (x0 x1 : Int)
    (hx : wrapInt w signed x1 = x1) (hd : promotedDiff w signed x1 x0 = x1 - x0)
    (h0 : x0.natAbs < 2 ^ 53) (h1 : x1.natAbs < 2 ^ 53) (h2 : (x1 - x0).natAbs < 2 ^ 53) :
    (intElem w signed).ofDouble (ieeeDouble.add ((intElem w signed).toDouble x0)
      (ieeeDouble.mul (Dbl.ofInt 1) ((intElem w signed).subToDouble x1 x0))) = x1 := by
  show wrapInt w signed (Dbl.trunc (Dbl.add (Dbl.ofInt x0)
    (Dbl.mul (Dbl.ofInt 1) (Dbl.ofInt (promotedDiff w signed x1 x0))))) = x1
  rw [hd, Dbl.ofInt_exact x0 h0, Dbl.ofInt_exact (x1 - x0) h2, Dbl.mul_one_left _ h2,
    Dbl.add_exact x0 (x1 - x0) (by simpa using h1)]
  have e : x0 + (x1 - x0) = x1 := by ring
  rw [e, Dbl.trunc_exact, hx]

/-! ## Properties of the pair operations -/

/-- C1: `Copy(inId, outId)` on an `ArrayPair<T>` or a `RealArrayPair<TInput, TOutput>`,
with the input record `inId` readable and the output record `outId` inside the buffer,
returns, and afterwards every component `j < NumComp` of output record `outId` is the
output-type cast (none for `ArrayPair<T>`) of component `j` of input record `inId` as it
was before the call. -/
theorem C1_Copy_components {T TInput TOutput : Type}
    (p : ArrayPair T) (x : Nat → T)
    (cast : TInput → TOutput) (r : RealArrayPair TInput TOutput) (y : Nat → TInput)
    (inId outId : Nat)
    (hp_in : ∀ j, j < p.NumComp → p.Input[inId * p.NumComp + j]? = some (x j))
    (hp_out : ∀ j, j < p.NumComp → outId * p.NumComp + j < p.Output.length)
    (hr_in : ∀ j, j < r.NumComp → r.Input[inId * r.NumComp + j]? = some (y j))
    (hr_out : ∀ j, j < r.NumComp → outId * r.NumComp + j < r.Output.length) :
    (∃ q, ArrayPair.Copy p inId outId = some q ∧
      ∀ j, j < p.NumComp → q.Output[outId * p.NumComp + j]? = some (x j)) ∧
    (∃ q, RealArrayPair.Copy cast r inId outId = some q ∧
      ∀ j, j < r.NumComp → q.Output[outId * r.NumComp + j]? = some (cast (y j))) := by
  refine ⟨⟨_, ArrayPair.Copy_eq p inId outId x hp_in hp_out, ?_⟩,
    ⟨_, RealArrayPair.real_Copy_eq cast r inId outId y hr_in hr_out, ?_⟩⟩
  · intro j hj
    exact getElem?_writeRec_of_lt _ _ _ _ j hj (hp_out j hj)
  · intro j hj
    exact getElem?_writeRec_of_lt _ _ _ _ j hj (hr_out j hj)

/-- C1, at a concrete input: record 2 of `[1,2 | 3,4 | 5,6]` copied to record 0. -/
theorem C1_Copy_components_witness :
    (∃ q, ArrayPair.Copy examplePair 2 0 = some q ∧
      ∀ j, j < 2 → q.Output[0 * 2 + j]? = some (((5 + j : Nat) : Int))) ∧
    (∃ q, RealArrayPair.Copy Dbl.ofInt exampleRealPair 2 0 = some q ∧
      ∀ j, j < 2 → q.Output[0 * 2 + j]? = some (Dbl.ofInt ((5 + j : Nat) : Int))) :=
  C1_Copy_components examplePair (fun j => ((5 + j : Nat) : Int)) Dbl.ofInt exampleRealPair
    (fun j => ((5 + j : Nat) : Int)) 2 0 (by decide) (by decide) (by decide) (by decide)

/-- C2: `Interpolate(numWeights, ids, weights, outId)` on either kind of pair, with the
first `numWeights` ids and weights present, the input records they name readable and the
output record `outId` inside the buffer, returns, and afterwards every component `j` of
output record `outId` is the single output-type cast of the sum, accumulated in index
order from `0.0`, of `weights[i] * Input[ids[i]*NumComp + j]`. In scenario A (`int32`
input `[10, 20, 30]`, ids `[0, 1]`, weights `[0.5, 0.5]`, `outId = 0`) output record 0
is 15. -/
theorem C2_Interpolate_components {D T TInput TOutput : Type} (F : DoubleArith D)
    (A : ElemArith D T) (AI : ElemArith D TInput) (AO : ElemArith D TOutput)
    (p : ArrayPair T) (inp : Nat → Nat → T)
    (r : RealArrayPair TInput TOutput) (rinp : Nat → Nat → TInput)
    (numWeights : Nat) (ids : List Nat) (weights : List D) (outId : Nat)
    (wt : Nat → D) (id : Nat → Nat)
    (hw : ∀ i, i < numWeights → weights[i]? = some (wt i))
    (hids : ∀ i, i < numWeights → ids[i]? = some (id i))
    (hp_in : ∀ i, i < numWeights → ∀ j, j < p.NumComp →
      p.Input[id i * p.NumComp + j]? = some (inp i j))
    (hp_out : ∀ j, j < p.NumComp → outId * p.NumComp + j < p.Output.length)
    (hr_in : ∀ i, i < numWeights → ∀ j, j < r.NumComp →
      r.Input[id i * r.NumComp + j]? = some (rinp i j))
    (hr_out : ∀ j, j < r.NumComp → outId * r.NumComp + j < r.Output.length) :
    (∃ q, ArrayPair.Interpolate F A p numWeights ids weights outId = some q ∧
      ∀ j, j < p.NumComp → q.Output[outId * p.NumComp + j]? =
        some (A.ofDouble ((List.range numWeights).foldl
          (fun v i => F.add v (F.mul (wt i) (A.toDouble (inp i j)))) F.zero))) ∧
    (∃ q, RealArrayPair.Interpolate F AI AO r numWeights ids weights outId = some q ∧
      ∀ j, j < r.NumComp → q.Output[outId * r.NumComp + j]? =
        some (AO.ofDouble ((List.range numWeights).foldl
          (fun v i => F.add v (F.mul (wt i) (AI.toDouble (rinp i j)))) F.zero))) ∧
    (ArrayPair.Interpolate ieeeDouble (intElem 32 true) scenarioA 2 [0, 1] [half, half] 0).map
      (fun q => q.Output[0]?) = some (some 15) := by
  refine ⟨⟨_, ArrayPair.Interpolate_eq F A p numWeights ids weights outId wt id inp
      hw hids hp_in hp_out, ?_⟩,
    ⟨_, RealArrayPair.real_Interpolate_eq F AI AO r numWeights ids weights outId wt id rinp
      hw hids hr_in hr_out, ?_⟩, by decide!⟩
  · intro j hj
    exact getElem?_writeRec_of_lt _ _ _ _ j hj (hp_out j hj)
  · intro j hj
    exact getElem?_writeRec_of_lt _ _ _ _ j hj (hr_out j hj)

/-- C2, at a concrete input: records 0 and 2 of `[1,2 | 3,4 | 5,6]` blended with the
weights `0.5, 0.5` into record 1. -/
theorem C2_Interpolate_components_witness :
    (∃ q, ArrayPair.Interpolate ieeeDouble (intElem 32 true) examplePair 2 [0, 2]
        [half, half] 1 = some q ∧ q.Output = [0, 0, 3, 4, 0, 0]) ∧
    (∃ q, RealArrayPair.Interpolate ieeeDouble (intElem 32 true) doubleElem exampleRealPair 2
        [0, 2] [half, half] 1 = some q ∧
      q.Output[2]? = some (Dbl.ofInt 3) ∧ q.Output[3]? = some (Dbl.ofInt 4)) := by
  have h := C2_Interpolate_components ieeeDouble (intElem 32 true) (intElem 32 true) doubleElem
    examplePair (fun i j => ((1 + 4 * i + j : Nat) : Int))
    exampleRealPair (fun i j => ((1 + 4 * i + j : Nat) : Int))
    2 [0, 2] [half, half] 1 (fun _ => half) (fun i => 2 * i)
    (by decide!) (by decide) (by decide) (by decide) (by decide) (by decide)
  obtain ⟨⟨q, hq, -⟩, ⟨q', hq', -⟩, -⟩ := h
  exact ⟨⟨q, hq, by
      have e : ArrayPair.Interpolate ieeeDouble (intElem 32 true) examplePair 2 [0, 2]
        [half, half] 1 = some (examplePair.withOutput [0, 0, 3, 4, 0, 0]) := by decide!
      rw [e] at hq
      cases hq
      rfl⟩,
    ⟨q', hq', by
      have e : (RealArrayPair.Interpolate ieeeDouble (intElem 32 true) doubleElem
        exampleRealPair 2 [0, 2] [half, half] 1).map (fun q => (q.Output[2]?, q.Output[3]?)) =
          some (some (Dbl.ofInt 3), some (Dbl.ofInt 4)) := by decide!
      rw [hq'] at e
      simp only [Option.map_some', Option.some.injEq, Prod.mk.injEq] at e
      exact e⟩⟩

/-- C3: `Average(numIds, ids, outId)` with `numIds ≥ 1` on either kind of pair, with the
first `numIds` ids present, the input records they name readable and the output record
`outId` inside the buffer, returns, and afterwards every component `j` of output record
`outId` is the output-type cast of the sum of the `Input[ids[i]*NumComp + j]` divided by
`numIds`. When the output type is `double` the quotient is stored as it is: in scenario B
(`int` input `[1, 2, 3]`, ids `[0, 1, 2]`) output record 0 is exactly `2.0`, and the
average of the records 0 and 1 is stored as `1.5`, not truncated. -/
theorem C3_Average_components {D T TInput TOutput : Type} (F : DoubleArith D)
    (A : ElemArith D T) (AI : ElemArith D TInput) (AO : ElemArith D TOutput)
    (p : ArrayPair T) (inp : Nat → Nat → T)
    (r : RealArrayPair TInput TOutput) (rinp : Nat → Nat → TInput)
    (numIds : Nat) (ids : List Nat) (outId : Nat) (id : Nat → Nat)
    (_hn : 1 ≤ numIds)
    (hids : ∀ i, i < numIds → ids[i]? = some (id i))
    (hp_in : ∀ i, i < numIds → ∀ j, j < p.NumComp →
      p.Input[id i * p.NumComp + j]? = some (inp i j))
    (hp_out : ∀ j, j < p.NumComp → outId * p.NumComp + j < p.Output.length)
    (hr_in : ∀ i, i < numIds → ∀ j, j < r.NumComp →
      r.Input[id i * r.NumComp + j]? = some (rinp i j))
    (hr_out : ∀ j, j < r.NumComp → outId * r.NumComp + j < r.Output.length) :
    (∃ q, ArrayPair.Average F A p numIds ids outId = some q ∧
      ∀ j, j < p.NumComp → q.Output[outId * p.NumComp + j]? =
        some (A.ofDouble (F.div ((List.range numIds).foldl
          (fun v i => F.add v (A.toDouble (inp i j))) F.zero) (F.ofCount numIds)))) ∧
    (∃ q, RealArrayPair.Average F AI AO r numIds ids outId = some q ∧
      ∀ j, j < r.NumComp → q.Output[outId * r.NumComp + j]? =
        some (AO.ofDouble (F.div ((List.range numIds).foldl
          (fun v i => F.add v (AI.toDouble (rinp i j))) F.zero) (F.ofCount numIds)))) ∧
    (RealArrayPair.Average ieeeDouble (intElem 32 true) doubleElem scenarioB 3 [0, 1, 2] 0).map
      (fun q => q.Output[0]?) = some (some (Dbl.ofInt 2)) ∧
    (RealArrayPair.Average ieeeDouble (intElem 32 true) doubleElem scenarioB 2 [0, 1] 0).map
      (fun q => q.Output[0]?) = some (some (Dbl.ofScaled 3 1)) := by
  refine ⟨⟨_, ArrayPair.Average_eq F A p numIds ids outId id inp hids hp_in hp_out, ?_⟩,
    ⟨_, RealArrayPair.real_Average_eq F AI AO r numIds ids outId id rinp hids hr_in hr_out, ?_⟩,
    by decide!, by decide!⟩
  · intro j hj
    exact getElem?_writeRec_of_lt _ _ _ _ j hj (hp_out j hj)
  · intro j hj
    exact getElem?_writeRec_of_lt _ _ _ _ j hj (hr_out j hj)

/-- C3, at a concrete input: the records 0 and 2 of `[1,2 | 3,4 | 5,6]` averaged into
record 1. -/
theorem C3_Average_components_witness :
    (∃ q, ArrayPair.Average ieeeDouble (intElem 32 true) examplePair 2 [0, 2] 1 = some q ∧
      q.Output = [0, 0, 3, 4, 0, 0]) ∧
    (∃ q, RealArrayPair.Average ieeeDouble (intElem 32 true) doubleElem exampleRealPair 2
        [0, 2] 1 = some q ∧
      q.Output[2]? = some (Dbl.ofInt 3) ∧ q.Output[3]? = some (Dbl.ofInt 4)) := by
  have h := C3_Average_components ieeeDouble (intElem 32 true) (intElem 32 true) doubleElem
    examplePair (fun i j => ((1 + 4 * i + j : Nat) : Int))
    exampleRealPair (fun i j => ((1 + 4 * i + j : Nat) : Int))
    2 [0, 2] 1 (fun i => 2 * i)
    (by decide) (by decide) (by decide) (by decide) (by decide) (by decide)
  obtain ⟨⟨q, hq, -⟩, ⟨q', hq', -⟩, -⟩ := h
  exact ⟨⟨q, hq, by
      have e : ArrayPair.Average ieeeDouble (intElem 32 true) examplePair 2 [0, 2] 1 =
        some (examplePair.withOutput [0, 0, 3, 4, 0, 0]) := by decide!
      rw [e] at hq
      cases hq
      rfl⟩,
    ⟨q', hq', by
      have e : (RealArrayPair.Average ieeeDouble (intElem 32 true) doubleElem
        exampleRealPair 2 [0, 2] 1).map (fun q => (q.Output[2]?, q.Output[3]?)) =
          some (some (Dbl.ofInt 3), some (Dbl.ofInt 4)) := by decide!
      rw [hq'] at e
      simp only [Option.map_some', Option.some.injEq, Prod.mk.injEq] at e
      exact e⟩⟩

/-- C4: `AssignNullValue(outId)` on either kind of pair, with the output record `outId`
inside the buffer, returns whatever the buffer held, and afterwards every component
`j < NumComp` of output record `outId` is the pair's `NullValue`. For a two-component
pair of real values with null value `-1.0` and any prior content of its three records,
record 2 reads back `(-1.0, -1.0)`. -/
theorem C4_AssignNullValue_components {T TInput TOutput : Type}
    (p : ArrayPair T) (r : RealArrayPair TInput TOutput) (outId : Nat)
    (hp_out : ∀ j, j < p.NumComp → outId * p.NumComp + j < p.Output.length)
    (hr_out : ∀ j, j < r.NumComp → outId * r.NumComp + j < r.Output.length) :
    (∃ q, ArrayPair.AssignNullValue p outId = some q ∧
      ∀ j, j < p.NumComp → q.Output[outId * p.NumComp + j]? = some p.NullValue) ∧
    (∃ q, RealArrayPair.AssignNullValue r outId = some q ∧
      ∀ j, j < r.NumComp → q.Output[outId * r.NumComp + j]? = some r.NullValue) ∧
    (∀ out : List Dbl, out.length = 6 →
      ∃ q, ArrayPair.AssignNullValue (scenarioC out) 2 = some q ∧
        q.Output[4]? = some (Dbl.ofInt (-1)) ∧ q.Output[5]? = some (Dbl.ofInt (-1))) := by
  refine ⟨⟨_, ArrayPair.AssignNullValue_eq p outId hp_out, ?_⟩,
    ⟨_, RealArrayPair.real_AssignNullValue_eq r outId hr_out, ?_⟩, ?_⟩
  · intro j hj
    exact getElem?_writeRec_of_lt _ _ _ _ j hj (hp_out j hj)
  · intro j hj
    exact getElem?_writeRec_of_lt _ _ _ _ j hj (hr_out j hj)
  · intro out hlen
    have hout : ∀ j, j < (scenarioC out).NumComp →
        2 * (scenarioC out).NumComp + j < (scenarioC out).Output.length := by
      intro j hj
      have h2 : (scenarioC out).NumComp = 2 := rfl
      have h3 : (scenarioC out).Output.length = 6 := hlen
      omega
    refine ⟨_, ArrayPair.AssignNullValue_eq (scenarioC out) 2 hout, ?_, ?_⟩
    · exact getElem?_writeRec_of_lt _ (2 * 2) _ 2 0 (by omega) (hout 0 (show 0 < 2 by omega))
    · exact getElem?_writeRec_of_lt _ (2 * 2) _ 2 1 (by omega) (hout 1 (show 1 < 2 by omega))

/-- C4, at a concrete input: record 1 of a pair whose output holds zeros. -/
theorem C4_AssignNullValue_components_witness :
    (∃ q, ArrayPair.AssignNullValue examplePair 1 = some q ∧
      ∀ j, j < 2 → q.Output[1 * 2 + j]? = some (-1)) ∧
    (∃ q, RealArrayPair.AssignNullValue exampleRealPair 1 = some q ∧
      ∀ j, j < 2 → q.Output[1 * 2 + j]? = some (Dbl.ofInt (-1))) :=
  ⟨(C4_AssignNullValue_components examplePair exampleRealPair 1 (by decide) (by decide)).1,
   (C4_AssignNullValue_components examplePair exampleRealPair 1 (by decide) (by decide)).2.1⟩

/-- C5 as stated fails: in a one-component `int64` pair whose input record 1 holds
`2^53 + 1`, `InterpolateEdge(1, 0, 0.0, 0)` stores `2^53` (the conversion of the input
to `double` rounds), while `Copy(1, 0)` stores `2^53 + 1`. -/
theorem C5_InterpolateEdge_zero_counterexample :
    (ArrayPair.InterpolateEdge ieeeDouble (intElem 64 true) bigPair 1 0 ieeeDouble.zero 0).map
        ArrayPair.Output = some [9007199254740992, 0] ∧
    (ArrayPair.Copy bigPair 1 0).map ArrayPair.Output = some [9007199254740993, 0] ∧
    ArrayPair.InterpolateEdge ieeeDouble (intElem 64 true) bigPair 1 0 ieeeDouble.zero 0 ≠
      ArrayPair.Copy bigPair 1 0 := by
  refine ⟨by decide!, by decide!, by decide!⟩

/-- C5 (amended): `InterpolateEdge(v0, v1, 0.0, outId)` on either kind of pair, with the
records in range, returns and leaves the pair in exactly the state `Copy(v0, outId)`
produces from the same state, provided every component `x0` of input record `v0` comes
back from the double computation unchanged: the output-type cast of
`double(x0) + 0.0 * double(x1 - x0)` is the cast of `x0`. With the binary64 arithmetic
and an integer element type this is so whenever the components of record `v0` are values
of the type of magnitude below `2^53` (every value of an 8, 16 or 32 bit type). -/
theorem C5_InterpolateEdge_zero {D T TInput TOutput : Type} (F : DoubleArith D)
    (A : ElemArith D T) (AI : ElemArith D TInput) (AO : ElemArith D TOutput)
    (cast : TInput → TOutput)
    (p : ArrayPair T) (a b : Nat → T)
    (r : RealArrayPair TInput TOutput) (ra rb : Nat → TInput)
    (v0 v1 outId : Nat)
    (hp0 : ∀ j, j < p.NumComp → p.Input[v0 * p.NumComp + j]? = some (a j))
    (hp1 : ∀ j, j < p.NumComp → p.Input[v1 * p.NumComp + j]? = some (b j))
    (hp_out : ∀ j, j < p.NumComp → outId * p.NumComp + j < p.Output.length)
    (hr0 : ∀ j, j < r.NumComp → r.Input[v0 * r.NumComp + j]? = some (ra j))
    (hr1 : ∀ j, j < r.NumComp → r.Input[v1 * r.NumComp + j]? = some (rb j))
    (hr_out : ∀ j, j < r.NumComp → outId * r.NumComp + j < r.Output.length)
    (hp_exact : ∀ j, j < p.NumComp →
      A.ofDouble (F.add (A.toDouble (a j)) (F.mul F.zero (A.subToDouble (b j) (a j)))) = a j)
    (hr_exact : ∀ j, j < r.NumComp →
      AO.ofDouble (F.add (AI.toDouble (ra j)) (F.mul F.zero (AI.subToDouble (rb j) (ra j)))) =
        cast (ra j)) :
    (∃ q, ArrayPair.InterpolateEdge F A p v0 v1 F.zero outId = some q ∧
      ArrayPair.Copy p v0 outId = some q) ∧
    (∃ q, RealArrayPair.InterpolateEdge F AI AO r v0 v1 F.zero outId = some q ∧
      RealArrayPair.Copy cast r v0 outId = some q) ∧
    (∀ (w : Nat) (signed : Bool) (s : ArrayPair Int) (c d : Nat → Int),
      (∀ j, j < s.NumComp → s.Input[v0 * s.NumComp + j]? = some (c j)) →
      (∀ j, j < s.NumComp → s.Input[v1 * s.NumComp + j]? = some (d j)) →
      (∀ j, j < s.NumComp → outId * s.NumComp + j < s.Output.length) →
      (∀ j, j < s.NumComp → wrapInt w signed (c j) = c j ∧ (c j).natAbs < 2 ^ 53) →
      ∃ q, ArrayPair.InterpolateEdge ieeeDouble (intElem w signed) s v0 v1 ieeeDouble.zero outId =
          some q ∧ ArrayPair.Copy s v0 outId = some q) := by
  refine ⟨⟨_, ArrayPair.InterpolateEdge_eq F A p v0 v1 F.zero outId a b hp0 hp1 hp_out, ?_⟩,
    ⟨_, RealArrayPair.real_InterpolateEdge_eq F AI AO r v0 v1 F.zero outId ra rb hr0 hr1 hr_out,
      ?_⟩, ?_⟩
  · rw [ArrayPair.Copy_eq p v0 outId a hp0 hp_out]
    rw [writeRec_congr _ _ _ _ _ hp_exact]
  · rw [RealArrayPair.real_Copy_eq cast r v0 outId ra hr0 hr_out]
    rw [writeRec_congr _ _ _ _ _ hr_exact]
  · intro w signed s c d hs0 hs1 hs_out hval
    refine ⟨_, ArrayPair.InterpolateEdge_eq ieeeDouble (intElem w signed) s v0 v1 _ outId c d
      hs0 hs1 hs_out, ?_⟩
    rw [ArrayPair.Copy_eq s v0 outId c hs0 hs_out]
    rw [writeRec_congr _ _ _ _ _ (fun j hj => intElem_edge_zero w signed (c j) _ (hval j hj).1 (hval j hj).2)]

/-- C5 (amended), at a concrete input: record 0 of `[1,2 | 3,4 | 5,6]` over `int32`,
edge to record 2, written to record 1. -/
theorem C5_InterpolateEdge_zero_witness :
    (∃ q, ArrayPair.InterpolateEdge ieeeDouble (intElem 32 true) examplePair 0 2
        ieeeDouble.zero 1 = some q ∧ ArrayPair.Copy examplePair 0 1 = some q) ∧
    (∃ q, RealArrayPair.InterpolateEdge ieeeDouble (intElem 32 true) doubleElem
        exampleRealPair 0 2 ieeeDouble.zero 1 = some q ∧
      RealArrayPair.Copy Dbl.ofInt exampleRealPair 0 1 = some q) :=
  have h := C5_InterpolateEdge_zero ieeeDouble (intElem 32 true) (intElem 32 true) doubleElem
    Dbl.ofInt examplePair (fun j => ((1 + j : Nat) : Int)) (fun j => ((5 + j : Nat) : Int))
    exampleRealPair (fun j => ((1 + j : Nat) : Int)) (fun j => ((5 + j : Nat) : Int))
    0 2 1 (by decide) (by decide) (by decide) (by decide) (by decide) (by decide)
    (by decide!) (by decide!)
  ⟨h.1, h.2.1⟩

/-- C6 as stated fails: in a one-component `int64` pair whose input holds `0` and
`2^53 + 1`, `InterpolateEdge(0, 1, 1.0, 0)` stores `2^53` (the difference is rounded when
it is converted to `double`), while `Copy(1, 0)` stores `2^53 + 1`. -/
theorem C6_InterpolateEdge_one_counterexample :
    (ArrayPair.InterpolateEdge ieeeDouble (intElem 64 true) bigPair 0 1 (Dbl.ofInt 1) 0).map
        ArrayPair.Output = some [9007199254740992, 0] ∧
    (ArrayPair.Copy bigPair 1 0).map ArrayPair.Output = some [9007199254740993, 0] ∧
    ArrayPair.InterpolateEdge ieeeDouble (intElem 64 true) bigPair 0 1 (Dbl.ofInt 1) 0 ≠
      ArrayPair.Copy bigPair 1 0 := by
  refine ⟨by decide!, by decide!, by decide!⟩

/-- C6 (amended): `InterpolateEdge(v0, v1, t, outId)` with `t = 1.0` on either kind of
pair, with the records in range, returns and leaves the pair in exactly the state
`Copy(v1, outId)` produces from the same state, provided for every component the
output-type cast of `double(x0) + t * double(x1 - x0)` is the cast of `x1`. With the
binary64 arithmetic and an integer element type this is so whenever the components of
record `v1` are values of the type, the difference `x1 - x0` does not overflow the type
it is formed in, and `x0`, `x1` and `x1 - x0` have magnitude below `2^53`. -/
theorem C6_InterpolateEdge_one {D T TInput TOutput : Type} (F : DoubleArith D)
    (A : ElemArith D T) (AI : ElemArith D TInput) (AO : ElemArith D TOutput)
    (cast : TInput → TOutput) (t : D)
    (p : ArrayPair T) (a b : Nat → T)
    (r : RealArrayPair TInput TOutput) (ra rb : Nat → TInput)
    (v0 v1 outId : Nat)
    (hp0 : ∀ j, j < p.NumComp → p.Input[v0 * p.NumComp + j]? = some (a j))
    (hp1 : ∀ j, j < p.NumComp → p.Input[v1 * p.NumComp + j]? = some (b j))
    (hp_out : ∀ j, j < p.NumComp → outId * p.NumComp + j < p.Output.length)
    (hr0 : ∀ j, j < r.NumComp → r.Input[v0 * r.NumComp + j]? = some (ra j))
    (hr1 : ∀ j, j < r.NumComp → r.Input[v1 * r.NumComp + j]? = some (rb j))
    (hr_out : ∀ j, j < r.NumComp → outId * r.NumComp + j < r.Output.length)
    (hp_exact : ∀ j, j < p.NumComp →
      A.ofDouble (F.add (A.toDouble (a j)) (F.mul t (A.subToDouble (b j) (a j)))) = b j)
    (hr_exact : ∀ j, j < r.NumComp →
      AO.ofDouble (F.add (AI.toDouble (ra j)) (F.mul t (AI.subToDouble (rb j) (ra j)))) =
        cast (rb j)) :
    (∃ q, ArrayPair.InterpolateEdge F A p v0 v1 t outId = some q ∧
      ArrayPair.Copy p v1 outId = some q) ∧
    (∃ q, RealArrayPair.InterpolateEdge F AI AO r v0 v1 t outId = some q ∧
      RealArrayPair.Copy cast r v1 outId = some q) ∧
    (∀ (w : Nat) (signed : Bool) (s : ArrayPair Int) (c d : Nat → Int),
      (∀ j, j < s.NumComp → s.Input[v0 * s.NumComp + j]? = some (c j)) →
      (∀ j, j < s.NumComp → s.Input[v1 * s.NumComp + j]? = some (d j)) →
      (∀ j, j < s.NumComp → outId * s.NumComp + j < s.Output.length) →
      (∀ j, j < s.NumComp → wrapInt w signed (d j) = d j ∧ promotedDiff w signed (d j) (c j) = d j - c j ∧
        (c j).natAbs < 2 ^ 53 ∧ (d j).natAbs < 2 ^ 53 ∧ (d j - c j).natAbs < 2 ^ 53) →
      ∃ q, ArrayPair.InterpolateEdge ieeeDouble (intElem w signed) s v0 v1 (Dbl.ofInt 1) outId =
          some q ∧ ArrayPair.Copy s v1 outId = some q) := by
  refine ⟨⟨_, ArrayPair.InterpolateEdge_eq F A p v0 v1 t outId a b hp0 hp1 hp_out, ?_⟩,
    ⟨_, RealArrayPair.real_InterpolateEdge_eq F AI AO r v0 v1 t outId ra rb hr0 hr1 hr_out,
      ?_⟩, ?_⟩
  · rw [ArrayPair.Copy_eq p v1 outId b hp1 hp_out]
    rw [writeRec_congr _ _ _ _ _ hp_exact]
  · rw [RealArrayPair.real_Copy_eq cast r v1 outId rb hr1 hr_out]
    rw [writeRec_congr _ _ _ _ _ hr_exact]
  · intro w signed s c d hs0 hs1 hs_out hval
    refine ⟨_, ArrayPair.InterpolateEdge_eq ieeeDouble (intElem w signed) s v0 v1 _ outId c d
      hs0 hs1 hs_out, ?_⟩
    rw [ArrayPair.Copy_eq s v1 outId d hs1 hs_out]
    rw [writeRec_congr _ _ _ _ _ (fun j hj => intElem_edge_one w signed (c j) (d j) (hval j hj).1
      (hval j hj).2.1 (hval j hj).2.2.1 (hval j hj).2.2.2.1 (hval j hj).2.2.2.2)]

/-- C6 (amended), at a concrete input: record 0 of `[1,2 | 3,4 | 5,6]` over `int32`,
edge to record 2 at `t = 1.0`, written to record 1. -/
theorem C6_InterpolateEdge_one_witness :
    (∃ q, ArrayPair.InterpolateEdge ieeeDouble (intElem 32 true) examplePair 0 2
        (Dbl.ofInt 1) 1 = some q ∧ ArrayPair.Copy examplePair 2 1 = some q) ∧
    (∃ q, RealArrayPair.InterpolateEdge ieeeDouble (intElem 32 true) doubleElem
        exampleRealPair 0 2 (Dbl.ofInt 1) 1 = some q ∧
      RealArrayPair.Copy Dbl.ofInt exampleRealPair 2 1 = some q) :=
  have h := C6_InterpolateEdge_one ieeeDouble (intElem 32 true) (intElem 32 true) doubleElem
    Dbl.ofInt (Dbl.ofInt 1)
    examplePair (fun j => ((1 + j : Nat) : Int)) (fun j => ((5 + j : Nat) : Int))
    exampleRealPair (fun j => ((1 + j : Nat) : Int)) (fun j => ((5 + j : Nat) : Int))
    0 2 1 (by decide) (by decide) (by decide) (by decide) (by decide) (by decide)
    (by decide!) (by decide!)
  ⟨h.1, h.2.1⟩

/-- C7: on either kind of pair and for all arguments, `WeightedAverage` and `Interpolate`
started from the same state give the same result, whether or not the weights sum to
`1.0`; nothing is divided by the weight sum: with the weights `[1, 1]` on the `int32`
inputs 10 and 20, `WeightedAverage` stores 30. -/
theorem C7_WeightedAverage_eq_Interpolate :
    (∀ (D T : Type) (F : DoubleArith D) (A : ElemArith D T) (p : ArrayPair T)
      (numIds : Nat) (ids : List Nat) (weights : List D) (outId : Nat),
      ArrayPair.WeightedAverage F A p numIds ids weights outId =
        ArrayPair.Interpolate F A p numIds ids weights outId) ∧
    (∀ (D TInput TOutput : Type) (F : DoubleArith D) (AI : ElemArith D TInput)
      (AO : ElemArith D TOutput) (r : RealArrayPair TInput TOutput)
      (numIds : Nat) (ids : List Nat) (weights : List D) (outId : Nat),
      RealArrayPair.WeightedAverage F AI AO r numIds ids weights outId =
        RealArrayPair.Interpolate F AI AO r numIds ids weights outId) ∧
    (ArrayPair.WeightedAverage ieeeDouble (intElem 32 true) scenarioA 2 [0, 1]
        [Dbl.ofInt 1, Dbl.ofInt 1] 0).map ArrayPair.Output = some [30, 0, 0] ∧
    (ArrayPair.Interpolate ieeeDouble (intElem 32 true) scenarioA 2 [0, 1]
        [Dbl.ofInt 1, Dbl.ofInt 1] 0).map ArrayPair.Output = some [30, 0, 0] := by
  refine ⟨?_, ?_, by decide!, by decide!⟩
  · intro D T F A p numIds ids weights outId
    rfl
  · intro D TInput TOutput F AI AO r numIds ids weights outId
    rfl

theorem vtkAbstractArray.SetNumberOfTuples_Resize {T : Type} (a : vtkAbstractArray T)
    (fresh : Nat → T) (n : Nat) :
    (a.Resize fresh n).SetNumberOfTuples fresh n =
      { NumberOfComponents := a.NumberOfComponents, NumberOfTuples := n,
        Storage := (List.range (n * a.NumberOfComponents)).map
          (fun k => (a.Storage[k]?).getD (fresh k)) } := by
  unfold vtkAbstractArray.SetNumberOfTuples
  have h : n * (a.Resize fresh n).NumberOfComponents ≤ (a.Resize fresh n).Storage.length := by
    simp [vtkAbstractArray.Resize]
  rw [if_pos h]
  rfl

theorem ArrayPair.NumberOfTuples_Realloc {T : Type} (p : ArrayPair T) (fresh : Nat → T)
    (n : Nat) : (p.Realloc fresh n).OutputArray.NumberOfTuples = n := by
  unfold ArrayPair.Realloc
  rw [vtkAbstractArray.SetNumberOfTuples_Resize]

theorem RealArrayPair.real_NumberOfTuples_Realloc {TInput TOutput : Type}
    (p : RealArrayPair TInput TOutput) (fresh : Nat → TOutput) (n : Nat) :
    (p.Realloc fresh n).OutputArray.NumberOfTuples = n := by
  unfold RealArrayPair.Realloc
  rw [vtkAbstractArray.SetNumberOfTuples_Resize]

/-- C10 as stated fails: `Realloc(1)` on a pair whose output holds three records leaves
an output of one record. -/
theorem C10_Realloc_shrinks_counterexample :
    examplePair.OutputArray.NumberOfTuples = 3 ∧
    (examplePair.Realloc (fun _ => 0) 1).OutputArray.NumberOfTuples = 1 ∧
    (examplePair.Realloc (fun _ => 0) 1).Output.length = 2 ∧
    ¬ (examplePair.OutputArray.NumberOfTuples ≤
        (examplePair.Realloc (fun _ => 0) 1).OutputArray.NumberOfTuples) := by
  decide

/-- C10 (amended): on either kind of pair and for every argument, after
`Realloc(newSize)` the record count of the output buffer is `newSize`; so it is at least
what it was before exactly when `newSize` is at least the record count before the call,
and it is smaller when `newSize` is smaller. -/
theorem C10_Realloc_record_count :
    (∀ (T : Type) (p : ArrayPair T) (fresh : Nat → T) (newSize : Nat),
      (p.Realloc fresh newSize).OutputArray.NumberOfTuples = newSize ∧
      (p.OutputArray.NumberOfTuples ≤ (p.Realloc fresh newSize).OutputArray.NumberOfTuples ↔
        p.OutputArray.NumberOfTuples ≤ newSize)) ∧
    (∀ (TInput TOutput : Type) (r : RealArrayPair TInput TOutput) (fresh : Nat → TOutput)
      (newSize : Nat),
      (r.Realloc fresh newSize).OutputArray.NumberOfTuples = newSize ∧
      (r.OutputArray.NumberOfTuples ≤ (r.Realloc fresh newSize).OutputArray.NumberOfTuples ↔
        r.OutputArray.NumberOfTuples ≤ newSize)) := by
  refine ⟨?_, ?_⟩
  · intro T p fresh newSize
    rw [ArrayPair.NumberOfTuples_Realloc]
    exact ⟨rfl, Iff.rfl⟩
  · intro TInput TOutput r fresh newSize
    rw [RealArrayPair.real_NumberOfTuples_Realloc]
    exact ⟨rfl, Iff.rfl⟩

/-! ## Every processing operation as a record write -/

theorem forLoop_congr {σ : Type} (n : Nat) (body body' : Nat → σ → Option σ) (s : σ)
    (h : ∀ i, i < n → ∀ v, body i v = body' i v) : forLoop n body s = forLoop n body' s := by
  induction n with
  | zero => rfl
  | succ k ih =>
    simp only [forLoop]
    rw [ih (fun i hi v => h i (by omega) v)]
    cases forLoop k body' s with
    | none => rfl
    | some v => exact h k (by omega) v

theorem forLoop_isSome {σ : Type} (n : Nat) (body : Nat → σ → Option σ) (s : σ)
    (h : ∀ i, i < n → ∀ v, (body i v).isSome) : (forLoop n body s).isSome := by
  induction n with
  | zero => rfl
  | succ k ih =>
    simp only [forLoop]
    have h1 := ih (fun i hi v => h i (by omega) v)
    obtain ⟨v, hv⟩ := Option.isSome_iff_exists.mp h1
    rw [hv]
    exact h k (by omega) v

theorem getElem?_mem_take {α : Type} (l : List α) (n i : Nat) (a : α) (hi : i < n)
    (h : l[i]? = some a) : a ∈ l.take n := by
  rw [List.mem_iff_getElem?]
  exact ⟨i, by rw [List.getElem?_take_of_lt hi]; exact h⟩

theorem getElem?_of_lt_length {α : Type} (l : List α) (n i : Nat) (hi : i < n)
    (hn : n ≤ l.length) : ∃ a, l[i]? = some a ∧ a ∈ l.take n := by
  have h : i < l.length := by omega
  exact ⟨l[i], List.getElem?_eq_getElem h, getElem?_mem_take l n i _ hi (List.getElem?_eq_getElem h)⟩

theorem getElem?_of_recordInside {α : Type} (buf : List α) (nc id j : Nat)
    (h : recordInside buf nc id) (hj : j < nc) : ∃ a, buf[id * nc + j]? = some a :=
  ⟨_, List.getElem?_eq_getElem (h j hj)⟩

/-- Component `j` of a record other than `outId` is not a cell of record `outId`. -/
theorem component_not_mem (nc outId id j : Nat) (hne : id ≠ outId) (hj : j < nc) :
    id * nc + j < outId * nc ∨ outId * nc + nc ≤ id * nc + j := by
  by_cases h : id < outId
  · left
    have h1 : (id + 1) * nc ≤ outId * nc := Nat.mul_le_mul_right nc h
    rw [Nat.add_mul] at h1
    omega
  · right
    have h1 : (outId + 1) * nc ≤ id * nc := Nat.mul_le_mul_right nc (by omega)
    rw [Nat.add_mul] at h1
    omega

namespace ArrayPair

variable {D T : Type}

/-- The value an invocation computes depends on the output buffer only through the
records it reads. -/
theorem opValue_congr (F : DoubleArith D) (A : ElemArith D T) (p : ArrayPair T)
    (op : PairOp D) (nc j : Nat) (l l' : List T)
    (h : ∀ id, id ∈ op.reads → l[id * nc + j]? = l'[id * nc + j]?) :
    opValue F A op nc j (p.withOutput l) = opValue F A op nc j (p.withOutput l') := by
  cases op with
  | InterpolateOutput numWeights ids weights =>
    simp only [opValue]
    congr 1
    apply forLoop_congr
    intro i hi v
    cases hw : weights[i]? with
    | none => rfl
    | some w =>
      cases hid : ids[i]? with
      | none => rfl
      | some id =>
        have := h id (getElem?_mem_take ids numWeights i id hi hid)
        simp only [Output_withOutput, Option.bind_eq_bind, Option.some_bind]
        rw [this]
  | _ => rfl

/-- With arguments in range every component value can be computed. -/
theorem opValue_isSome (F : DoubleArith D) (A : ElemArith D T) (p : ArrayPair T)
    (op : PairOp D) (outId j : Nat) (h : p.InRange op outId) (hj : j < p.NumComp) :
    (opValue F A op p.NumComp j p).isSome := by
  obtain ⟨-, h⟩ := h
  cases op with
  | Copy inId =>
    obtain ⟨a, ha⟩ := getElem?_of_recordInside _ _ _ _ h hj
    simp [opValue, ha]
  | Interpolate numWeights ids weights =>
    obtain ⟨h1, h2, h3⟩ := h
    simp only [opValue, Option.isSome_map']
    apply forLoop_isSome
    intro i hi v
    obtain ⟨id, hid, hmem⟩ := getElem?_of_lt_length ids numWeights i hi h1
    obtain ⟨w, hw, -⟩ := getElem?_of_lt_length weights numWeights i hi h2
    obtain ⟨a, ha⟩ := getElem?_of_recordInside _ _ _ _ (h3 id hmem) hj
    simp [hid, hw, ha]
  | InterpolateOutput numWeights ids weights =>
    obtain ⟨h1, h2, h3⟩ := h
    simp only [opValue, Option.isSome_map']
    apply forLoop_isSome
    intro i hi v
    obtain ⟨id, hid, hmem⟩ := getElem?_of_lt_length ids numWeights i hi h1
    obtain ⟨w, hw, -⟩ := getElem?_of_lt_length weights numWeights i hi h2
    obtain ⟨a, ha⟩ := getElem?_of_recordInside _ _ _ _ (h3 id hmem) hj
    simp [hid, hw, ha]
  | Average numPts ids =>
    obtain ⟨h1, h3⟩ := h
    simp only [opValue, Option.isSome_map']
    apply forLoop_isSome
    intro i hi v
    obtain ⟨id, hid, hmem⟩ := getElem?_of_lt_length ids numPts i hi h1
    obtain ⟨a, ha⟩ := getElem?_of_recordInside _ _ _ _ (h3 id hmem) hj
    simp [hid, ha]
  | WeightedAverage numPts ids weights =>
    obtain ⟨h1, h2, h3⟩ := h
    simp only [opValue, Option.isSome_map']
    apply forLoop_isSome
    intro i hi v
    obtain ⟨id, hid, hmem⟩ := getElem?_of_lt_length ids numPts i hi h1
    obtain ⟨w, hw, -⟩ := getElem?_of_lt_length weights numPts i hi h2
    obtain ⟨a, ha⟩ := getElem?_of_recordInside _ _ _ _ (h3 id hmem) hj
    simp [hid, hw, ha]
  | InterpolateEdge v0 v1 t =>
    obtain ⟨h0, h1⟩ := h
    obtain ⟨a, ha⟩ := getElem?_of_recordInside _ _ _ _ h0 hj
    obtain ⟨b, hb⟩ := getElem?_of_recordInside _ _ _ _ h1 hj
    simp [opValue, ha, hb]
  | AssignNullValue => rfl

/-- The value computed for component `j` after the components before `j` of the output
record have been written is the value computed in the state before the call. -/
theorem opValue_written (F : DoubleArith D) (A : ElemArith D T) (p : ArrayPair T)
    (op : PairOp D) (outId j : Nat) (w : Nat → T) (h : p.InRange op outId)
    (hj : j < p.NumComp) :
    opValue F A op p.NumComp j (p.withOutput (writeRec p.Output (outId * p.NumComp) w j)) =
      some (opValues F A p op j) := by
  have h1 := opValue_congr F A p op p.NumComp j
    (writeRec p.Output (outId * p.NumComp) w j) p.Output
    (fun id _ => getElem?_writeRec_component _ _ _ _ _ _ hj)
  rw [h1, withOutput_Output]
  obtain ⟨v, hv⟩ := Option.isSome_iff_exists.mp (opValue_isSome F A p op outId j h hj)
  simp [opValues, hv]

/-- Every processing operation with arguments in range returns, and its whole effect is
to write the values `opValues`, computed from the state before the call, into the
components of output record `outId`. -/
theorem apply_eq (F : DoubleArith D) (A : ElemArith D T) (p : ArrayPair T)
    (op : PairOp D) (outId : Nat) (h : p.InRange op outId) :
    apply F A p op outId = some (p.withOutput
      (writeRec p.Output (outId * p.NumComp) (opValues F A p op) p.NumComp)) := by
  have hval : ∀ j, j < p.NumComp → opValue F A op p.NumComp j
      (p.withOutput (writeRec p.Output (outId * p.NumComp) (opValues F A p op) j)) =
        some (opValues F A p op j) :=
    fun j hj => opValue_written F A p op outId j _ h hj
  have hout := h.1
  cases op with
  | Copy inId =>
    exact forLoop_store Output withOutput (fun _ => rfl) _
      (fun j q => opValue F A (.Copy inId) p.NumComp j q) (outId * p.NumComp) p
      (fun j l => rfl) _ p.NumComp hval hout
  | Interpolate numWeights ids weights =>
    refine forLoop_store Output withOutput (fun _ => rfl) _
      (fun j q => opValue F A (.Interpolate numWeights ids weights) p.NumComp j q)
      (outId * p.NumComp) p ?_ _ p.NumComp hval hout
    intro j l
    simp only [opValue, Option.bind_eq_bind, Option.bind_map]
    rfl
  | InterpolateOutput numWeights ids weights =>
    refine forLoop_store Output withOutput (fun _ => rfl) _
      (fun j q => opValue F A (.InterpolateOutput numWeights ids weights) p.NumComp j q)
      (outId * p.NumComp) p ?_ _ p.NumComp hval hout
    intro j l
    simp only [opValue, Option.bind_eq_bind, Option.bind_map]
    rfl
  | Average numPts ids =>
    refine forLoop_store Output withOutput (fun _ => rfl) _
      (fun j q => opValue F A (.Average numPts ids) p.NumComp j q)
      (outId * p.NumComp) p ?_ _ p.NumComp hval hout
    intro j l
    simp only [opValue, Option.bind_eq_bind, Option.bind_map]
    rfl
  | WeightedAverage numPts ids weights =>
    refine forLoop_store Output withOutput (fun _ => rfl) _
      (fun j q => opValue F A (.WeightedAverage numPts ids weights) p.NumComp j q)
      (outId * p.NumComp) p ?_ _ p.NumComp hval hout
    intro j l
    simp only [opValue, Option.bind_eq_bind, Option.bind_map]
    rfl
  | InterpolateEdge v0 v1 t =>
    refine forLoop_store Output withOutput (fun _ => rfl) _
      (fun j q => opValue F A (.InterpolateEdge v0 v1 t) p.NumComp j q)
      (outId * p.NumComp) p ?_ _ p.NumComp hval hout
    intro j l
    simp only [opValue, Option.bind_eq_bind, Option.pure_def, Option.bind_assoc,
      Option.some_bind]
    rfl
  | AssignNullValue =>
    exact forLoop_store Output withOutput (fun _ => rfl) _
      (fun j q => opValue F A .AssignNullValue p.NumComp j q) (outId * p.NumComp) p
      (fun j l => rfl) _ p.NumComp hval hout

end ArrayPair

namespace RealArrayPair

variable {D TInput TOutput : Type}

/-- The value an invocation computes depends on the output buffer only through the
records it reads. -/
theorem real_opValue_congr (F : DoubleArith D) (AI : ElemArith D TInput)
    (AO : ElemArith D TOutput) (cast : TInput → TOutput) (p : RealArrayPair TInput TOutput)
    (op : PairOp D) (nc j : Nat) (l l' : List TOutput)
    (h : ∀ id, id ∈ op.reads → l[id * nc + j]? = l'[id * nc + j]?) :
    opValue F AI AO cast op nc j (p.withOutput l) = opValue F AI AO cast op nc j (p.withOutput l') := by
  cases op with
  | InterpolateOutput numWeights ids weights =>
    simp only [opValue]
    congr 1
    apply forLoop_congr
    intro i hi v
    cases hw : weights[i]? with
    | none => rfl
    | some w =>
      cases hid : ids[i]? with
      | none => rfl
      | some id =>
        have := h id (getElem?_mem_take ids numWeights i id hi hid)
        simp only [real_Output_withOutput, Option.bind_eq_bind, Option.some_bind]
        rw [this]
  | _ => rfl

/-- With arguments in range every component value can be computed. -/
theorem real_opValue_isSome (F : DoubleArith D) (AI : ElemArith D TInput)
    (AO : ElemArith D TOutput) (cast : TInput → TOutput) (p : RealArrayPair TInput TOutput)
    (op : PairOp D) (outId j : Nat) (h : p.InRange op outId) (hj : j < p.NumComp) :
    (opValue F AI AO cast op p.NumComp j p).isSome := by
  obtain ⟨-, h⟩ := h
  cases op with
  | Copy inId =>
    obtain ⟨a, ha⟩ := getElem?_of_recordInside _ _ _ _ h hj
    simp [opValue, ha]
  | Interpolate numWeights ids weights =>
    obtain ⟨h1, h2, h3⟩ := h
    simp only [opValue, Option.isSome_map']
    apply forLoop_isSome
    intro i hi v
    obtain ⟨id, hid, hmem⟩ := getElem?_of_lt_length ids numWeights i hi h1
    obtain ⟨w, hw, -⟩ := getElem?_of_lt_length weights numWeights i hi h2
    obtain ⟨a, ha⟩ := getElem?_of_recordInside _ _ _ _ (h3 id hmem) hj
    simp [hid, hw, ha]
  | InterpolateOutput numWeights ids weights =>
    obtain ⟨h1, h2, h3⟩ := h
    simp only [opValue, Option.isSome_map']
    apply forLoop_isSome
    intro i hi v
    obtain ⟨id, hid, hmem⟩ := getElem?_of_lt_length ids numWeights i hi h1
    obtain ⟨w, hw, -⟩ := getElem?_of_lt_length weights numWeights i hi h2
    obtain ⟨a, ha⟩ := getElem?_of_recordInside _ _ _ _ (h3 id hmem) hj
    simp [hid, hw, ha]
  | Average numPts ids =>
    obtain ⟨h1, h3⟩ := h
    simp only [opValue, Option.isSome_map']
    apply forLoop_isSome
    intro i hi v
    obtain ⟨id, hid, hmem⟩ := getElem?_of_lt_length ids numPts i hi h1
    obtain ⟨a, ha⟩ := getElem?_of_recordInside _ _ _ _ (h3 id hmem) hj
    simp [hid, ha]
  | WeightedAverage numPts ids weights =>
    obtain ⟨h1, h2, h3⟩ := h
    simp only [opValue, Option.isSome_map']
    apply forLoop_isSome
    intro i hi v
    obtain ⟨id, hid, hmem⟩ := getElem?_of_lt_length ids numPts i hi h1
    obtain ⟨w, hw, -⟩ := getElem?_of_lt_length weights numPts i hi h2
    obtain ⟨a, ha⟩ := getElem?_of_recordInside _ _ _ _ (h3 id hmem) hj
    simp [hid, hw, ha]
  | InterpolateEdge v0 v1 t =>
    obtain ⟨h0, h1⟩ := h
    obtain ⟨a, ha⟩ := getElem?_of_recordInside _ _ _ _ h0 hj
    obtain ⟨b, hb⟩ := getElem?_of_recordInside _ _ _ _ h1 hj
    simp [opValue, ha, hb]
  | AssignNullValue => rfl

/-- The value computed for component `j` after the components before `j` of the output
record have been written is the value computed in the state before the call. -/
theorem real_opValue_written (F : DoubleArith D) (AI : ElemArith D TInput)
    (AO : ElemArith D TOutput) (cast : TInput → TOutput) (p : RealArrayPair TInput TOutput)
    (op : PairOp D) (outId j : Nat) (w : Nat → TOutput) (h : p.InRange op outId)
    (hj : j < p.NumComp) :
    opValue F AI AO cast op p.NumComp j (p.withOutput (writeRec p.Output (outId * p.NumComp) w j)) =
      some (opValues F AI AO cast p op j) := by
  have h1 := real_opValue_congr F AI AO cast p op p.NumComp j
    (writeRec p.Output (outId * p.NumComp) w j) p.Output
    (fun id _ => getElem?_writeRec_component _ _ _ _ _ _ hj)
  rw [h1, real_withOutput_Output]
  obtain ⟨v, hv⟩ := Option.isSome_iff_exists.mp (real_opValue_isSome F AI AO cast p op outId j h hj)
  simp [opValues, hv]

/-- Every processing operation with arguments in range returns, and its whole effect is
to write the values `opValues`, computed from the state before the call, into the
components of output record `outId`. -/
theorem real_apply_eq (F : DoubleArith D) (AI : ElemArith D TInput)
    (AO : ElemArith D TOutput) (cast : TInput → TOutput) (p : RealArrayPair TInput TOutput)
    (op : PairOp D) (outId : Nat) (h : p.InRange op outId) :
    apply F AI AO cast p op outId = some (p.withOutput
      (writeRec p.Output (outId * p.NumComp) (opValues F AI AO cast p op) p.NumComp)) := by
  have hval : ∀ j, j < p.NumComp → opValue F AI AO cast op p.NumComp j
      (p.withOutput (writeRec p.Output (outId * p.NumComp) (opValues F AI AO cast p op) j)) =
        some (opValues F AI AO cast p op j) :=
    fun j hj => real_opValue_written F AI AO cast p op outId j _ h hj
  have hout := h.1
  cases op with
  | Copy inId =>
    refine forLoop_store Output withOutput (fun _ => rfl) _
      (fun j q => opValue F AI AO cast (.Copy inId) p.NumComp j q) (outId * p.NumComp) p
      ?_ _ p.NumComp hval hout
    intro j l
    simp only [opValue, Option.bind_eq_bind, Option.bind_map]
    rfl
  | Interpolate numWeights ids weights =>
    refine forLoop_store Output withOutput (fun _ => rfl) _
      (fun j q => opValue F AI AO cast (.Interpolate numWeights ids weights) p.NumComp j q)
      (outId * p.NumComp) p ?_ _ p.NumComp hval hout
    intro j l
    simp only [opValue, Option.bind_eq_bind, Option.bind_map]
    rfl
  | InterpolateOutput numWeights ids weights =>
    refine forLoop_store Output withOutput (fun _ => rfl) _
      (fun j q => opValue F AI AO cast (.InterpolateOutput numWeights ids weights) p.NumComp j q)
      (outId * p.NumComp) p ?_ _ p.NumComp hval hout
    intro j l
    simp only [opValue, Option.bind_eq_bind, Option.bind_map]
    rfl
  | Average numPts ids =>
    refine forLoop_store Output withOutput (fun _ => rfl) _
      (fun j q => opValue F AI AO cast (.Average numPts ids) p.NumComp j q)
      (outId * p.NumComp) p ?_ _ p.NumComp hval hout
    intro j l
    simp only [opValue, Option.bind_eq_bind, Option.bind_map]
    rfl
  | WeightedAverage numPts ids weights =>
    refine forLoop_store Output withOutput (fun _ => rfl) _
      (fun j q => opValue F AI AO cast (.WeightedAverage numPts ids weights) p.NumComp j q)
      (outId * p.NumComp) p ?_ _ p.NumComp hval hout
    intro j l
    simp only [opValue, Option.bind_eq_bind, Option.bind_map]
    rfl
  | InterpolateEdge v0 v1 t =>
    refine forLoop_store Output withOutput (fun _ => rfl) _
      (fun j q => opValue F AI AO cast (.InterpolateEdge v0 v1 t) p.NumComp j q)
      (outId * p.NumComp) p ?_ _ p.NumComp hval hout
    intro j l
    simp only [opValue, Option.bind_eq_bind, Option.pure_def, Option.bind_assoc,
      Option.some_bind]
    rfl
  | AssignNullValue =>
    exact forLoop_store Output withOutput (fun _ => rfl) _
      (fun j q => opValue F AI AO cast .AssignNullValue p.NumComp j q) (outId * p.NumComp) p
      (fun j l => rfl) _ p.NumComp hval hout

end RealArrayPair

/-! ## Frame and independence of the processing operations -/

/-- Writes to the records of two different ids can be made in either order. -/
theorem writeRec_comm {T : Type} (out : List T) (nc o1 o2 : Nat) (w1 w2 : Nat → T)
    (hne : o1 ≠ o2) :
    writeRec (writeRec out (o1 * nc) w1 nc) (o2 * nc) w2 nc =
      writeRec (writeRec out (o2 * nc) w2 nc) (o1 * nc) w1 nc := by
  have hdisj : o1 * nc + nc ≤ o2 * nc ∨ o2 * nc + nc ≤ o1 * nc := by
    by_cases h : o1 < o2
    · left
      have h1 : (o1 + 1) * nc ≤ o2 * nc := Nat.mul_le_mul_right nc h
      rw [Nat.add_mul] at h1
      omega
    · right
      have h1 : (o2 + 1) * nc ≤ o1 * nc := Nat.mul_le_mul_right nc (by omega)
      rw [Nat.add_mul] at h1
      omega
  apply List.ext_getElem?
  intro i
  simp only [getElem?_writeRec, length_writeRec]
  split_ifs <;> first | rfl | (exfalso; omega)

namespace ArrayPair

variable {D T : Type}

theorem InRange_withOutput (p : ArrayPair T) (op : PairOp D) (outId : Nat) (l : List T)
    (hlen : l.length = p.Output.length) (h : p.InRange op outId) :
    (p.withOutput l).InRange op outId := by
  cases op <;> simpa [InRange, recordInside, hlen] using h

/-- The values an invocation stores are the same in two states that differ only in
output records the invocation does not read. -/
theorem opValues_withOutput (F : DoubleArith D) (A : ElemArith D T) (p : ArrayPair T)
    (op : PairOp D) (o : Nat) (w : Nat → T) (ho : o ∉ op.reads) (j : Nat)
    (hj : j < p.NumComp) :
    opValues F A (p.withOutput (writeRec p.Output (o * p.NumComp) w p.NumComp)) op j =
      opValues F A p op j := by
  unfold opValues
  have h := opValue_congr F A p op p.NumComp j
    (writeRec p.Output (o * p.NumComp) w p.NumComp) p.Output (by
      intro id hid
      have hne : id ≠ o := fun e => ho (e ▸ hid)
      exact getElem?_writeRec_of_not_mem _ _ _ _ _ (component_not_mem _ _ _ _ hne hj))
  rw [withOutput_Output] at h
  simp only [NumComp_withOutput, NullValue_withOutput]
  rw [h]

/-- Two invocations in sequence, with arguments in range and the second not reading the
record the first writes, store the values each computes from the state before both. -/
theorem apply_then_apply (F : DoubleArith D) (A : ElemArith D T) (p : ArrayPair T)
    (op1 op2 : PairOp D) (o1 o2 : Nat)
    (h1 : p.InRange op1 o1) (h2 : p.InRange op2 o2) (hread2 : o1 ∉ op2.reads) :
    (apply F A p op1 o1).bind (fun q => apply F A q op2 o2) =
      some (p.withOutput (writeRec (writeRec p.Output (o1 * p.NumComp) (opValues F A p op1)
        p.NumComp) (o2 * p.NumComp) (opValues F A p op2) p.NumComp)) := by
  rw [apply_eq F A p op1 o1 h1, Option.some_bind]
  have h2' := InRange_withOutput p op2 o2
    (writeRec p.Output (o1 * p.NumComp) (opValues F A p op1) p.NumComp)
    (length_writeRec _ _ _ _) h2
  rw [apply_eq F A _ op2 o2 h2']
  simp only [withOutput_withOutput, Output_withOutput, NumComp_withOutput]
  rw [writeRec_congr _ _ _ _ _ (fun j hj => opValues_withOutput F A p op2 o1 _ hread2 j hj)]

end ArrayPair

namespace RealArrayPair

variable {D TInput TOutput : Type}

theorem real_InRange_withOutput (p : RealArrayPair TInput TOutput) (op : PairOp D) (outId : Nat) (l : List TOutput)
    (hlen : l.length = p.Output.length) (h : p.InRange op outId) :
    (p.withOutput l).InRange op outId := by
  cases op <;> simpa [InRange, recordInside, hlen] using h

/-- The values an invocation stores are the same in two states that differ only in
output records the invocation does not read. -/
theorem real_opValues_withOutput (F : DoubleArith D) (AI : ElemArith D TInput)
    (AO : ElemArith D TOutput) (cast : TInput → TOutput) (p : RealArrayPair TInput TOutput)
    (op : PairOp D) (o : Nat) (w : Nat → TOutput) (ho : o ∉ op.reads) (j : Nat)
    (hj : j < p.NumComp) :
    opValues F AI AO cast (p.withOutput (writeRec p.Output (o * p.NumComp) w p.NumComp)) op j =
      opValues F AI AO cast p op j := by
  unfold opValues
  have h := real_opValue_congr F AI AO cast p op p.NumComp j
    (writeRec p.Output (o * p.NumComp) w p.NumComp) p.Output (by
      intro id hid
      have hne : id ≠ o := fun e => ho (e ▸ hid)
      exact getElem?_writeRec_of_not_mem _ _ _ _ _ (component_not_mem _ _ _ _ hne hj))
  rw [real_withOutput_Output] at h
  simp only [real_NumComp_withOutput, real_NullValue_withOutput]
  rw [h]

/-- Two invocations in sequence, with arguments in range and the second not reading the
record the first writes, store the values each computes from the state before both. -/
theorem real_apply_then_apply (F : DoubleArith D) (AI : ElemArith D TInput)
    (AO : ElemArith D TOutput) (cast : TInput → TOutput) (p : RealArrayPair TInput TOutput)
    (op1 op2 : PairOp D) (o1 o2 : Nat)
    (h1 : p.InRange op1 o1) (h2 : p.InRange op2 o2) (hread2 : o1 ∉ op2.reads) :
    (apply F AI AO cast p op1 o1).bind (fun q => apply F AI AO cast q op2 o2) =
      some (p.withOutput (writeRec (writeRec p.Output (o1 * p.NumComp) (opValues F AI AO cast p op1)
        p.NumComp) (o2 * p.NumComp) (opValues F AI AO cast p op2) p.NumComp)) := by
  rw [real_apply_eq F AI AO cast p op1 o1 h1, Option.some_bind]
  have h2' := real_InRange_withOutput p op2 o2
    (writeRec p.Output (o1 * p.NumComp) (opValues F AI AO cast p op1) p.NumComp)
    (length_writeRec _ _ _ _) h2
  rw [real_apply_eq F AI AO cast _ op2 o2 h2']
  simp only [real_withOutput_withOutput, real_Output_withOutput, real_NumComp_withOutput]
  rw [writeRec_congr _ _ _ _ _ (fun j hj => real_opValues_withOutput F AI AO cast p op2 o1 _ hread2 j hj)]

end RealArrayPair

/-! ## A pair that reads and writes one buffer: record writes -/

namespace ArrayPair

variable {D T : Type}

/-- The value an invocation computes depends on the two buffers only through the records
it reads from each, and on the null value. -/
theorem opValue_congr_buffers (F : DoubleArith D) (A : ElemArith D T) (op : PairOp D)
    (nc j : Nat) (q q' : ArrayPair T) (hn : q.NullValue = q'.NullValue)
    (hin : ∀ id, id ∈ op.inputReads → q.Input[id * nc + j]? = q'.Input[id * nc + j]?)
    (hout : ∀ id, id ∈ op.reads → q.Output[id * nc + j]? = q'.Output[id * nc + j]?) :
    opValue F A op nc j q = opValue F A op nc j q' := by
  cases op with
  | Copy inId => exact hin inId (List.mem_singleton.mpr rfl)
  | Interpolate numWeights ids weights =>
    simp only [opValue]
    congr 1
    apply forLoop_congr
    intro i hi v
    cases hw : weights[i]? with
    | none => rfl
    | some w =>
      cases hid : ids[i]? with
      | none => rfl
      | some id =>
        have := hin id (getElem?_mem_take ids numWeights i id hi hid)
        simp only [Option.bind_eq_bind, Option.some_bind]
        rw [this]
  | InterpolateOutput numWeights ids weights =>
    simp only [opValue]
    congr 1
    apply forLoop_congr
    intro i hi v
    cases hw : weights[i]? with
    | none => rfl
    | some w =>
      cases hid : ids[i]? with
      | none => rfl
      | some id =>
        have := hout id (getElem?_mem_take ids numWeights i id hi hid)
        simp only [Option.bind_eq_bind, Option.some_bind]
        rw [this]
  | Average numPts ids =>
    simp only [opValue]
    congr 1
    apply forLoop_congr
    intro i hi v
    cases hid : ids[i]? with
    | none => rfl
    | some id =>
      have := hin id (getElem?_mem_take ids numPts i id hi hid)
      simp only [Option.bind_eq_bind, Option.some_bind]
      rw [this]
  | WeightedAverage numPts ids weights =>
    simp only [opValue]
    congr 1
    apply forLoop_congr
    intro i hi v
    cases hw : weights[i]? with
    | none => rfl
    | some w =>
      cases hid : ids[i]? with
      | none => rfl
      | some id =>
        have := hin id (getElem?_mem_take ids numPts i id hi hid)
        simp only [Option.bind_eq_bind, Option.some_bind]
        rw [this]
  | InterpolateEdge v0 v1 t =>
    have h0 := hin v0 (List.mem_cons_self _ _)
    have h1 := hin v1 (List.mem_cons_of_mem _ (List.mem_singleton.mpr rfl))
    simp only [opValue]
    rw [h0, h1]
  | AssignNullValue => exact congrArg some hn

/-- Whether the arguments are in range depends on the component count and on the lengths
of the two buffers only. -/
theorem InRange_of_lengths (p q : ArrayPair T) (op : PairOp D) (outId : Nat)
    (hnc : q.NumComp = p.NumComp) (hin : q.Input.length = p.Input.length)
    (hout : q.Output.length = p.Output.length) (h : p.InRange op outId) :
    q.InRange op outId := by
  cases op <;> simpa [InRange, recordInside, hnc, hin, hout] using h

end ArrayPair

namespace SelfArrayPair

variable {D T : Type}

@[simp] theorem self_Output_withOutput (p : SelfArrayPair T) (l : List T) :
    (p.withOutput l).Output = l := rfl

@[simp] theorem self_Input_withOutput (p : SelfArrayPair T) (l : List T) :
    (p.withOutput l).Input = l := rfl

@[simp] theorem self_withOutput_withOutput (p : SelfArrayPair T) (l l' : List T) :
    (p.withOutput l).withOutput l' = p.withOutput l' := rfl

@[simp] theorem self_withOutput_Output (p : SelfArrayPair T) : p.withOutput p.Output = p := rfl

@[simp] theorem self_NumComp_withOutput (p : SelfArrayPair T) (l : List T) :
    (p.withOutput l).NumComp = p.NumComp := rfl

@[simp] theorem self_NullValue_withOutput (p : SelfArrayPair T) (l : List T) :
    (p.withOutput l).NullValue = p.NullValue := rfl

/-- The value computed for component `j` after the components before `j` of the output
record have been written into the one buffer is the value computed in the state before
the call: no cell of component `j` has been written yet. -/
theorem self_opValue_written (F : DoubleArith D) (A : ElemArith D T) (p : SelfArrayPair T)
    (op : PairOp D) (outId j : Nat) (w : Nat → T) (h : p.InRange op outId)
    (hj : j < p.NumComp) :
    ArrayPair.opValue F A op p.NumComp j
        (p.withOutput (writeRec p.Output (outId * p.NumComp) w j)).snapshot =
      some (ArrayPair.opValues F A p.snapshot op j) := by
  have h1 := ArrayPair.opValue_congr_buffers F A op p.NumComp j
    (p.withOutput (writeRec p.Output (outId * p.NumComp) w j)).snapshot p.snapshot rfl
    (fun id _ => getElem?_writeRec_component p.Output _ _ _ _ _ hj)
    (fun id _ => getElem?_writeRec_component p.Output _ _ _ _ _ hj)
  rw [h1]
  obtain ⟨v, hv⟩ := Option.isSome_iff_exists.mp
    (ArrayPair.opValue_isSome F A p.snapshot op outId j h hj)
  have hv' : ArrayPair.opValue F A op p.NumComp j p.snapshot = some v := hv
  have e : ArrayPair.opValues F A p.snapshot op j = v := by
    unfold ArrayPair.opValues
    rw [hv]
    rfl
  rw [e]
  exact hv'

end SelfArrayPair

namespace SelfArrayPair

variable {D T : Type}

/-- Every processing operation with arguments in range returns on a pair of one buffer
too, and its whole effect is to write into the components of record `outId` of that
buffer the values that the same invocation stores on a pair of two buffers holding, as
input and as output, the content the buffer had before the call. -/
theorem self_apply_eq (F : DoubleArith D) (A : ElemArith D T) (p : SelfArrayPair T)
    (op : PairOp D) (outId : Nat) (h : p.InRange op outId) :
    apply F A p op outId = some (p.withOutput
      (writeRec p.Output (outId * p.NumComp) (ArrayPair.opValues F A p.snapshot op)
        p.NumComp)) := by
  have hval : ∀ j, j < p.NumComp → ArrayPair.opValue F A op p.NumComp j
      (p.withOutput (writeRec p.Output (outId * p.NumComp)
        (ArrayPair.opValues F A p.snapshot op) j)).snapshot =
        some (ArrayPair.opValues F A p.snapshot op j) :=
    fun j hj => self_opValue_written F A p op outId j _ h hj
  have hout : ∀ j, j < p.NumComp → outId * p.NumComp + j < p.Output.length := h.1
  cases op with
  | Copy inId =>
    exact forLoop_store Output withOutput (fun _ => rfl) _
      (fun j q => ArrayPair.opValue F A (.Copy inId) p.NumComp j q.snapshot)
      (outId * p.NumComp) p (fun j l => rfl) _ p.NumComp hval hout
  | Interpolate numWeights ids weights =>
    refine forLoop_store Output withOutput (fun _ => rfl) _
      (fun j q => ArrayPair.opValue F A (.Interpolate numWeights ids weights) p.NumComp j
        q.snapshot) (outId * p.NumComp) p ?_ _ p.NumComp hval hout
    intro j l
    simp only [ArrayPair.opValue, Option.bind_eq_bind, Option.bind_map]
    rfl
  | InterpolateOutput numWeights ids weights =>
    refine forLoop_store Output withOutput (fun _ => rfl) _
      (fun j q => ArrayPair.opValue F A (.InterpolateOutput numWeights ids weights)
        p.NumComp j q.snapshot) (outId * p.NumComp) p ?_ _ p.NumComp hval hout
    intro j l
    simp only [ArrayPair.opValue, Option.bind_eq_bind, Option.bind_map]
    rfl
  | Average numPts ids =>
    refine forLoop_store Output withOutput (fun _ => rfl) _
      (fun j q => ArrayPair.opValue F A (.Average numPts ids) p.NumComp j q.snapshot)
      (outId * p.NumComp) p ?_ _ p.NumComp hval hout
    intro j l
    simp only [ArrayPair.opValue, Option.bind_eq_bind, Option.bind_map]
    rfl
  | WeightedAverage numPts ids weights =>
    refine forLoop_store Output withOutput (fun _ => rfl) _
      (fun j q => ArrayPair.opValue F A (.WeightedAverage numPts ids weights) p.NumComp j
        q.snapshot) (outId * p.NumComp) p ?_ _ p.NumComp hval hout
    intro j l
    simp only [ArrayPair.opValue, Option.bind_eq_bind, Option.bind_map]
    rfl
  | InterpolateEdge v0 v1 t =>
    refine forLoop_store Output withOutput (fun _ => rfl) _
      (fun j q => ArrayPair.opValue F A (.InterpolateEdge v0 v1 t) p.NumComp j q.snapshot)
      (outId * p.NumComp) p ?_ _ p.NumComp hval hout
    intro j l
    simp only [ArrayPair.opValue, Option.bind_eq_bind, Option.pure_def, Option.bind_assoc,
      Option.some_bind]
    rfl
  | AssignNullValue =>
    exact forLoop_store Output withOutput (fun _ => rfl) _
      (fun j q => ArrayPair.opValue F A .AssignNullValue p.NumComp j q.snapshot)
      (outId * p.NumComp) p (fun j l => rfl) _ p.NumComp hval hout

/-- One invocation in range changes the one buffer as it changes the output of a pair of
two buffers that holds the content of the one buffer as input and as output. -/
theorem self_apply_eq_snapshot (F : DoubleArith D) (A : ElemArith D T) (p : SelfArrayPair T)
    (op : PairOp D) (outId : Nat) (h : p.InRange op outId) :
    (apply F A p op outId).map Output =
      (ArrayPair.apply F A p.snapshot op outId).map ArrayPair.Output := by
  rw [self_apply_eq F A p op outId h, ArrayPair.apply_eq F A p.snapshot op outId h]
  rfl

theorem self_InRange_withOutput (p : SelfArrayPair T) (op : PairOp D) (outId : Nat)
    (l : List T) (hlen : l.length = p.Output.length) (h : p.InRange op outId) :
    (p.withOutput l).InRange op outId :=
  ArrayPair.InRange_of_lengths p.snapshot (p.withOutput l).snapshot op outId rfl hlen hlen h

/-- The values an invocation stores are the same in two states of the one buffer that
differ only in a record the invocation reads neither as input nor as output. -/
theorem self_opValues_withOutput (F : DoubleArith D) (A : ElemArith D T)
    (p : SelfArrayPair T) (op : PairOp D) (o : Nat) (w : Nat → T)
    (hi : o ∉ op.inputReads) (ho : o ∉ op.reads) (j : Nat) (hj : j < p.NumComp) :
    ArrayPair.opValues F A
        (p.withOutput (writeRec p.Output (o * p.NumComp) w p.NumComp)).snapshot op j =
      ArrayPair.opValues F A p.snapshot op j := by
  unfold ArrayPair.opValues
  have h := ArrayPair.opValue_congr_buffers F A op p.NumComp j
    (p.withOutput (writeRec p.Output (o * p.NumComp) w p.NumComp)).snapshot p.snapshot rfl
    (by
      intro id hid
      have hne : id ≠ o := fun e => hi (e ▸ hid)
      exact getElem?_writeRec_of_not_mem p.Output _ _ _ _
        (component_not_mem _ _ _ _ hne hj))
    (by
      intro id hid
      have hne : id ≠ o := fun e => ho (e ▸ hid)
      exact getElem?_writeRec_of_not_mem p.Output _ _ _ _
        (component_not_mem _ _ _ _ hne hj))
  exact congrArg (fun v => Option.getD v p.NullValue) h

/-- Two invocations in sequence on a pair of one buffer, with arguments in range and the
second reading the record the first writes neither as input nor as output, store the
values each computes from the state before both. -/
theorem self_apply_then_apply (F : DoubleArith D) (A : ElemArith D T) (p : SelfArrayPair T)
    (op1 op2 : PairOp D) (o1 o2 : Nat)
    (h1 : p.InRange op1 o1) (h2 : p.InRange op2 o2)
    (hin2 : o1 ∉ op2.inputReads) (hread2 : o1 ∉ op2.reads) :
    (apply F A p op1 o1).bind (fun q => apply F A q op2 o2) =
      some (p.withOutput (writeRec (writeRec p.Output (o1 * p.NumComp)
        (ArrayPair.opValues F A p.snapshot op1) p.NumComp) (o2 * p.NumComp)
        (ArrayPair.opValues F A p.snapshot op2) p.NumComp)) := by
  rw [self_apply_eq F A p op1 o1 h1, Option.some_bind]
  have h2' := self_InRange_withOutput p op2 o2
    (writeRec p.Output (o1 * p.NumComp) (ArrayPair.opValues F A p.snapshot op1) p.NumComp)
    (length_writeRec _ _ _ _) h2
  rw [self_apply_eq F A _ op2 o2 h2']
  simp only [self_withOutput_withOutput, self_Output_withOutput, self_NumComp_withOutput]
  rw [writeRec_congr _ _ _ _ _
    (fun j hj => self_opValues_withOutput F A p op2 o1 _ hin2 hread2 j hj)]

end SelfArrayPair

/-! ## Frame and order of the invocations -/

/-- C13 as stated fails: on a pair whose `Input` and `Output` address one buffer, which
holds `[1, 2, 3]`, the call `Copy(0, 1)`, whose arguments are in range, returns and leaves
`[1, 1, 3]` in that buffer: the input buffer is not what it was. -/
theorem C13_shared_buffer_counterexample :
    selfPair.Input = [1, 2, 3] ∧
    (SelfArrayPair.Copy selfPair 0 1).map SelfArrayPair.Input = some [1, 1, 3] ∧
    selfPair.InRange (.Copy 0 : PairOp Dbl) 1 := by
  refine ⟨by decide, by decide, ?_⟩
  unfold SelfArrayPair.InRange ArrayPair.InRange recordInside
  decide

/-- C13 (amended): every processing-phase operation (`Copy`, `Interpolate`,
`InterpolateOutput`, `Average`, `WeightedAverage`, `InterpolateEdge`, `AssignNullValue`;
`op` ranges over their invocations) with arguments in range returns. On a pair of either
kind whose input and output are two buffers (`p`, `r`) the input buffer is then what it
was, the output buffer has the length it had, and every output entry outside the `NumComp`
entries of record `outId`, the indices `outId*NumComp .. outId*NumComp + NumComp - 1`, has
its value of before the call. On a pair whose `Input` and `Output` address one buffer
(`s`) that buffer has the length it had and every entry of it outside the `NumComp`
entries of record `outId` has its value of before the call, while record `outId` of it,
and so of the input, holds the values the call has stored. -/
theorem C13_processing_frame {D T TInput TOutput : Type} (F : DoubleArith D)
    (A : ElemArith D T) (AI : ElemArith D TInput) (AO : ElemArith D TOutput)
    (cast : TInput → TOutput) (p : ArrayPair T) (r : RealArrayPair TInput TOutput)
    (s : SelfArrayPair T) (op : PairOp D) (outId : Nat)
    (hp : p.InRange op outId) (hr : r.InRange op outId) (hs : s.InRange op outId) :
    (∃ q, ArrayPair.apply F A p op outId = some q ∧ q.Input = p.Input ∧
      q.Output.length = p.Output.length ∧
      ∀ k, (k < outId * p.NumComp ∨ outId * p.NumComp + p.NumComp ≤ k) →
        q.Output[k]? = p.Output[k]?) ∧
    (∃ q, RealArrayPair.apply F AI AO cast r op outId = some q ∧ q.Input = r.Input ∧
      q.Output.length = r.Output.length ∧
      ∀ k, (k < outId * r.NumComp ∨ outId * r.NumComp + r.NumComp ≤ k) →
        q.Output[k]? = r.Output[k]?) ∧
    (∃ q, SelfArrayPair.apply F A s op outId = some q ∧
      q.Input.length = s.Input.length ∧
      (∀ k, (k < outId * s.NumComp ∨ outId * s.NumComp + s.NumComp ≤ k) →
        q.Input[k]? = s.Input[k]?) ∧
      (∀ j, j < s.NumComp → q.Input[outId * s.NumComp + j]? =
        some (ArrayPair.opValues F A s.snapshot op j))) := by
  refine ⟨⟨_, ArrayPair.apply_eq F A p op outId hp, rfl, ?_, ?_⟩,
    ⟨_, RealArrayPair.real_apply_eq F AI AO cast r op outId hr, rfl, ?_, ?_⟩,
    ⟨_, SelfArrayPair.self_apply_eq F A s op outId hs, ?_, ?_, ?_⟩⟩
  · exact length_writeRec _ _ _ _
  · intro k hk
    exact getElem?_writeRec_of_not_mem _ _ _ _ _ hk
  · exact length_writeRec _ _ _ _
  · intro k hk
    exact getElem?_writeRec_of_not_mem _ _ _ _ _ hk
  · exact length_writeRec _ _ _ _
  · intro k hk
    exact getElem?_writeRec_of_not_mem s.Output _ _ _ _ hk
  · intro j hj
    exact getElem?_writeRec_of_lt s.Output _ _ _ j hj (hs.1 j hj)

/-- C13 (amended), at a concrete input: `InterpolateEdge(0, 2, 0.5, 1)` on pairs of two
buffers whose output holds the records `(10, 20)`, `(30, 40)`, `(0, 0)`, and on the pair
of one buffer `[1, 2, 3]`, where it leaves `[1, 2, 3]` with record 1 rewritten. -/
theorem C13_processing_frame_witness :
    (∃ q, ArrayPair.InterpolateEdge ieeeDouble (intElem 32 true) filledPair 0 2 half 1 =
        some q ∧ q.Input = [1, 2, 3, 4, 5, 6] ∧ q.Output.length = 6 ∧
      ∀ k, (k < 1 * 2 ∨ 1 * 2 + 2 ≤ k) → q.Output[k]? = [10, 20, 30, 40, 0, 0][k]?) ∧
    (∃ q, RealArrayPair.InterpolateEdge ieeeDouble (intElem 32 true) doubleElem
        filledRealPair 0 2 half 1 = some q ∧ q.Input = [1, 2, 3, 4, 5, 6] ∧
      q.Output.length = 6 ∧
      ∀ k, (k < 1 * 2 ∨ 1 * 2 + 2 ≤ k) → q.Output[k]? = filledRealPair.Output[k]?) ∧
    (∃ q, SelfArrayPair.InterpolateEdge ieeeDouble (intElem 32 true) selfPair 0 2 half 1 =
        some q ∧ q.Input.length = 3 ∧
      (∀ k, (k < 1 * 1 ∨ 1 * 1 + 1 ≤ k) → q.Input[k]? = [1, 2, 3][k]?) ∧
      (∀ j, j < 1 → q.Input[1 * 1 + j]? =
        some (ArrayPair.opValues ieeeDouble (intElem 32 true) selfPair.snapshot
          (.InterpolateEdge 0 2 half) j))) :=
  C13_processing_frame ieeeDouble (intElem 32 true) (intElem 32 true) doubleElem Dbl.ofInt
    filledPair filledRealPair selfPair (.InterpolateEdge 0 2 half) 1
    (by unfold ArrayPair.InRange recordInside; decide)
    (by unfold RealArrayPair.InRange recordInside; decide)
    (by unfold SelfArrayPair.InRange ArrayPair.InRange recordInside; decide)

/-- C14 as stated fails: on a pair whose output holds the records `(10, 20)`, `(30, 40)`,
`(0, 0)` and whose null value is `-1`, `AssignNullValue(0)` followed by
`InterpolateOutput(1, [0], [1.0], 1)` leaves `(-1, -1)` in record 1, while the two calls in
the other order leave `(10, 20)` there: the second call reads the record the first one
writes. Likewise on a pair whose `Input` and `Output` address one buffer, which holds
`[1, 2, 3]`: `Copy(0, 1)` followed by `Copy(1, 2)` leaves `[1, 1, 1]`, the two calls in
the other order leave `[1, 1, 2]`. -/
theorem C14_order_counterexample :
    ((ArrayPair.AssignNullValue filledPair 0).bind (fun q =>
        ArrayPair.InterpolateOutput ieeeDouble (intElem 32 true) q 1 [0] [Dbl.ofInt 1] 1)).map
      ArrayPair.Output = some [-1, -1, -1, -1, 0, 0] ∧
    ((ArrayPair.InterpolateOutput ieeeDouble (intElem 32 true) filledPair 1 [0]
        [Dbl.ofInt 1] 1).bind (fun q => ArrayPair.AssignNullValue q 0)).map
      ArrayPair.Output = some [-1, -1, 10, 20, 0, 0] ∧
    ((SelfArrayPair.Copy selfPair 0 1).bind (fun q => SelfArrayPair.Copy q 1 2)).map
      SelfArrayPair.Output = some [1, 1, 1] ∧
    ((SelfArrayPair.Copy selfPair 1 2).bind (fun q => SelfArrayPair.Copy q 0 1)).map
      SelfArrayPair.Output = some [1, 1, 2] := by
  refine ⟨by decide!, by decide!, by decide, by decide⟩

/-- C14 (amended): two processing-phase invocations with arguments in range that target
different output records `o1 ≠ o2`, neither of them an `InterpolateOutput` that has the
record of the other among its ids, both return in either order and leave the same final
state on either kind of pair whose input and output are two buffers (`p`, `r`); on a pair
whose `Input` and `Output` address one buffer (`s`) they do so when, in addition, neither
has the record of the other among the input records it reads. -/
theorem C14_disjoint_records_commute {D T TInput TOutput : Type} (F : DoubleArith D)
    (A : ElemArith D T) (AI : ElemArith D TInput) (AO : ElemArith D TOutput)
    (cast : TInput → TOutput) (p : ArrayPair T) (r : RealArrayPair TInput TOutput)
    (s : SelfArrayPair T)
    (op1 op2 : PairOp D) (o1 o2 : Nat) (hne : o1 ≠ o2)
    (hp1 : p.InRange op1 o1) (hp2 : p.InRange op2 o2)
    (hr1 : r.InRange op1 o1) (hr2 : r.InRange op2 o2)
    (hs1 : s.InRange op1 o1) (hs2 : s.InRange op2 o2)
    (hread1 : o2 ∉ op1.reads) (hread2 : o1 ∉ op2.reads) :
    (∃ q, (ArrayPair.apply F A p op1 o1).bind (fun q1 => ArrayPair.apply F A q1 op2 o2) =
        some q ∧
      (ArrayPair.apply F A p op2 o2).bind (fun q2 => ArrayPair.apply F A q2 op1 o1) =
        some q) ∧
    (∃ q, (RealArrayPair.apply F AI AO cast r op1 o1).bind
        (fun q1 => RealArrayPair.apply F AI AO cast q1 op2 o2) = some q ∧
      (RealArrayPair.apply F AI AO cast r op2 o2).bind
        (fun q2 => RealArrayPair.apply F AI AO cast q2 op1 o1) = some q) ∧
    (o2 ∉ op1.inputReads → o1 ∉ op2.inputReads →
      ∃ q, (SelfArrayPair.apply F A s op1 o1).bind
          (fun q1 => SelfArrayPair.apply F A q1 op2 o2) = some q ∧
        (SelfArrayPair.apply F A s op2 o2).bind
          (fun q2 => SelfArrayPair.apply F A q2 op1 o1) = some q) := by
  refine ⟨⟨_, ArrayPair.apply_then_apply F A p op1 op2 o1 o2 hp1 hp2 hread2, ?_⟩,
    ⟨_, RealArrayPair.real_apply_then_apply F AI AO cast r op1 op2 o1 o2 hr1 hr2 hread2, ?_⟩,
    fun hin1 hin2 =>
      ⟨_, SelfArrayPair.self_apply_then_apply F A s op1 op2 o1 o2 hs1 hs2 hin2 hread2, ?_⟩⟩
  · rw [ArrayPair.apply_then_apply F A p op2 op1 o2 o1 hp2 hp1 hread1,
      writeRec_comm _ _ _ _ _ _ hne]
  · rw [RealArrayPair.real_apply_then_apply F AI AO cast r op2 op1 o2 o1 hr2 hr1 hread1,
      writeRec_comm _ _ _ _ _ _ hne]
  · rw [SelfArrayPair.self_apply_then_apply F A s op2 op1 o2 o1 hs2 hs1 hin1 hread1,
      writeRec_comm _ _ _ _ _ _ hne]

/-- C14 (amended), at a concrete input: `InterpolateOutput(1, [1], [0.5], 2)`, which
reads output record 1 and writes record 2, and `Copy(1, 0)`, which reads input record 1
and writes record 0, on pairs of two buffers and on the pair of one buffer `[1, 2, 3]`. -/
theorem C14_disjoint_records_commute_witness :
    (∃ q, (ArrayPair.InterpolateOutput ieeeDouble (intElem 32 true) filledPair 1 [1] [half]
          2).bind (fun q1 => ArrayPair.Copy q1 1 0) = some q ∧
      (ArrayPair.Copy filledPair 1 0).bind (fun q2 =>
        ArrayPair.InterpolateOutput ieeeDouble (intElem 32 true) q2 1 [1] [half] 2) =
          some q) ∧
    (∃ q, (RealArrayPair.InterpolateOutput ieeeDouble doubleElem filledRealPair 1 [1] [half]
          2).bind (fun q1 => RealArrayPair.Copy Dbl.ofInt q1 1 0) = some q ∧
      (RealArrayPair.Copy Dbl.ofInt filledRealPair 1 0).bind (fun q2 =>
        RealArrayPair.InterpolateOutput ieeeDouble doubleElem q2 1 [1] [half] 2) =
          some q) ∧
    (∃ q, (SelfArrayPair.InterpolateOutput ieeeDouble (intElem 32 true) selfPair 1 [1] [half]
          2).bind (fun q1 => SelfArrayPair.Copy q1 1 0) = some q ∧
      (SelfArrayPair.Copy selfPair 1 0).bind (fun q2 =>
        SelfArrayPair.InterpolateOutput ieeeDouble (intElem 32 true) q2 1 [1] [half] 2) =
          some q) :=
  have h := C14_disjoint_records_commute ieeeDouble (intElem 32 true) (intElem 32 true)
    doubleElem Dbl.ofInt filledPair filledRealPair selfPair
    (.InterpolateOutput 1 [1] [half]) (.Copy 1) 2 0
    (by decide)
    (by unfold ArrayPair.InRange recordInside; decide)
    (by unfold ArrayPair.InRange recordInside; decide)
    (by unfold RealArrayPair.InRange recordInside; decide)
    (by unfold RealArrayPair.InRange recordInside; decide)
    (by unfold SelfArrayPair.InRange ArrayPair.InRange recordInside; decide)
    (by unfold SelfArrayPair.InRange ArrayPair.InRange recordInside; decide)
    (by unfold PairOp.reads; decide) (by unfold PairOp.reads; decide)
  ⟨h.1, h.2.1, h.2.2 (by unfold PairOp.inputReads; decide)
    (by unfold PairOp.inputReads; decide)⟩

/-- C17: `InterpolateOutput(numWeights, ids, weights, outId)` on either kind of pair,
with the first `numWeights` ids and weights present and the records in range, also when
`outId` is one of the ids, returns, and every component `j` of output record `outId` ends
up as the cast of the sum over `i` of `weights[i] * P[ids[i]*NumComp + j]`, where `P` is
the output buffer as it was before the call (the values `prior i j`); no write to a
component of record `outId` is read back for another component, since
`id*NumComp + j' = outId*NumComp + j` with `j, j' < NumComp` forces `j = j'`. -/
theorem C17_InterpolateOutput_prior_values {D T TInput TOutput : Type} (F : DoubleArith D)
    (A : ElemArith D T) (AO : ElemArith D TOutput)
    (p : ArrayPair T) (prior : Nat → Nat → T)
    (r : RealArrayPair TInput TOutput) (rprior : Nat → Nat → TOutput)
    (numWeights : Nat) (ids : List Nat) (weights : List D) (outId : Nat)
    (wt : Nat → D) (id : Nat → Nat)
    (hw : ∀ i, i < numWeights → weights[i]? = some (wt i))
    (hids : ∀ i, i < numWeights → ids[i]? = some (id i))
    (hp_in : ∀ i, i < numWeights → ∀ j, j < p.NumComp →
      p.Output[id i * p.NumComp + j]? = some (prior i j))
    (hp_out : ∀ j, j < p.NumComp → outId * p.NumComp + j < p.Output.length)
    (hr_in : ∀ i, i < numWeights → ∀ j, j < r.NumComp →
      r.Output[id i * r.NumComp + j]? = some (rprior i j))
    (hr_out : ∀ j, j < r.NumComp → outId * r.NumComp + j < r.Output.length) :
    (∃ q, ArrayPair.InterpolateOutput F A p numWeights ids weights outId = some q ∧
      ∀ j, j < p.NumComp → q.Output[outId * p.NumComp + j]? =
        some (A.ofDouble ((List.range numWeights).foldl
          (fun v i => F.add v (F.mul (wt i) (A.toDouble (prior i j)))) F.zero))) ∧
    (∃ q, RealArrayPair.InterpolateOutput F AO r numWeights ids weights outId = some q ∧
      ∀ j, j < r.NumComp → q.Output[outId * r.NumComp + j]? =
        some (AO.ofDouble ((List.range numWeights).foldl
          (fun v i => F.add v (F.mul (wt i) (AO.toDouble (rprior i j)))) F.zero))) ∧
    (∀ nc i j j' : Nat, j < nc → j' < nc → i * nc + j' = outId * nc + j → j = j') := by
  refine ⟨⟨_, ArrayPair.InterpolateOutput_eq F A p numWeights ids weights outId wt id prior
      hw hids hp_in hp_out, ?_⟩,
    ⟨_, RealArrayPair.real_InterpolateOutput_eq F AO r numWeights ids weights outId wt id
      rprior hw hids hr_in hr_out, ?_⟩, ?_⟩
  · intro j hj
    exact getElem?_writeRec_of_lt _ _ _ _ j hj (hp_out j hj)
  · intro j hj
    exact getElem?_writeRec_of_lt _ _ _ _ j hj (hr_out j hj)
  · intro nc i j j' hj hj' h
    have h1 : (i * nc + j') % nc = (outId * nc + j) % nc := by rw [h]
    rw [Nat.mul_comm i nc, Nat.mul_comm outId nc, Nat.mul_add_mod, Nat.mul_add_mod,
      Nat.mod_eq_of_lt hj, Nat.mod_eq_of_lt hj'] at h1
    exact h1.symm

/-- C17, at a concrete input in which `outId = 0` is the first of the ids `[0, 1]`: the
output records `(10, 20)` and `(30, 40)` are blended into record 0, which becomes
`(20, 30)`. -/
theorem C17_InterpolateOutput_prior_values_witness :
    (∃ q, ArrayPair.InterpolateOutput ieeeDouble (intElem 32 true) filledPair 2 [0, 1]
        [half, half] 0 = some q ∧ q.Output = [20, 30, 30, 40, 0, 0]) ∧
    (∃ q, RealArrayPair.InterpolateOutput ieeeDouble doubleElem filledRealPair 2 [0, 1]
        [half, half] 0 = some q ∧
      q.Output[0]? = some (Dbl.ofInt 20) ∧ q.Output[1]? = some (Dbl.ofInt 30)) := by
  have h := C17_InterpolateOutput_prior_values ieeeDouble (intElem 32 true) doubleElem
    filledPair (fun i j => ((10 + 20 * i + 10 * j : Nat) : Int))
    filledRealPair (fun i j => Dbl.ofInt ((10 + 20 * i + 10 * j : Nat) : Int))
    2 [0, 1] [half, half] 0 (fun _ => half) (fun i => i)
    (by decide!) (by decide) (by decide) (by decide) (by decide!) (by decide)
  obtain ⟨⟨q, hq, -⟩, ⟨q', hq', -⟩, -⟩ := h
  exact ⟨⟨q, hq, by
      have e : ArrayPair.InterpolateOutput ieeeDouble (intElem 32 true) filledPair 2 [0, 1]
        [half, half] 0 = some (filledPair.withOutput [20, 30, 30, 40, 0, 0]) := by decide!
      rw [e] at hq
      cases hq
      rfl⟩,
    ⟨q', hq', by
      have e : (RealArrayPair.InterpolateOutput ieeeDouble doubleElem filledRealPair 2 [0, 1]
        [half, half] 0).map (fun q => (q.Output[0]?, q.Output[1]?)) =
          some (some (Dbl.ofInt 20), some (Dbl.ofInt 30)) := by decide!
      rw [hq'] at e
      simp only [Option.map_some', Option.some.injEq, Prod.mk.injEq] at e
      exact e⟩⟩

/-! ## The fan-out of the list -/

theorem forEach_eq_some {α : Type 1} (method : α → Option α) :
    ∀ (l l' : List α), forEach method l = some l' ↔
      List.Forall₂ (fun a a' => method a = some a') l l' := by
  intro l
  induction l with
  | nil =>
    intro l'
    constructor
    · intro h
      simp only [forEach, Option.some.injEq] at h
      subst h
      exact List.Forall₂.nil
    · intro h
      cases h
      rfl
  | cons a rest ih =>
    intro l'
    constructor
    · intro h
      simp only [forEach, Option.bind_eq_some, Option.map_eq_some'] at h
      obtain ⟨a', ha, rest', hrest, rfl⟩ := h
      exact List.Forall₂.cons ha ((ih rest').mp hrest)
    · intro h
      cases h with
      | cons ha hrest =>
        simp only [forEach, ha, Option.some_bind, (ih _).mpr hrest, Option.map_some']

theorem forEach_isSome {α : Type 1} (method : α → Option α) (l : List α)
    (h : ∀ a, a ∈ l → (method a).isSome) : (forEach method l).isSome := by
  induction l with
  | nil => rfl
  | cons a rest ih =>
    obtain ⟨a', ha⟩ := Option.isSome_iff_exists.mp (h a (List.mem_cons_self a rest))
    obtain ⟨rest', hrest⟩ := Option.isSome_iff_exists.mp
      (ih (fun b hb => h b (List.mem_cons_of_mem a hb)))
    simp [forEach, ha, hrest]

/-- The result of the loop over a rearranged list is the rearranged result. -/
theorem forEach_perm {α : Type 1} (method : α → Option α) (l₁ l₂ : List α)
    (hp : l₁.Perm l₂) :
    ∀ r₁, forEach method l₁ = some r₁ → ∃ r₂, forEach method l₂ = some r₂ ∧ r₁.Perm r₂ := by
  induction hp with
  | nil =>
    intro r₁ h
    exact ⟨r₁, h, List.Perm.refl _⟩
  | cons a _ ih =>
    intro r₁ h
    simp only [forEach, Option.bind_eq_some, Option.map_eq_some'] at h
    obtain ⟨a', ha, rest', hrest, rfl⟩ := h
    obtain ⟨r₂, hr₂, hperm⟩ := ih rest' hrest
    exact ⟨a' :: r₂, by simp [forEach, ha, hr₂], List.Perm.cons a' hperm⟩
  | swap a b l =>
    intro r₁ h
    simp only [forEach, Option.bind_eq_some, Option.map_eq_some'] at h
    obtain ⟨b', hb, rest₁, ⟨a', ha, rest', hrest, rfl⟩, rfl⟩ := h
    exact ⟨a' :: b' :: rest', by simp [forEach, ha, hb, hrest], List.Perm.swap a' b' rest'⟩
  | trans _ _ ih₁ ih₂ =>
    intro r₁ h
    obtain ⟨r₂, hr₂, hp₁⟩ := ih₁ r₁ h
    obtain ⟨r₃, hr₃, hp₂⟩ := ih₂ r₂ hr₂
    exact ⟨r₃, hr₃, hp₁.trans hp₂⟩

namespace BaseArrayPair

variable {D : Type}

/-- The virtual call on a pair of the first kind is the call of the method of
`ArrayPair<T>` on that pair. -/
theorem apply_typed (F : DoubleArith D) (T : Type) (A : ElemArith D T) (p : ArrayPair T)
    (op : PairOp D) (outId : Nat) :
    (BaseArrayPair.typed T A p).apply F op outId =
      (ArrayPair.apply F A p op outId).map (.typed T A) := by
  cases op <;> rfl

/-- The virtual call on a pair of the second kind is the call of the method of
`RealArrayPair<TInput, TOutput>` on that pair. -/
theorem apply_real (F : DoubleArith D) (TInput TOutput : Type) (AI : ElemArith D TInput)
    (AO : ElemArith D TOutput) (cast : TInput → TOutput) (p : RealArrayPair TInput TOutput)
    (op : PairOp D) (outId : Nat) :
    (BaseArrayPair.real TInput TOutput AI AO cast p).apply F op outId =
      (RealArrayPair.apply F AI AO cast p op outId).map (.real TInput TOutput AI AO cast) := by
  cases op <;> rfl

/-- The virtual call on an `ArrayPair<T>` of one buffer is the call of the method of
`ArrayPair<T>` on that pair. -/
theorem apply_self (F : DoubleArith D) (T : Type) (A : ElemArith D T) (p : SelfArrayPair T)
    (op : PairOp D) (outId : Nat) :
    (BaseArrayPair.self T A p).apply F op outId =
      (SelfArrayPair.apply F A p op outId).map (.self T A) := by
  cases op <;> rfl

theorem apply_isSome (F : DoubleArith D) (a : BaseArrayPair D) (op : PairOp D) (outId : Nat)
    (h : a.InRange op outId) : (a.apply F op outId).isSome := by
  cases a with
  | typed T A p =>
    rw [apply_typed, ArrayPair.apply_eq F A p op outId h]
    rfl
  | real TInput TOutput AI AO cast p =>
    rw [apply_real, RealArrayPair.real_apply_eq F AI AO cast p op outId h]
    rfl
  | self T A p =>
    rw [apply_self, SelfArrayPair.self_apply_eq F A p op outId h]
    rfl

end BaseArrayPair

namespace ArrayList

variable {D : Type}

/-- Every fan-out method is the loop over the pairs of the virtual call. -/
theorem apply_eq_forEach (F : DoubleArith D) (l : ArrayList D) (op : PairOp D) (outId : Nat) :
    l.apply F op outId = (forEach (fun array => array.apply F op outId) l.Arrays).map
      (fun arrays => { l with Arrays := arrays }) := by
  cases op <;> rfl

theorem apply_eq_some (F : DoubleArith D) (l l' : ArrayList D) (op : PairOp D) (outId : Nat) :
    l.apply F op outId = some l' ↔
      (l'.ExcludedArrays = l.ExcludedArrays ∧
        List.Forall₂ (fun a a' => a.apply F op outId = some a') l.Arrays l'.Arrays) := by
  rw [apply_eq_forEach]
  constructor
  · intro h
    simp only [Option.map_eq_some'] at h
    obtain ⟨arrays, harr, rfl⟩ := h
    exact ⟨rfl, (forEach_eq_some _ _ _).mp harr⟩
  · rintro ⟨he, hf⟩
    rw [(forEach_eq_some _ _ _).mpr hf]
    cases l'
    simp only [Option.map_some', Option.some.injEq, ArrayList.mk.injEq, true_and]
    exact he.symm

end ArrayList

/-- A loop over the components of one record that returns has changed nothing but the
output buffer. -/
theorem forLoop_store_shape {σ T : Type} (out : σ → List T) (upd : σ → List T → σ)
    (hid : ∀ s, upd s (out s) = s)
    (body : Nat → σ → Option σ) (val : Nat → σ → Option T) (base : Nat) (s : σ)
    (hbody : ∀ j l, body j (upd s l) = (val j (upd s l)).bind (fun v =>
      if base + j < l.length then some (upd s (l.set (base + j) v)) else none))
    (n : Nat) : ∀ s', forLoop n body s = some s' → ∃ l, s' = upd s l := by
  induction n with
  | zero =>
    intro s' h
    simp only [forLoop, Option.some.injEq] at h
    exact ⟨out s, by rw [hid]; exact h.symm⟩
  | succ k ih =>
    intro s' h
    simp only [forLoop, Option.bind_eq_some] at h
    obtain ⟨sk, hk, hb⟩ := h
    obtain ⟨l, rfl⟩ := ih sk hk
    rw [hbody, Option.bind_eq_some] at hb
    obtain ⟨v, -, hv⟩ := hb
    split at hv
    · exact ⟨_, (Option.some.inj hv).symm⟩
    · cases hv

namespace ArrayPair

variable {D T : Type}

/-- A processing operation that returns has changed nothing but the content of the
output buffer. -/
theorem apply_shape (F : DoubleArith D) (A : ElemArith D T) (p q : ArrayPair T)
    (op : PairOp D) (outId : Nat) (h : apply F A p op outId = some q) :
    ∃ l, q = p.withOutput l := by
  cases op with
  | Copy inId =>
    exact forLoop_store_shape Output withOutput (fun _ => rfl) _
      (fun j q => opValue F A (.Copy inId) p.NumComp j q) (outId * p.NumComp) p
      (fun j l => rfl) p.NumComp q h
  | Interpolate numWeights ids weights =>
    refine forLoop_store_shape Output withOutput (fun _ => rfl) _
      (fun j q => opValue F A (.Interpolate numWeights ids weights) p.NumComp j q)
      (outId * p.NumComp) p ?_ p.NumComp q h
    intro j l
    simp only [opValue, Option.bind_eq_bind, Option.bind_map]
    rfl
  | InterpolateOutput numWeights ids weights =>
    refine forLoop_store_shape Output withOutput (fun _ => rfl) _
      (fun j q => opValue F A (.InterpolateOutput numWeights ids weights) p.NumComp j q)
      (outId * p.NumComp) p ?_ p.NumComp q h
    intro j l
    simp only [opValue, Option.bind_eq_bind, Option.bind_map]
    rfl
  | Average numPts ids =>
    refine forLoop_store_shape Output withOutput (fun _ => rfl) _
      (fun j q => opValue F A (.Average numPts ids) p.NumComp j q)
      (outId * p.NumComp) p ?_ p.NumComp q h
    intro j l
    simp only [opValue, Option.bind_eq_bind, Option.bind_map]
    rfl
  | WeightedAverage numPts ids weights =>
    refine forLoop_store_shape Output withOutput (fun _ => rfl) _
      (fun j q => opValue F A (.WeightedAverage numPts ids weights) p.NumComp j q)
      (outId * p.NumComp) p ?_ p.NumComp q h
    intro j l
    simp only [opValue, Option.bind_eq_bind, Option.bind_map]
    rfl
  | InterpolateEdge v0 v1 t =>
    refine forLoop_store_shape Output withOutput (fun _ => rfl) _
      (fun j q => opValue F A (.InterpolateEdge v0 v1 t) p.NumComp j q)
      (outId * p.NumComp) p ?_ p.NumComp q h
    intro j l
    simp only [opValue, Option.bind_eq_bind, Option.pure_def, Option.bind_assoc,
      Option.some_bind]
    rfl
  | AssignNullValue =>
    exact forLoop_store_shape Output withOutput (fun _ => rfl) _
      (fun j q => opValue F A .AssignNullValue p.NumComp j q) (outId * p.NumComp) p
      (fun j l => rfl) p.NumComp q h

end ArrayPair

namespace RealArrayPair

variable {D TInput TOutput : Type}

/-- A processing operation that returns has changed nothing but the content of the
output buffer. -/
theorem real_apply_shape (F : DoubleArith D) (AI : ElemArith D TInput)
    (AO : ElemArith D TOutput) (cast : TInput → TOutput) (p q : RealArrayPair TInput TOutput)
    (op : PairOp D) (outId : Nat) (h : apply F AI AO cast p op outId = some q) :
    ∃ l, q = p.withOutput l := by
  cases op with
  | Copy inId =>
    refine forLoop_store_shape Output withOutput (fun _ => rfl) _
      (fun j q => opValue F AI AO cast (.Copy inId) p.NumComp j q) (outId * p.NumComp) p
      ?_ p.NumComp q h
    intro j l
    simp only [opValue, Option.bind_eq_bind, Option.bind_map]
    rfl
  | Interpolate numWeights ids weights =>
    refine forLoop_store_shape Output withOutput (fun _ => rfl) _
      (fun j q => opValue F AI AO cast (.Interpolate numWeights ids weights) p.NumComp j q)
      (outId * p.NumComp) p ?_ p.NumComp q h
    intro j l
    simp only [opValue, Option.bind_eq_bind, Option.bind_map]
    rfl
  | InterpolateOutput numWeights ids weights =>
    refine forLoop_store_shape Output withOutput (fun _ => rfl) _
      (fun j q => opValue F AI AO cast (.InterpolateOutput numWeights ids weights) p.NumComp j q)
      (outId * p.NumComp) p ?_ p.NumComp q h
    intro j l
    simp only [opValue, Option.bind_eq_bind, Option.bind_map]
    rfl
  | Average numPts ids =>
    refine forLoop_store_shape Output withOutput (fun _ => rfl) _
      (fun j q => opValue F AI AO cast (.Average numPts ids) p.NumComp j q)
      (outId * p.NumComp) p ?_ p.NumComp q h
    intro j l
    simp only [opValue, Option.bind_eq_bind, Option.bind_map]
    rfl
  | WeightedAverage numPts ids weights =>
    refine forLoop_store_shape Output withOutput (fun _ => rfl) _
      (fun j q => opValue F AI AO cast (.WeightedAverage numPts ids weights) p.NumComp j q)
      (outId * p.NumComp) p ?_ p.NumComp q h
    intro j l
    simp only [opValue, Option.bind_eq_bind, Option.bind_map]
    rfl
  | InterpolateEdge v0 v1 t =>
    refine forLoop_store_shape Output withOutput (fun _ => rfl) _
      (fun j q => opValue F AI AO cast (.InterpolateEdge v0 v1 t) p.NumComp j q)
      (outId * p.NumComp) p ?_ p.NumComp q h
    intro j l
    simp only [opValue, Option.bind_eq_bind, Option.pure_def, Option.bind_assoc,
      Option.some_bind]
    rfl
  | AssignNullValue =>
    exact forLoop_store_shape Output withOutput (fun _ => rfl) _
      (fun j q => opValue F AI AO cast .AssignNullValue p.NumComp j q) (outId * p.NumComp) p
      (fun j l => rfl) p.NumComp q h

end RealArrayPair

namespace SelfArrayPair

variable {D T : Type}

/-- A processing operation that returns has changed nothing but the content of the
one buffer. -/
theorem self_apply_shape (F : DoubleArith D) (A : ElemArith D T) (p q : SelfArrayPair T)
    (op : PairOp D) (outId : Nat) (h : apply F A p op outId = some q) :
    ∃ l, q = p.withOutput l := by
  cases op with
  | Copy inId =>
    exact forLoop_store_shape Output withOutput (fun _ => rfl) _
      (fun j q => ArrayPair.opValue F A (.Copy inId) p.NumComp j q.snapshot) (outId * p.NumComp) p
      (fun j l => rfl) p.NumComp q h
  | Interpolate numWeights ids weights =>
    refine forLoop_store_shape Output withOutput (fun _ => rfl) _
      (fun j q => ArrayPair.opValue F A (.Interpolate numWeights ids weights) p.NumComp j q.snapshot)
      (outId * p.NumComp) p ?_ p.NumComp q h
    intro j l
    simp only [ArrayPair.opValue, Option.bind_eq_bind, Option.bind_map]
    rfl
  | InterpolateOutput numWeights ids weights =>
    refine forLoop_store_shape Output withOutput (fun _ => rfl) _
      (fun j q => ArrayPair.opValue F A (.InterpolateOutput numWeights ids weights) p.NumComp j q.snapshot)
      (outId * p.NumComp) p ?_ p.NumComp q h
    intro j l
    simp only [ArrayPair.opValue, Option.bind_eq_bind, Option.bind_map]
    rfl
  | Average numPts ids =>
    refine forLoop_store_shape Output withOutput (fun _ => rfl) _
      (fun j q => ArrayPair.opValue F A (.Average numPts ids) p.NumComp j q.snapshot)
      (outId * p.NumComp) p ?_ p.NumComp q h
    intro j l
    simp only [ArrayPair.opValue, Option.bind_eq_bind, Option.bind_map]
    rfl
  | WeightedAverage numPts ids weights =>
    refine forLoop_store_shape Output withOutput (fun _ => rfl) _
      (fun j q => ArrayPair.opValue F A (.WeightedAverage numPts ids weights) p.NumComp j q.snapshot)
      (outId * p.NumComp) p ?_ p.NumComp q h
    intro j l
    simp only [ArrayPair.opValue, Option.bind_eq_bind, Option.bind_map]
    rfl
  | InterpolateEdge v0 v1 t =>
    refine forLoop_store_shape Output withOutput (fun _ => rfl) _
      (fun j q => ArrayPair.opValue F A (.InterpolateEdge v0 v1 t) p.NumComp j q.snapshot)
      (outId * p.NumComp) p ?_ p.NumComp q h
    intro j l
    simp only [ArrayPair.opValue, Option.bind_eq_bind, Option.pure_def, Option.bind_assoc,
      Option.some_bind]
    rfl
  | AssignNullValue =>
    exact forLoop_store_shape Output withOutput (fun _ => rfl) _
      (fun j q => ArrayPair.opValue F A .AssignNullValue p.NumComp j q.snapshot) (outId * p.NumComp) p
      (fun j l => rfl) p.NumComp q h

end SelfArrayPair

namespace BaseArrayPair

variable {D : Type}

/-- A virtual call that returns has changed nothing of the pair but its output array. -/
theorem apply_sameBinding (F : DoubleArith D) (a a' : BaseArrayPair D) (op : PairOp D)
    (outId : Nat) (h : a.apply F op outId = some a') : SameBinding a a' := by
  cases a with
  | typed T A p =>
    rw [apply_typed, Option.map_eq_some'] at h
    obtain ⟨q, hq, rfl⟩ := h
    obtain ⟨l, rfl⟩ := ArrayPair.apply_shape F A p q op outId hq
    exact SameBinding.typed T A p _
  | real TInput TOutput AI AO cast p =>
    rw [apply_real, Option.map_eq_some'] at h
    obtain ⟨q, hq, rfl⟩ := h
    obtain ⟨l, rfl⟩ := RealArrayPair.real_apply_shape F AI AO cast p q op outId hq
    exact SameBinding.real TInput TOutput AI AO cast p _
  | self T A p =>
    rw [apply_self, Option.map_eq_some'] at h
    obtain ⟨q, hq, rfl⟩ := h
    obtain ⟨l, rfl⟩ := SelfArrayPair.self_apply_shape F A p q op outId hq
    exact SameBinding.self T A p _

theorem Realloc_sameBinding (a : BaseArrayPair D) (fresh : Nat → a.outType) (sze : Nat)
    (hsep : a.Separate) : SameBinding a (a.Realloc fresh sze) := by
  cases a with
  | typed T A p => exact SameBinding.typed T A p _
  | real TInput TOutput AI AO cast p => exact SameBinding.real TInput TOutput AI AO cast p _
  | self T A p => exact hsep.elim

theorem Realloc_numComp (a : BaseArrayPair D) (fresh : Nat → a.outType) (sze : Nat) :
    (a.Realloc fresh sze).NumComp = a.NumComp := by
  cases a <;> rfl

theorem SameBinding.numComp_eq {a a' : BaseArrayPair D} (h : SameBinding a a') :
    a'.NumComp = a.NumComp := by
  cases h <;> rfl

end BaseArrayPair

/-- C11: in every state of the list in which the array `b` is excluded, which is so right
after `ExcludeArray(b)` and stays so through every later `ExcludeArray` and
`AddArrayPair`, the call `AddArrayPair(.., b, ..)` returns no output array, leaves `b`
excluded, and leaves the list of pairs and `GetNumberOfArrays` as they were; hence every
later fan-out operation and `Realloc` does what it would have done without the call. -/
theorem C11_excluded_AddArrayPair {D : Type} (F : DoubleArith D) (l : ArrayList D)
    (b : Nat) (pair : BaseArrayPair D) (outArray : Nat) (h : l.IsExcluded b = true) :
    (l.AddArrayPair b pair outArray).2 = none ∧
    (l.AddArrayPair b pair outArray).1.IsExcluded b = true ∧
    (l.AddArrayPair b pair outArray).1.Arrays = l.Arrays ∧
    (l.AddArrayPair b pair outArray).1.GetNumberOfArrays = l.GetNumberOfArrays ∧
    (∀ (op : PairOp D) (outId : Nat),
      (l.AddArrayPair b pair outArray).1.apply F op outId = l.apply F op outId) ∧
    (∀ (fresh : (array : BaseArrayPair D) → Nat → array.outType) (sze : Nat),
      ((l.AddArrayPair b pair outArray).1.Realloc fresh sze).Arrays =
        (l.Realloc fresh sze).Arrays) ∧
    (∀ l₀ : ArrayList D, (l₀.ExcludeArray b).IsExcluded b = true) ∧
    (∀ c : Nat, (l.ExcludeArray c).IsExcluded b = true) ∧
    (∀ (c : Nat) (pair' : BaseArrayPair D) (outArray' : Nat),
      (l.AddArrayPair c pair' outArray').1.IsExcluded b = true) := by
  have e : l.AddArrayPair b pair outArray = (l, none) := by
    unfold ArrayList.AddArrayPair
    rw [h]
    rfl
  rw [e]
  refine ⟨rfl, h, rfl, rfl, fun _ _ => rfl, fun _ _ => rfl, ?_, ?_, ?_⟩
  · intro l₀
    simp [ArrayList.ExcludeArray, ArrayList.IsExcluded]
  · intro c
    simp only [ArrayList.IsExcluded, decide_eq_true_eq] at h
    simp [ArrayList.ExcludeArray, ArrayList.IsExcluded, h]
  · intro c pair' outArray'
    unfold ArrayList.AddArrayPair
    split
    · exact h
    · exact h

/-- C11, at a concrete input: the array 7 is excluded in a list of two pairs, then a
pair is offered for it. -/
theorem C11_excluded_AddArrayPair_witness :
    ((exampleList.ExcludeArray 7).AddArrayPair 7
        (.typed Int (intElem 32 true) examplePair) 8).2 = none ∧
    ((exampleList.ExcludeArray 7).AddArrayPair 7
        (.typed Int (intElem 32 true) examplePair) 8).1.GetNumberOfArrays = 2 ∧
    (exampleList.AddArrayPair 7 (.typed Int (intElem 32 true) examplePair) 8).2 = some 8 ∧
    (exampleList.AddArrayPair 7
        (.typed Int (intElem 32 true) examplePair) 8).1.GetNumberOfArrays = 3 :=
  have h := C11_excluded_AddArrayPair ieeeDouble (exampleList.ExcludeArray 7) 7
    (.typed Int (intElem 32 true) examplePair) 8 (by decide)
  ⟨h.1, h.2.2.2.1, by decide, by decide⟩

/-- C12: for every list of pairs (each pair of the model has its own buffers, two or
one) and every fan-out operation of `ArrayList` with given arguments, the operation
returns a list
exactly when each pair's own operation with the same arguments returns, the pair at each
position of the result being what that pair's own operation, applied once to that pair
alone, returns; it returns when the arguments are in range for every pair; and on a list
holding the same pairs in another order it returns the same resulting pairs in that other
order. `Realloc` likewise replaces every pair by what its own `Realloc` makes of it. -/
theorem C12_fanout_pairwise {D : Type} (F : DoubleArith D) (l : ArrayList D)
    (op : PairOp D) (outId : Nat)
    (fresh : (array : BaseArrayPair D) → Nat → array.outType) (sze : Nat) :
    (∀ l', l.apply F op outId = some l' ↔
      (l'.ExcludedArrays = l.ExcludedArrays ∧
        List.Forall₂ (fun a a' => a.apply F op outId = some a') l.Arrays l'.Arrays)) ∧
    ((∀ a, a ∈ l.Arrays → a.InRange op outId) → ∃ l', l.apply F op outId = some l') ∧
    (∀ (T : Type) (A : ElemArith D T) (p : ArrayPair T),
      (BaseArrayPair.typed T A p).apply F op outId =
        (ArrayPair.apply F A p op outId).map (.typed T A)) ∧
    (∀ (TInput TOutput : Type) (AI : ElemArith D TInput) (AO : ElemArith D TOutput)
      (cast : TInput → TOutput) (p : RealArrayPair TInput TOutput),
      (BaseArrayPair.real TInput TOutput AI AO cast p).apply F op outId =
        (RealArrayPair.apply F AI AO cast p op outId).map
          (.real TInput TOutput AI AO cast)) ∧
    (∀ m : ArrayList D, l.Arrays.Perm m.Arrays → ∀ l', l.apply F op outId = some l' →
      ∃ m', m.apply F op outId = some m' ∧ l'.Arrays.Perm m'.Arrays) ∧
    List.Forall₂ (fun a a' => a' = a.Realloc (fresh a) sze) l.Arrays
      (l.Realloc fresh sze).Arrays ∧
    (∀ m : ArrayList D, l.Arrays.Perm m.Arrays →
      (l.Realloc fresh sze).Arrays.Perm (m.Realloc fresh sze).Arrays) ∧
    (∀ (T : Type) (A : ElemArith D T) (p : SelfArrayPair T),
      (BaseArrayPair.self T A p).apply F op outId =
        (SelfArrayPair.apply F A p op outId).map (.self T A)) := by
  refine ⟨fun l' => ArrayList.apply_eq_some F l l' op outId, ?_,
    fun T A p => BaseArrayPair.apply_typed F T A p op outId,
    fun TInput TOutput AI AO cast p => BaseArrayPair.apply_real F TInput TOutput AI AO cast p
      op outId, ?_, ?_, ?_, fun T A p => BaseArrayPair.apply_self F T A p op outId⟩
  · intro h
    have hs := forEach_isSome (fun array => array.apply F op outId) l.Arrays
      (fun a ha => BaseArrayPair.apply_isSome F a op outId (h a ha))
    obtain ⟨arrays, harr⟩ := Option.isSome_iff_exists.mp hs
    exact ⟨_, by rw [ArrayList.apply_eq_forEach, harr]; rfl⟩
  · intro m hperm l' hl'
    rw [ArrayList.apply_eq_forEach, Option.map_eq_some'] at hl'
    obtain ⟨arrays, harr, rfl⟩ := hl'
    obtain ⟨r₂, hr₂, hp⟩ := forEach_perm _ _ _ hperm arrays harr
    exact ⟨_, by rw [ArrayList.apply_eq_forEach, hr₂]; rfl, hp⟩
  · show List.Forall₂ _ l.Arrays (l.Arrays.map _)
    rw [List.forall₂_map_right_iff, List.forall₂_same]
    intro a _
    rfl
  · intro m hperm
    exact hperm.map _

/-- C12, at a concrete input: `Copy(2, 0)` on a list of an `int32` pair and a pair from
`int32` to `double`. -/
theorem C12_fanout_pairwise_witness :
    ∃ l', exampleList.Copy 2 0 = some l' ∧
      List.Forall₂ (fun a a' => a.Copy 2 0 = some a') exampleList.Arrays l'.Arrays := by
  have h := C12_fanout_pairwise ieeeDouble exampleList (.Copy 2) 0
    (fun a _ => a.NullValue) 0
  obtain ⟨l', hl'⟩ := h.2.1 (by
    intro a ha
    simp only [exampleList, List.mem_cons, List.mem_singleton, List.not_mem_nil,
      or_false] at ha
    rcases ha with rfl | rfl
    · unfold BaseArrayPair.InRange ArrayPair.InRange recordInside
      decide
    · unfold BaseArrayPair.InRange RealArrayPair.InRange recordInside
      decide)
  exact ⟨l', hl', ((h.1 l').mp hl').2⟩

/-- C16 as stated fails: in a list whose one pair reads and writes one buffer, which
holds `[1, 2, 3]`, the fan-out `Copy(0, 1)`, whose arguments are in range for the pair,
returns a list whose pair has `[1, 1, 3]` as the content of its input buffer. -/
theorem C16_shared_buffer_counterexample :
    ∃ q, ArrayList.Copy selfList 0 1 =
        some { Arrays := [.self Int (intElem 32 true) q], ExcludedArrays := [] } ∧
      selfPair.Input = [1, 2, 3] ∧ q.Input = [1, 1, 3] ∧
      ∀ a, a ∈ selfList.Arrays → a.InRange (.Copy 0) 1 := by
  refine ⟨selfPair.withOutput [1, 1, 3], rfl, rfl, rfl, ?_⟩
  intro a ha
  simp only [selfList, List.mem_singleton] at ha
  subst ha
  unfold BaseArrayPair.InRange SelfArrayPair.InRange ArrayPair.InRange recordInside
  decide

/-- C16 (amended): every processing-phase fan-out operation of `ArrayList` that returns,
and it returns when the arguments are in range for every pair, and `ArrayList::Realloc`
leave the number of pairs (`GetNumberOfArrays`, the length of `Arrays`) and the `NumComp`
of every pair as they were. A fan-out operation leaves each pair what it was but for its
output array (`SameBinding`), and so does `Realloc` with each pair whose input and output
are two buffers. Pair by pair: a pair of either kind whose input and output are two
buffers comes out of the operation, and of `Realloc`, as a pair of the same kind with the
same input buffer, null value and `NumComp`; a pair whose `Input` and `Output` address
one buffer comes out of the operation with the same null value and `NumComp` and with the
one buffer, its input, rewritten in record `outId` when the arguments are in range, and
out of `Realloc` with the same null value and `NumComp`. -/
theorem C16_fanout_preserves_bindings {D : Type} (F : DoubleArith D) (l : ArrayList D)
    (op : PairOp D) (outId : Nat)
    (fresh : (array : BaseArrayPair D) → Nat → array.outType) (sze : Nat) :
    (∀ l', l.apply F op outId = some l' →
      l'.GetNumberOfArrays = l.GetNumberOfArrays ∧ l'.Arrays.length = l.Arrays.length ∧
      List.Forall₂ BaseArrayPair.SameBinding l.Arrays l'.Arrays ∧
      List.Forall₂ (fun a a' => a'.NumComp = a.NumComp) l.Arrays l'.Arrays) ∧
    ((∀ a, a ∈ l.Arrays → a.InRange op outId) → ∃ l', l.apply F op outId = some l') ∧
    ((l.Realloc fresh sze).GetNumberOfArrays = l.GetNumberOfArrays ∧
      (l.Realloc fresh sze).Arrays.length = l.Arrays.length ∧
      List.Forall₂ (fun a a' => a.Separate → BaseArrayPair.SameBinding a a') l.Arrays
        (l.Realloc fresh sze).Arrays ∧
      List.Forall₂ (fun a a' => a'.NumComp = a.NumComp) l.Arrays
        (l.Realloc fresh sze).Arrays) ∧
    (∀ (T : Type) (A : ElemArith D T) (p : ArrayPair T) (a' : BaseArrayPair D),
      (BaseArrayPair.typed T A p).apply F op outId = some a' →
        ∃ q, a' = .typed T A q ∧ q.Input = p.Input ∧ q.NullValue = p.NullValue ∧
          q.NumComp = p.NumComp) ∧
    (∀ (TInput TOutput : Type) (AI : ElemArith D TInput) (AO : ElemArith D TOutput)
      (cast : TInput → TOutput) (p : RealArrayPair TInput TOutput) (a' : BaseArrayPair D),
      (BaseArrayPair.real TInput TOutput AI AO cast p).apply F op outId = some a' →
        ∃ q, a' = .real TInput TOutput AI AO cast q ∧ q.Input = p.Input ∧
          q.NullValue = p.NullValue ∧ q.NumComp = p.NumComp) ∧
    (∀ (T : Type) (A : ElemArith D T) (s : SelfArrayPair T) (a' : BaseArrayPair D),
      (BaseArrayPair.self T A s).apply F op outId = some a' →
        ∃ q, a' = .self T A q ∧ q.NullValue = s.NullValue ∧ q.NumComp = s.NumComp ∧
          (s.InRange op outId → q.Input = writeRec s.Input (outId * s.NumComp)
            (ArrayPair.opValues F A s.snapshot op) s.NumComp)) ∧
    (∀ (T : Type) (A : ElemArith D T) (p : ArrayPair T) (f : Nat → T),
      ∃ q, (BaseArrayPair.typed T A p).Realloc f sze = .typed T A q ∧ q.Input = p.Input ∧
        q.NullValue = p.NullValue ∧ q.NumComp = p.NumComp) ∧
    (∀ (TInput TOutput : Type) (AI : ElemArith D TInput) (AO : ElemArith D TOutput)
      (cast : TInput → TOutput) (p : RealArrayPair TInput TOutput) (f : Nat → TOutput),
      ∃ q, (BaseArrayPair.real TInput TOutput AI AO cast p).Realloc f sze =
          .real TInput TOutput AI AO cast q ∧ q.Input = p.Input ∧
        q.NullValue = p.NullValue ∧ q.NumComp = p.NumComp) ∧
    (∀ (T : Type) (A : ElemArith D T) (s : SelfArrayPair T) (f : Nat → T),
      ∃ q, (BaseArrayPair.self T A s).Realloc f sze = .typed T A q ∧
        q.NullValue = s.NullValue ∧ q.NumComp = s.NumComp) := by
  refine ⟨?_, ?_, ?_, ?_, ?_, ?_, fun T A p f => ⟨_, rfl, rfl, rfl, rfl⟩,
    fun TInput TOutput AI AO cast p f => ⟨_, rfl, rfl, rfl, rfl⟩,
    fun T A s f => ⟨_, rfl, rfl, rfl⟩⟩
  · intro l' hl'
    have hf := ((ArrayList.apply_eq_some F l l' op outId).mp hl').2
    have hs : List.Forall₂ BaseArrayPair.SameBinding l.Arrays l'.Arrays :=
      hf.imp (fun a a' h => BaseArrayPair.apply_sameBinding F a a' op outId h)
    exact ⟨hf.length_eq.symm, hf.length_eq.symm, hs, hs.imp (fun _ _ h => h.numComp_eq)⟩
  · intro h
    have hs := forEach_isSome (fun array => array.apply F op outId) l.Arrays
      (fun a ha => BaseArrayPair.apply_isSome F a op outId (h a ha))
    obtain ⟨arrays, harr⟩ := Option.isSome_iff_exists.mp hs
    exact ⟨_, by rw [ArrayList.apply_eq_forEach, harr]; rfl⟩
  · have hs : List.Forall₂ (fun a a' => a.Separate → BaseArrayPair.SameBinding a a')
        l.Arrays (l.Realloc fresh sze).Arrays := by
      show List.Forall₂ _ l.Arrays (l.Arrays.map _)
      rw [List.forall₂_map_right_iff, List.forall₂_same]
      intro a _ hsep
      exact BaseArrayPair.Realloc_sameBinding a _ sze hsep
    have hn : List.Forall₂ (fun a a' => a'.NumComp = a.NumComp) l.Arrays
        (l.Realloc fresh sze).Arrays := by
      show List.Forall₂ _ l.Arrays (l.Arrays.map _)
      rw [List.forall₂_map_right_iff, List.forall₂_same]
      intro a _
      exact BaseArrayPair.Realloc_numComp a _ sze
    exact ⟨hs.length_eq.symm, hs.length_eq.symm, hs, hn⟩
  · intro T A p a' h
    rw [BaseArrayPair.apply_typed, Option.map_eq_some'] at h
    obtain ⟨q, hq, rfl⟩ := h
    obtain ⟨l, rfl⟩ := ArrayPair.apply_shape F A p q op outId hq
    exact ⟨_, rfl, rfl, rfl, rfl⟩
  · intro TInput TOutput AI AO cast p a' h
    rw [BaseArrayPair.apply_real, Option.map_eq_some'] at h
    obtain ⟨q, hq, rfl⟩ := h
    obtain ⟨l, rfl⟩ := RealArrayPair.real_apply_shape F AI AO cast p q op outId hq
    exact ⟨_, rfl, rfl, rfl, rfl⟩
  · intro T A s a' h
    rw [BaseArrayPair.apply_self, Option.map_eq_some'] at h
    obtain ⟨q, hq, rfl⟩ := h
    refine ⟨q, rfl, ?_, ?_, ?_⟩
    · obtain ⟨l, rfl⟩ := SelfArrayPair.self_apply_shape F A s q op outId hq
      rfl
    · obtain ⟨l, rfl⟩ := SelfArrayPair.self_apply_shape F A s q op outId hq
      rfl
    · intro hin
      rw [SelfArrayPair.self_apply_eq F A s op outId hin] at hq
      cases hq
      rfl

/-- C16 (amended), at a concrete input: `InterpolateEdge(0, 2, 0.5, 1)` on a list of
three pairs, one of each form. -/
theorem C16_fanout_preserves_bindings_witness :
    ∃ l', mixedList.InterpolateEdge ieeeDouble 0 2 half 1 = some l' ∧
      l'.GetNumberOfArrays = 3 ∧
      List.Forall₂ (fun a a' => a'.NumComp = a.NumComp) mixedList.Arrays l'.Arrays := by
  have h := C16_fanout_preserves_bindings ieeeDouble mixedList (.InterpolateEdge 0 2 half) 1
    (fun a _ => a.NullValue) 0
  obtain ⟨l', hl'⟩ := h.2.1 (by
    intro a ha
    simp only [mixedList, List.mem_cons, List.mem_singleton, List.not_mem_nil,
      or_false] at ha
    rcases ha with rfl | rfl | rfl
    · unfold BaseArrayPair.InRange ArrayPair.InRange recordInside
      decide
    · unfold BaseArrayPair.InRange RealArrayPair.InRange recordInside
      decide
    · unfold BaseArrayPair.InRange SelfArrayPair.InRange ArrayPair.InRange recordInside
      decide)
  exact ⟨l', hl', (h.1 l' hl').1, (h.1 l' hl').2.2.2⟩

/-- C15 does not hold of the code: `InterpolateEdge` forms the difference
`Input[v1] - Input[v0]` in the storage type before anything is converted to `double`.
With the `unsigned int` inputs `10` and `4` and `t = 0.5` the difference wraps to
`4294967290`, and `2147483655` is stored (`2147483655.0` when the output is `double`),
where the computation entirely in `double`, `10.0 + 0.5 * (4.0 - 10.0)`, gives `7`. -/
theorem C15_InterpolateEdge_difference_in_storage_type :
    promotedDiff 32 false 4 10 = 4294967290 ∧
    (ArrayPair.InterpolateEdge ieeeDouble (intElem 32 false) unsignedPair 0 1 half 0).map
      ArrayPair.Output = some [2147483655, 0] ∧
    (RealArrayPair.InterpolateEdge ieeeDouble (intElem 32 false) doubleElem unsignedRealPair
      0 1 half 0).map RealArrayPair.Output = some [Dbl.ofInt 2147483655, Dbl.ofInt 0] ∧
    (intElem 32 false).ofDouble
      (Dbl.add (Dbl.ofInt 10) (Dbl.mul half (Dbl.sub (Dbl.ofInt 4) (Dbl.ofInt 10)))) = 7 ∧
    Dbl.add (Dbl.ofInt 10) (Dbl.mul half (Dbl.sub (Dbl.ofInt 4) (Dbl.ofInt 10))) =
      Dbl.ofInt 7 := by
  refine ⟨by decide, by decide!, by decide!, by decide!, by decide!⟩

/-! ## The pick computations of the slider -/

theorem wrapInt_32_bounds (z : Int) :
    -2147483648 ≤ wrapInt 32 true z ∧ wrapInt 32 true z < 2147483648 := by
  unfold wrapInt
  have h1 : ((2 : Int) ^ 32) = 4294967296 := by norm_num
  have h2 : ((2 : Int) ^ (32 - 1)) = 2147483648 := by norm_num
  simp only [h1, h2, Bool.true_and, decide_eq_true_eq]
  split <;> omega

theorem wrapInt_32_zero : wrapInt 32 true 0 = 0 := by decide

theorem wrapInt_32_sub_ne_zero (a b : Int) (ha : -2147483648 ≤ a ∧ a ≤ 2147483647)
    (hb : -2147483648 ≤ b ∧ b ≤ 2147483647) (hne : b ≠ a) : wrapInt 32 true (b - a) ≠ 0 := by
  unfold wrapInt
  have h1 : ((2 : Int) ^ 32) = 4294967296 := by norm_num
  have h2 : ((2 : Int) ^ (32 - 1)) = 2147483648 := by norm_num
  simp only [h1, h2, Bool.true_and, decide_eq_true_eq]
  split <;> omega

theorem bitLengthAux_zero (fuel : Nat) : bitLengthAux fuel 0 = 0 := by
  cases fuel <;> simp [bitLengthAux]

theorem two_pow_bitLengthAux_le (fuel : Nat) : ∀ n : Nat, n ≠ 0 → n ≤ fuel →
    2 ^ bitLengthAux fuel n ≤ 2 * n := by
  induction fuel with
  | zero => intro n h0 hn; omega
  | succ f ih =>
    intro n h0 hn
    unfold bitLengthAux
    rw [if_neg h0, pow_succ]
    by_cases h2 : n / 2 = 0
    · rw [h2, bitLengthAux_zero]
      omega
    · have := ih (n / 2) h2 (by omega)
      omega

theorem roundHalfEven_ge (a d : Nat) : a / d ≤ roundHalfEven a d := by
  unfold roundHalfEven
  simp only []
  split_ifs <;> omega

/-- Rounding a positive number of units gives a positive number. -/
theorem Dbl.roundNat_pos (a : Nat) (ha : 0 < a) : 0 < Dbl.roundNat a 1 := by
  unfold Dbl.roundNat
  simp only [Nat.div_one, one_mul]
  have hb := two_pow_bitLengthAux_le a a (by omega) (le_refl a)
  have hb' : 2 ^ bitLength a ≤ 2 * a := hb
  have he : 2 ^ (bitLength a - 53) ≤ a := by
    by_cases h53 : bitLength a ≤ 53
    · have : bitLength a - 53 = 0 := by omega
      rw [this]
      simpa using ha
    · have hsplit : bitLength a = (bitLength a - 53) + 53 := by omega
      rw [hsplit, pow_add] at hb'
      have h253 : (2 : Nat) ^ 53 = 9007199254740992 := by norm_num
      rw [h253] at hb'
      have hpos : 0 < 2 ^ (bitLength a - 53) := by positivity
      omega
  have hq : 1 ≤ a / 2 ^ (bitLength a - 53) :=
    (Nat.one_le_div_iff (by positivity)).mpr he
  have hr := roundHalfEven_ge a (2 ^ (bitLength a - 53))
  have hpos : 0 < 2 ^ (bitLength a - 53) := by positivity
  exact Nat.mul_pos (by omega) hpos

namespace Double

theorem ofInt_zero : ofInt 0 = zero := by decide!

theorem roundNat_zero : Dbl.roundNat 0 1 = 0 := by decide

theorem zero_le_maxUnits : ¬ (maxUnits < 0) := Nat.not_lt_zero _

/-- A rounded number is zero only when the number rounded is. -/
theorem round_isZero (s : Bool) (a : Nat) : (round s a 1).isZero = decide (a = 0) := by
  unfold round
  simp only []
  by_cases ha : a = 0
  · subst ha
    rw [roundNat_zero, if_neg zero_le_maxUnits]
    rfl
  · have hpos := Dbl.roundNat_pos a (Nat.pos_of_ne_zero ha)
    split
    · simp [isZero, ha]
    · simp only [isZero, ha, decide_False, decide_eq_false_iff_not]
      omega

theorem round_isNaN (s : Bool) (a d : Nat) : (round s a d).isNaN = false := by
  unfold round
  simp only []
  split <;> rfl

/-- The conversion of a non-zero integer is neither a zero nor a NaN. -/
theorem ofInt_isZero (z : Int) (hz : z ≠ 0) : (ofInt z).isZero = false := by
  unfold ofInt
  rw [round_isZero]
  have h1 : 0 < z.natAbs := Int.natAbs_pos.mpr hz
  have h2 := Dbl.one_units_pos
  have h3 : 0 < z.natAbs * Dbl.one_units := Nat.mul_pos h1 h2
  simp only [decide_eq_false_iff_not]
  omega

theorem ofInt_isNaN (z : Int) : (ofInt z).isNaN = false := round_isNaN _ _ _

/-- The difference `x - y` is a zero exactly when `x` and `y` are finite and equal. -/
theorem sub_isZero (x y : Double) :
    (sub x y).isZero = (x.isFinite && y.isFinite && eq x y) := by
  cases x with
  | nan => cases y <;> rfl
  | infinite s =>
    cases y with
    | nan => rfl
    | finite s' b => rfl
    | infinite s' =>
      simp only [sub, neg, add, isFinite, Bool.false_and]
      split <;> rfl
  | finite s a =>
    cases y with
    | nan => rfl
    | infinite s' => rfl
    | finite s' b =>
      simp only [sub, neg, add, isFinite, eq, toInt, Bool.true_and, Bool.and_self]
      by_cases hs : s = !s'
      · rw [if_pos hs, round_isZero, Bool.eq_iff_iff]
        simp only [decide_eq_true_eq, Bool.and_eq_true]
        cases s <;> cases s' <;> simp at hs ⊢ <;> omega
      · rw [if_neg hs]
        have hs' : s = s' := by cases s <;> cases s' <;> simp at hs ⊢
        subst hs'
        by_cases hab : a = b
        · subst hab
          rw [if_pos rfl]
          simp [isZero]
        · rw [if_neg hab]
          split
          · rw [round_isZero]
            cases s <;> simp <;> omega
          · rw [round_isZero]
            cases s <;> simp <;> omega

theorem lt_one_not_lt_zero (t : Double) (h : lt one t = true) : lt t zero = false := by
  have hU := Dbl.one_units_pos
  cases t with
  | nan => rfl
  | infinite s =>
    cases s
    · rfl
    · simp [lt, one] at h
  | finite s a =>
    simp only [lt, one, zero, toInt, decide_eq_true_eq, decide_eq_false_iff_not] at h ⊢
    cases s
    · simp
    · simp at h
      omega

/-- The conditional expression of `ComputePickPosition` is the limit of its operand to
the interval from `0.0` to `1.0`. -/
theorem limit_eq_clamp (t : Double) :
    (if lt t (ofInt 0) then zero else if lt one t then one else t) = clamp t zero one := by
  rw [ofInt_zero]
  unfold clamp max min
  by_cases h1 : lt one t = true
  · have h0 := lt_one_not_lt_zero t h1
    have h10 : lt one zero = false := by
      have hU := Dbl.one_units_pos
      simp only [lt, one, zero, toInt, decide_eq_false_iff_not]
      simp
    simp [h1, h0, h10]
  · simp [h1]

/-- A limited value that is not a NaN lies between `0.0` and `1.0`. -/
theorem clamp_bounds (t : Double) (ht : t.isNaN = false) :
    le zero (clamp t zero one) = true ∧ le (clamp t zero one) one = true := by
  have hU := Dbl.one_units_pos
  have h00 : le zero zero = true := by simp [le, zero, toInt]
  have h01 : le zero one = true := by simp [le, zero, one, toInt]
  have h11 : le one one = true := by simp [le, one, toInt]
  rw [← limit_eq_clamp, ofInt_zero]
  by_cases h0 : lt t zero = true
  · rw [if_pos h0]
    exact ⟨h00, h01⟩
  · rw [if_neg h0]
    by_cases h1 : lt one t = true
    · rw [if_pos h1]
      exact ⟨h01, h11⟩
    · rw [if_neg h1]
      cases t with
      | nan => cases ht
      | infinite s =>
        cases s
        · simp [lt, one] at h1
        · simp [lt, zero] at h0
      | finite s a =>
        simp only [lt, le, one, zero, toInt, decide_eq_true_eq] at h0 h1 ⊢
        cases s <;> simp at h0 h1 ⊢ <;> omega

/-- The limit of a NaN is a NaN. -/
theorem clamp_nan : clamp nan zero one = nan := rfl

end Double

namespace vtkCenteredSliderRepresentation

/-- What `ComputePickPosition` does: it assigns `PickedT` and nothing else, returns the
value assigned, and executes a division by the height and one by the extent of the arc. -/
theorem ComputePickPosition_eq (s : vtkCenteredSliderRepresentation) (x y : Double)
    (log : List Division) :
    s.ComputePickPosition x y log =
      ({ s with PickedT := Double.clamp (s.arcParameter y) Double.zero Double.one },
        Double.clamp (s.arcParameter y) Double.zero Double.one,
        (log ++ [⟨.height, Double.ofInt (wrapInt 32 true (s.point2.2 - s.point1.2))⟩]) ++
          [⟨.arc, Double.sub s.ArcEnd s.ArcStart⟩]) := by
  rw [← Double.limit_eq_clamp]
  rfl

theorem ComputeInteractionState_degenerate (s : vtkCenteredSliderRepresentation) (x y : Int)
    (h : wrapInt 32 true (s.point2.1 - s.point1.1) = 0 ∨
      wrapInt 32 true (s.point2.2 - s.point1.2) = 0) :
    s.ComputeInteractionState x y = ({ s with InteractionState := .Outside }, .Outside, []) := by
  unfold ComputeInteractionState divide
  dsimp only
  rw [if_pos h]

theorem ComputeInteractionState_result (s : vtkCenteredSliderRepresentation) (x y : Int) :
    (s.ComputeInteractionState x y).2.1 = (s.ComputeInteractionState x y).1.InteractionState := by
  unfold ComputeInteractionState divide
  dsimp only
  split_ifs <;> rfl

/-- Outside the horizontal range the result is `Outside`, after the two divisions by the
extents of the rectangle when it is not degenerate. -/
theorem ComputeInteractionState_outside (s : vtkCenteredSliderRepresentation) (x y : Int)
    (h : Double.lt (Double.div (Double.sub (Double.ofInt x) (Double.ofInt s.point1.1))
        (Double.ofInt (wrapInt 32 true (s.point2.1 - s.point1.1)))) (Double.ofInt 0) = true ∨
      Double.lt Double.one (Double.div (Double.sub (Double.ofInt x) (Double.ofInt s.point1.1))
        (Double.ofInt (wrapInt 32 true (s.point2.1 - s.point1.1)))) = true) :
    (s.ComputeInteractionState x y).2.1 = .Outside ∧
    (wrapInt 32 true (s.point2.1 - s.point1.1) ≠ 0 →
      wrapInt 32 true (s.point2.2 - s.point1.2) ≠ 0 →
      (s.ComputeInteractionState x y).2.2 =
        [⟨.width, Double.ofInt (wrapInt 32 true (s.point2.1 - s.point1.1))⟩,
         ⟨.height, Double.ofInt (wrapInt 32 true (s.point2.2 - s.point1.2))⟩]) := by
  have hc : (Double.lt (Double.div (Double.sub (Double.ofInt x) (Double.ofInt s.point1.1))
        (Double.ofInt (wrapInt 32 true (s.point2.1 - s.point1.1)))) (Double.ofInt 0) ||
      Double.lt Double.one (Double.div (Double.sub (Double.ofInt x) (Double.ofInt s.point1.1))
        (Double.ofInt (wrapInt 32 true (s.point2.1 - s.point1.1))))) = true := by
    rw [Bool.or_eq_true]
    exact h
  unfold ComputeInteractionState divide
  dsimp only
  split_ifs with h0
  · exact ⟨rfl, fun hw hh => absurd h0 (by
      intro e
      rcases e with e | e
      · exact hw e
      · exact hh e)⟩
  · exact ⟨rfl, fun _ _ => rfl⟩

/-- Inside the horizontal range of a rectangle that is not degenerate the division by
the extent of the arc is executed: it is the third division, and in the `Tube` branch,
and there only, a division by the height and another by the extent of the arc follow. -/
theorem ComputeInteractionState_inside (s : vtkCenteredSliderRepresentation) (x y : Int)
    (hw : wrapInt 32 true (s.point2.1 - s.point1.1) ≠ 0)
    (hh : wrapInt 32 true (s.point2.2 - s.point1.2) ≠ 0)
    (h0 : Double.lt (Double.div (Double.sub (Double.ofInt x) (Double.ofInt s.point1.1))
        (Double.ofInt (wrapInt 32 true (s.point2.1 - s.point1.1)))) (Double.ofInt 0) = false)
    (h1 : Double.lt Double.one (Double.div (Double.sub (Double.ofInt x)
        (Double.ofInt s.point1.1))
        (Double.ofInt (wrapInt 32 true (s.point2.1 - s.point1.1)))) = false) :
    ((s.ComputeInteractionState x y).2.1 = .Tube ∧
      (s.ComputeInteractionState x y).2.2 =
        [⟨.width, Double.ofInt (wrapInt 32 true (s.point2.1 - s.point1.1))⟩,
         ⟨.height, Double.ofInt (wrapInt 32 true (s.point2.2 - s.point1.2))⟩,
         ⟨.arc, Double.sub s.ArcEnd s.ArcStart⟩,
         ⟨.height, Double.ofInt (wrapInt 32 true (s.point2.2 - s.point1.2))⟩,
         ⟨.arc, Double.sub s.ArcEnd s.ArcStart⟩]) ∨
    ((s.ComputeInteractionState x y).2.1 ≠ .Tube ∧
      (s.ComputeInteractionState x y).2.2 =
        [⟨.width, Double.ofInt (wrapInt 32 true (s.point2.1 - s.point1.1))⟩,
         ⟨.height, Double.ofInt (wrapInt 32 true (s.point2.2 - s.point1.2))⟩,
         ⟨.arc, Double.sub s.ArcEnd s.ArcStart⟩]) := by
  have hc : ¬ ((Double.lt (Double.div (Double.sub (Double.ofInt x) (Double.ofInt s.point1.1))
        (Double.ofInt (wrapInt 32 true (s.point2.1 - s.point1.1)))) (Double.ofInt 0) ||
      Double.lt Double.one (Double.div (Double.sub (Double.ofInt x) (Double.ofInt s.point1.1))
        (Double.ofInt (wrapInt 32 true (s.point2.1 - s.point1.1))))) = true) := by
    rw [h0, h1]
    decide
  have hd : ¬ (wrapInt 32 true (s.point2.1 - s.point1.1) = 0 ∨
      wrapInt 32 true (s.point2.2 - s.point1.2) = 0) := by
    intro e
    rcases e with e | e
    · exact hw e
    · exact hh e
  unfold ComputeInteractionState divide
  dsimp only
  rw [if_neg hd, if_neg hc]
  split_ifs
  · exact Or.inr ⟨fun e => InteractionState.noConfusion e, rfl⟩
  · exact Or.inl ⟨rfl, rfl⟩
  · exact Or.inr ⟨fun e => InteractionState.noConfusion e, rfl⟩
  · exact Or.inr ⟨fun e => InteractionState.noConfusion e, rfl⟩
  · exact Or.inr ⟨fun e => InteractionState.noConfusion e, rfl⟩

/-- The divisions that `ComputeInteractionState` executes: none when the rectangle is
degenerate; otherwise the two by the extents of the rectangle, then possibly the one by
the extent of the arc, then possibly the two of `ComputePickPosition`. -/
theorem ComputeInteractionState_log (s : vtkCenteredSliderRepresentation) (x y : Int) :
    (s.ComputeInteractionState x y).2.2 = [] ∨
    ((wrapInt 32 true (s.point2.1 - s.point1.1) ≠ 0 ∧
      wrapInt 32 true (s.point2.2 - s.point1.2) ≠ 0) ∧
     ((s.ComputeInteractionState x y).2.2 =
        [⟨.width, Double.ofInt (wrapInt 32 true (s.point2.1 - s.point1.1))⟩,
         ⟨.height, Double.ofInt (wrapInt 32 true (s.point2.2 - s.point1.2))⟩] ∨
      (s.ComputeInteractionState x y).2.2 =
        [⟨.width, Double.ofInt (wrapInt 32 true (s.point2.1 - s.point1.1))⟩,
         ⟨.height, Double.ofInt (wrapInt 32 true (s.point2.2 - s.point1.2))⟩,
         ⟨.arc, Double.sub s.ArcEnd s.ArcStart⟩] ∨
      (s.ComputeInteractionState x y).2.2 =
        [⟨.width, Double.ofInt (wrapInt 32 true (s.point2.1 - s.point1.1))⟩,
         ⟨.height, Double.ofInt (wrapInt 32 true (s.point2.2 - s.point1.2))⟩,
         ⟨.arc, Double.sub s.ArcEnd s.ArcStart⟩,
         ⟨.height, Double.ofInt (wrapInt 32 true (s.point2.2 - s.point1.2))⟩,
         ⟨.arc, Double.sub s.ArcEnd s.ArcStart⟩])) := by
  unfold ComputeInteractionState divide
  dsimp only
  split_ifs with h0
  · exact Or.inl rfl
  · exact Or.inr ⟨⟨fun e => h0 (Or.inl e), fun e => h0 (Or.inr e)⟩, Or.inl rfl⟩
  · exact Or.inr ⟨⟨fun e => h0 (Or.inl e), fun e => h0 (Or.inr e)⟩, Or.inr (Or.inl rfl)⟩
  · exact Or.inr ⟨⟨fun e => h0 (Or.inl e), fun e => h0 (Or.inr e)⟩, Or.inr (Or.inr rfl)⟩
  · exact Or.inr ⟨⟨fun e => h0 (Or.inl e), fun e => h0 (Or.inr e)⟩, Or.inr (Or.inl rfl)⟩
  · exact Or.inr ⟨⟨fun e => h0 (Or.inl e), fun e => h0 (Or.inr e)⟩, Or.inr (Or.inl rfl)⟩
  · exact Or.inr ⟨⟨fun e => h0 (Or.inl e), fun e => h0 (Or.inr e)⟩, Or.inr (Or.inl rfl)⟩

end vtkCenteredSliderRepresentation

/-- C18 as stated fails: on the slider as the constructor leaves it, on the rectangle
from `(0, 0)` to `(100, 100)` (so `point2[1] != point1[1]` and `ArcEnd != ArcStart`), the
call `ComputePickPosition(7, NaN)` returns NaN: both comparisons of the conditional
expression are false for a NaN, which is returned as it is. The value returned is not
in the interval from `0.0` to `1.0`. -/
theorem C18_not_a_number_counterexample :
    exampleSlider.point2.2 ≠ exampleSlider.point1.2 ∧
    Double.eq exampleSlider.ArcEnd exampleSlider.ArcStart = false ∧
    (exampleSlider.ComputePickPosition (Double.ofInt 7) Double.nan []).2.1 = Double.nan ∧
    Double.le Double.zero
      (exampleSlider.ComputePickPosition (Double.ofInt 7) Double.nan []).2.1 = false ∧
    Double.le (exampleSlider.ComputePickPosition (Double.ofInt 7) Double.nan []).2.1
      Double.one = false := by
  refine ⟨by decide!, by decide!, by decide!, by decide!, by decide!⟩

/-- C18 (amended): `ComputePickPosition(x, y)`, for every pick `y` and every widget
rectangle whose `point1[1]` and `point2[1]` are different `int` values, with
`ArcEnd != ArcStart`: the value returned is the value stored in `PickedT` (nothing else
of the state changes); it is `max(min(t, 1.0), 0.0)` for
`t = ((y - point1[1]) / (point2[1] - point1[1]) - ArcStart) / (ArcEnd - ArcStart)`; it
lies between `0.0` and `1.0` when `t` is not a NaN and is a NaN when `t` is one; it is
the same for every `x`; and the two divisions executed, by the height and by the extent
of the arc, have no zero as divisor. -/
theorem C18_ComputePickPosition (s : vtkCenteredSliderRepresentation) (x x' y : Double)
    (h1 : -2147483648 ≤ s.point1.2 ∧ s.point1.2 ≤ 2147483647)
    (h2 : -2147483648 ≤ s.point2.2 ∧ s.point2.2 ≤ 2147483647)
    (hy : s.point2.2 ≠ s.point1.2) (ha : Double.eq s.ArcEnd s.ArcStart = false) :
    (s.ComputePickPosition x y []).2.1 = (s.ComputePickPosition x y []).1.PickedT ∧
    (s.ComputePickPosition x y []).1 =
      { s with PickedT := (s.ComputePickPosition x y []).2.1 } ∧
    (s.ComputePickPosition x y []).2.1 =
      Double.clamp (s.arcParameter y) Double.zero Double.one ∧
    ((s.arcParameter y).isNaN = false →
      Double.le Double.zero (s.ComputePickPosition x y []).2.1 = true ∧
      Double.le (s.ComputePickPosition x y []).2.1 Double.one = true) ∧
    ((s.arcParameter y).isNaN = true → (s.ComputePickPosition x y []).2.1 = Double.nan) ∧
    s.ComputePickPosition x' y [] = s.ComputePickPosition x y [] ∧
    (s.ComputePickPosition x y []).2.2 =
      [⟨.height, Double.ofInt (wrapInt 32 true (s.point2.2 - s.point1.2))⟩,
       ⟨.arc, Double.sub s.ArcEnd s.ArcStart⟩] ∧
    (Double.ofInt (wrapInt 32 true (s.point2.2 - s.point1.2))).isZero = false ∧
    (Double.sub s.ArcEnd s.ArcStart).isZero = false := by
  rw [vtkCenteredSliderRepresentation.ComputePickPosition_eq s x y [],
    vtkCenteredSliderRepresentation.ComputePickPosition_eq s x' y []]
  refine ⟨rfl, rfl, rfl, fun ht => Double.clamp_bounds _ ht, ?_, rfl, rfl, ?_, ?_⟩
  · intro ht
    show Double.clamp (s.arcParameter y) Double.zero Double.one = Double.nan
    cases hq : s.arcParameter y with
    | nan => rfl
    | finite b u => rw [hq] at ht; cases ht
    | infinite b => rw [hq] at ht; cases ht
  · exact Double.ofInt_isZero _ (wrapInt_32_sub_ne_zero _ _ h1 h2 hy)
  · rw [Double.sub_isZero, ha, Bool.and_false]

/-- C18 (amended), at a concrete input: the pick `y = 50` on the rectangle from `(0, 0)`
to `(100, 100)` with the arc of the constructor (from `0.23000000000000004` to `0.92`)
gives `7049112460232080 * 2^-54`, which is `0.3913043478260869`, whatever `x` is. -/
theorem C18_ComputePickPosition_witness :
    (exampleSlider.ComputePickPosition (Double.ofInt 7) (Double.ofInt 50) []).2.1 =
      Double.finite false (7049112460232080 * 2 ^ 1020) ∧
    (exampleSlider.ComputePickPosition (Double.ofInt 7) (Double.ofInt 50) []).1.PickedT =
      Double.finite false (7049112460232080 * 2 ^ 1020) ∧
    Double.le Double.zero
      (exampleSlider.ComputePickPosition (Double.ofInt 7) (Double.ofInt 50) []).2.1 = true ∧
    Double.le (exampleSlider.ComputePickPosition (Double.ofInt 7) (Double.ofInt 50) []).2.1
      Double.one = true ∧
    exampleSlider.ComputePickPosition (Double.ofInt 99) (Double.ofInt 50) [] =
      exampleSlider.ComputePickPosition (Double.ofInt 7) (Double.ofInt 50) [] :=
  have h := C18_ComputePickPosition exampleSlider (Double.ofInt 7) (Double.ofInt 99)
    (Double.ofInt 50) (by decide!) (by decide!) (by decide!) (by decide!)
  have hv : (exampleSlider.ComputePickPosition (Double.ofInt 7) (Double.ofInt 50) []).2.1 =
      Double.finite false (7049112460232080 * 2 ^ 1020) := by decide!
  ⟨hv, h.1 ▸ hv, (h.2.2.2.1 (by decide!)).1, (h.2.2.2.1 (by decide!)).2, h.2.2.2.2.2.1⟩

/-- C19 as stated fails: for the pick `(50, 50)` on the rectangle from `(0, 0)` to
`(100, 100)`, with the slider as the constructor leaves it, the result is `Tube` and five
divisions are executed, the third and the fifth of which divide by `ArcEnd - ArcStart`,
which is `0.69` to the last bit, not an extent of the rectangle (both are `100`), and
which the function does not test. -/
theorem C19_divisions_counterexample :
    (exampleSlider.ComputeInteractionState 50 50).2.1 = .Tube ∧
    (exampleSlider.ComputeInteractionState 50 50).2.2.map Division.kind =
      [.width, .height, .arc, .height, .arc] ∧
    (exampleSlider.ComputeInteractionState 50 50).2.2[2]? =
      some ⟨.arc, Double.sub exampleSlider.ArcEnd exampleSlider.ArcStart⟩ ∧
    (exampleSlider.ComputeInteractionState 50 50).2.2[4]? =
      some ⟨.arc, Double.sub exampleSlider.ArcEnd exampleSlider.ArcStart⟩ ∧
    Double.sub exampleSlider.ArcEnd exampleSlider.ArcStart =
      Double.finite false (6214967485771284 * 2 ^ 1021) ∧
    Double.ofInt 100 = Double.finite false (100 * 2 ^ 1074) := by
  refine ⟨by decide!, by decide!, by decide!, by decide!, by decide!, by decide!⟩

/-- C19 (amended): `ComputeInteractionState(x, y)`, for every pick: when the widget
rectangle is degenerate (`point2[0] = point1[0]` or `point2[1] = point1[1]`) the result is
`Outside` and no division is executed. Every division by the width or by the height of
the rectangle that the function executes, that of the `ComputePickPosition` call of the
`Tube` branch included, has that extent as a non-zero divisor; every other division it
executes divides by `ArcEnd - ArcStart`, which is a zero exactly when `ArcEnd` and
`ArcStart` are finite and equal. On a rectangle that is not degenerate, with the
horizontal parametric coordinate `(x - point1[0]) / (point2[0] - point1[0])` neither
below `0` nor above `1`, the division by `ArcEnd - ArcStart` is executed, untested, as
the third division, and when the result is `Tube`, and then only, a division by the
height and another by `ArcEnd - ArcStart` follow. When the horizontal parametric
coordinate is below `0` or above `1` the result is `Outside`, after the two divisions by
the extents of a rectangle that is not degenerate. The result is the stored
`InteractionState`. -/
theorem C19_ComputeInteractionState_divisions (s : vtkCenteredSliderRepresentation)
    (x y : Int) :
    ((s.point2.1 = s.point1.1 ∨ s.point2.2 = s.point1.2) →
      (s.ComputeInteractionState x y).2.1 = .Outside ∧
      (s.ComputeInteractionState x y).1.InteractionState = .Outside ∧
      (s.ComputeInteractionState x y).2.2 = []) ∧
    (∀ d, d ∈ (s.ComputeInteractionState x y).2.2 →
      (d.kind = .width →
        d.divisor = Double.ofInt (wrapInt 32 true (s.point2.1 - s.point1.1)) ∧
        d.divisor.isZero = false) ∧
      (d.kind = .height →
        d.divisor = Double.ofInt (wrapInt 32 true (s.point2.2 - s.point1.2)) ∧
        d.divisor.isZero = false) ∧
      (d.kind = .arc → d.divisor = Double.sub s.ArcEnd s.ArcStart)) ∧
    ((Double.sub s.ArcEnd s.ArcStart).isZero =
      (s.ArcEnd.isFinite && s.ArcStart.isFinite && Double.eq s.ArcEnd s.ArcStart)) ∧
    (wrapInt 32 true (s.point2.1 - s.point1.1) ≠ 0 →
      wrapInt 32 true (s.point2.2 - s.point1.2) ≠ 0 →
      Double.lt (Double.div (Double.sub (Double.ofInt x) (Double.ofInt s.point1.1))
        (Double.ofInt (wrapInt 32 true (s.point2.1 - s.point1.1)))) (Double.ofInt 0) = false →
      Double.lt Double.one (Double.div (Double.sub (Double.ofInt x) (Double.ofInt s.point1.1))
        (Double.ofInt (wrapInt 32 true (s.point2.1 - s.point1.1)))) = false →
      ((s.ComputeInteractionState x y).2.1 = .Tube ∧
        (s.ComputeInteractionState x y).2.2 =
          [⟨.width, Double.ofInt (wrapInt 32 true (s.point2.1 - s.point1.1))⟩,
           ⟨.height, Double.ofInt (wrapInt 32 true (s.point2.2 - s.point1.2))⟩,
           ⟨.arc, Double.sub s.ArcEnd s.ArcStart⟩,
           ⟨.height, Double.ofInt (wrapInt 32 true (s.point2.2 - s.point1.2))⟩,
           ⟨.arc, Double.sub s.ArcEnd s.ArcStart⟩]) ∨
      ((s.ComputeInteractionState x y).2.1 ≠ .Tube ∧
        (s.ComputeInteractionState x y).2.2 =
          [⟨.width, Double.ofInt (wrapInt 32 true (s.point2.1 - s.point1.1))⟩,
           ⟨.height, Double.ofInt (wrapInt 32 true (s.point2.2 - s.point1.2))⟩,
           ⟨.arc, Double.sub s.ArcEnd s.ArcStart⟩])) ∧
    ((Double.lt (Double.div (Double.sub (Double.ofInt x) (Double.ofInt s.point1.1))
        (Double.ofInt (wrapInt 32 true (s.point2.1 - s.point1.1)))) (Double.ofInt 0) = true ∨
      Double.lt Double.one (Double.div (Double.sub (Double.ofInt x) (Double.ofInt s.point1.1))
        (Double.ofInt (wrapInt 32 true (s.point2.1 - s.point1.1)))) = true) →
      (s.ComputeInteractionState x y).2.1 = .Outside ∧
      (wrapInt 32 true (s.point2.1 - s.point1.1) ≠ 0 →
        wrapInt 32 true (s.point2.2 - s.point1.2) ≠ 0 →
        (s.ComputeInteractionState x y).2.2 =
          [⟨.width, Double.ofInt (wrapInt 32 true (s.point2.1 - s.point1.1))⟩,
           ⟨.height, Double.ofInt (wrapInt 32 true (s.point2.2 - s.point1.2))⟩])) ∧
    (s.ComputeInteractionState x y).2.1 = (s.ComputeInteractionState x y).1.InteractionState := by
  refine ⟨?_, ?_, Double.sub_isZero _ _,
    vtkCenteredSliderRepresentation.ComputeInteractionState_inside s x y,
    vtkCenteredSliderRepresentation.ComputeInteractionState_outside s x y,
    vtkCenteredSliderRepresentation.ComputeInteractionState_result s x y⟩
  · intro hdeg
    have h : wrapInt 32 true (s.point2.1 - s.point1.1) = 0 ∨
        wrapInt 32 true (s.point2.2 - s.point1.2) = 0 := by
      rcases hdeg with e | e
      · left
        rw [e, sub_self]
        exact wrapInt_32_zero
      · right
        rw [e, sub_self]
        exact wrapInt_32_zero
    rw [vtkCenteredSliderRepresentation.ComputeInteractionState_degenerate s x y h]
    exact ⟨rfl, rfl, rfl⟩
  · intro d hd
    have key : ∀ (_ : wrapInt 32 true (s.point2.1 - s.point1.1) ≠ 0)
        (_ : wrapInt 32 true (s.point2.2 - s.point1.2) ≠ 0),
        (d = ⟨.width, Double.ofInt (wrapInt 32 true (s.point2.1 - s.point1.1))⟩ ∨
         d = ⟨.height, Double.ofInt (wrapInt 32 true (s.point2.2 - s.point1.2))⟩ ∨
         d = ⟨.arc, Double.sub s.ArcEnd s.ArcStart⟩) →
        (d.kind = .width →
          d.divisor = Double.ofInt (wrapInt 32 true (s.point2.1 - s.point1.1)) ∧
          d.divisor.isZero = false) ∧
        (d.kind = .height →
          d.divisor = Double.ofInt (wrapInt 32 true (s.point2.2 - s.point1.2)) ∧
          d.divisor.isZero = false) ∧
        (d.kind = .arc → d.divisor = Double.sub s.ArcEnd s.ArcStart) := by
      intro hw hh hcase
      rcases hcase with e | e | e
      · have hk : d.kind = .width := by rw [e]
        have hv : d.divisor = Double.ofInt (wrapInt 32 true (s.point2.1 - s.point1.1)) := by
          rw [e]
        refine ⟨fun _ => ⟨hv, ?_⟩, fun e' => ?_, fun e' => ?_⟩
        · rw [hv]
          exact Double.ofInt_isZero _ hw
        · rw [hk] at e'
          exact DivisorKind.noConfusion e'
        · rw [hk] at e'
          exact DivisorKind.noConfusion e'
      · have hk : d.kind = .height := by rw [e]
        have hv : d.divisor = Double.ofInt (wrapInt 32 true (s.point2.2 - s.point1.2)) := by
          rw [e]
        refine ⟨fun e' => ?_, fun _ => ⟨hv, ?_⟩, fun e' => ?_⟩
        · rw [hk] at e'
          exact DivisorKind.noConfusion e'
        · rw [hv]
          exact Double.ofInt_isZero _ hh
        · rw [hk] at e'
          exact DivisorKind.noConfusion e'
      · have hk : d.kind = .arc := by rw [e]
        have hv : d.divisor = Double.sub s.ArcEnd s.ArcStart := by rw [e]
        refine ⟨fun e' => ?_, fun e' => ?_, fun _ => hv⟩
        · rw [hk] at e'
          exact DivisorKind.noConfusion e'
        · rw [hk] at e'
          exact DivisorKind.noConfusion e'
    rcases vtkCenteredSliderRepresentation.ComputeInteractionState_log s x y with
      h | ⟨⟨hw, hh⟩, h | h | h⟩
    · rw [h] at hd
      cases hd
    · rw [h] at hd
      apply key hw hh
      rcases List.mem_cons.mp hd with e | hd
      · exact Or.inl e
      · rcases List.mem_cons.mp hd with e | hd
        · exact Or.inr (Or.inl e)
        · cases hd
    · rw [h] at hd
      apply key hw hh
      rcases List.mem_cons.mp hd with e | hd
      · exact Or.inl e
      · rcases List.mem_cons.mp hd with e | hd
        · exact Or.inr (Or.inl e)
        · rcases List.mem_cons.mp hd with e | hd
          · exact Or.inr (Or.inr e)
          · cases hd
    · rw [h] at hd
      apply key hw hh
      rcases List.mem_cons.mp hd with e | hd
      · exact Or.inl e
      · rcases List.mem_cons.mp hd with e | hd
        · exact Or.inr (Or.inl e)
        · rcases List.mem_cons.mp hd with e | hd
          · exact Or.inr (Or.inr e)
          · rcases List.mem_cons.mp hd with e | hd
            · exact Or.inr (Or.inl e)
            · rcases List.mem_cons.mp hd with e | hd
              · exact Or.inr (Or.inr e)
              · cases hd

/-- C19 (amended), at concrete inputs: a pick on a rectangle of no width; the pick
`(150, 50)`, to the right of the rectangle from `(0, 0)` to `(100, 100)`; and the pick
`(50, 50)` inside it, on the tube, with its five divisions. -/
theorem C19_ComputeInteractionState_divisions_witness :
    ((degenerateSlider.ComputeInteractionState 50 50).2.1 = .Outside ∧
      (degenerateSlider.ComputeInteractionState 50 50).1.InteractionState = .Outside ∧
      (degenerateSlider.ComputeInteractionState 50 50).2.2 = []) ∧
    ((exampleSlider.ComputeInteractionState 150 50).2.1 = .Outside ∧
      (exampleSlider.ComputeInteractionState 150 50).2.2 =
        [⟨.width, Double.ofInt 100⟩, ⟨.height, Double.ofInt 100⟩]) ∧
    ((exampleSlider.ComputeInteractionState 50 50).2.1 = .Tube ∧
      (exampleSlider.ComputeInteractionState 50 50).2.2 =
        [⟨.width, Double.ofInt 100⟩, ⟨.height, Double.ofInt 100⟩,
         ⟨.arc, Double.sub exampleSlider.ArcEnd exampleSlider.ArcStart⟩,
         ⟨.height, Double.ofInt 100⟩,
         ⟨.arc, Double.sub exampleSlider.ArcEnd exampleSlider.ArcStart⟩]) :=
  have ho := (C19_ComputeInteractionState_divisions exampleSlider 150 50).2.2.2.2.1
    (Or.inr (by decide!))
  ⟨(C19_ComputeInteractionState_divisions degenerateSlider 50 50).1 (Or.inl (by decide!)),
   ⟨ho.1, ho.2 (by decide!) (by decide!)⟩,
   ((C19_ComputeInteractionState_divisions exampleSlider 50 50).2.2.2.1
      (by decide!) (by decide!) (by decide!) (by decide!)).resolve_right
        (fun hr => hr.1 (by decide!))⟩

end VTK
